import Mathlib

/-
Verification of the swarmkit static-service orchestrator, the dispatcher
assignment engine and the peer-group store extensions.

The Go source is shallowly embedded:
  * Go structs become Lean structures; nilable pointers become `Option`.
  * Go maps become association lists with upsert semantics (`alPut`),
    `map[...]struct{}` sets become duplicate-free insertion lists (`setAdd`).
  * Go range loops become structural recursions over the ranged list.
  * External collaborators that are not part of this repository
    (the memdb store read transactions, the secret driver provider, the
    certificate signing chain of cloudflare/cfssl, `equality.TasksEqualStable`,
    `net.ParseCIDR`, `constraint.Parse`/`NodeMatches`, `identity.NewID`,
    `time.Now`) are modelled as components of an explicit environment `Env`
    passed to the embedded functions, exactly at the call sites where the
    source invokes them.
  * Functions that the source exposes as methods keep their method names as
    top-level definitions, taking the receiver first.
Every assignment the engine performs into its pending `changes` map is also
recorded in an explicit write log (`List Write`) so that "a change is emitted"
is a statement about the log, independent of the coalescing the map performs.
-/

namespace SwarmKit

/-! ### Association-list maps and insertion sets (Go maps / set maps) -/

def alGet {κ α : Type} [DecidableEq κ] : List (κ × α) → κ → Option α
  | [], _ => none
  | e :: rest, k => if e.1 = k then some e.2 else alGet rest k

def alPut {κ α : Type} [DecidableEq κ] : List (κ × α) → κ → α → List (κ × α)
  | [], k, v => [(k, v)]
  | e :: rest, k, v => if e.1 = k then (k, v) :: rest else e :: alPut rest k v

def alDel {κ α : Type} [DecidableEq κ] : List (κ × α) → κ → List (κ × α)
  | [], _ => []
  | e :: rest, k => if e.1 = k then alDel rest k else e :: alDel rest k

/-- Insert into a `map[string]struct{}`-style set: no duplicates. -/
def setAdd (s : List String) (x : String) : List String :=
  if x ∈ s then s else s ++ [x]

/-- `delete` on a `map[string]struct{}`-style set. -/
def setDel : List String → String → List String
  | [], _ => []
  | y :: rest, x => if y = x then setDel rest x else y :: setDel rest x

/-! ### Data model (api package) -/

/-- `api.TaskState`; only the relative order of the states matters, so the
states carry their position in the ordered chain. -/
inductive TaskState where
  | new | pending | assigned | accepted | preparing | ready | starting
  | running | completed | shutdown | failed | rejected | remove | orphaned
  deriving DecidableEq, Repr, Inhabited

def TaskState.code : TaskState → Nat
  | .new => 0 | .pending => 1 | .assigned => 2 | .accepted => 3
  | .preparing => 4 | .ready => 5 | .starting => 6 | .running => 7
  | .completed => 8 | .shutdown => 9 | .failed => 10 | .rejected => 11
  | .remove => 12 | .orphaned => 13

/-- `api.ResourceType`. -/
inductive ResourceType where
  | task | secret | config
  deriving DecidableEq, Repr, Inhabited

/-- protobuf `Timestamp`. -/
structure Timestamp where
  seconds : Int
  nanos : Int
  deriving DecidableEq, Repr, Inhabited

/-- `api.TaskStatus` (the fields the embedded code reads). -/
structure TaskStatus where
  state : TaskState
  timestamp : Option Timestamp
  appliedAt : Option Timestamp
  message : String
  deriving DecidableEq, Repr, Inhabited

/-- `api.Version` (`SpecVersion`). -/
structure Version where
  index : Nat
  deriving DecidableEq, Repr, Inhabited

/-- `api.Annotations` (the name; labels are never read by the embedded code). -/
structure Annotations where
  name : String
  deriving DecidableEq, Repr, Inhabited

/-- `api.Driver`. -/
structure Driver where
  name : String
  deriving DecidableEq, Repr, Inhabited

/-- `api.FileTarget`. -/
structure FileTarget where
  name : String
  mode : Nat
  uid : String
  gid : String
  deriving DecidableEq, Repr, Inhabited

/-- `api.ResourceReference`. -/
structure ResourceReference where
  resourceType : ResourceType
  resourceID : String
  deriving DecidableEq, Repr, Inhabited

/-- `api.SecretReference` (only `SecretID` is read). -/
structure SecretReference where
  secretID : String
  deriving DecidableEq, Repr, Inhabited

/-- `api.ConfigReference`. -/
structure ConfigReference where
  configID : String
  configName : String
  target : Option FileTarget
  deriving DecidableEq, Repr, Inhabited

/-- `api.CertificateIssuance`. -/
structure CertificateIssuance where
  certificateAuthorityID : String
  directory : FileTarget
  deriving DecidableEq, Repr, Inhabited

/-- `api.ContainerSpec` (the fields the embedded code reads). -/
structure ContainerSpec where
  image : String
  secrets : List SecretReference
  configs : List ConfigReference
  certificateIssuances : List CertificateIssuance
  pullOptions : Option String
  deriving DecidableEq, Repr, Inhabited

/-- `api.Placement`. -/
structure Placement where
  constraints : List String
  deriving DecidableEq, Repr, Inhabited

/-- `api.TaskSpec` (container runtime variant; nilable `Placement`). -/
structure TaskSpec where
  container : Option ContainerSpec
  resourceReferences : List ResourceReference
  placement : Option Placement
  logDriver : Option Driver
  deriving DecidableEq, Repr, Inhabited

/-- `api.EndpointSpec` (compared only for structural equality). -/
structure EndpointSpec where
  ports : List Nat
  deriving DecidableEq, Repr, Inhabited

/-- `api.Endpoint` on a task. -/
structure Endpoint where
  spec : Option EndpointSpec
  deriving DecidableEq, Repr, Inhabited

/-- `api.NetworkAttachment` on `StaticInfo` (addresses carry CIDR suffixes). -/
structure NetworkAttachment where
  addresses : List String
  deriving DecidableEq, Repr, Inhabited

/-- `api.StaticInfo` populated by the scheduler on a static service. -/
structure StaticInfo where
  nodeID : String
  message : String
  networkAttachment : Option NetworkAttachment
  deriving DecidableEq, Repr, Inhabited

/-- `api.ServiceSpec.Mode` variants. -/
inductive ServiceMode where
  | replicated (replicas : Nat)
  | global
  | mstatic (peerGroup : String) (peerNetwork : String)
  deriving DecidableEq, Repr, Inhabited

/-- `api.ServiceSpec`. -/
structure ServiceSpec where
  annotations : Annotations
  task : TaskSpec
  mode : ServiceMode
  endpoint : Option EndpointSpec
  deriving DecidableEq, Repr, Inhabited

/-- `api.Service`. -/
structure Service where
  id : String
  specVersion : Option Version
  spec : ServiceSpec
  staticInfo : Option StaticInfo
  deriving DecidableEq, Repr, Inhabited

/-- `service.Spec.GetStatic()`: the static-mode payload, nil otherwise. -/
def ServiceSpec.getStatic (s : ServiceSpec) : Option (String × String) :=
  match s.mode with
  | .mstatic peerGroup peerNetwork => some (peerGroup, peerNetwork)
  | _ => none

/-- `api.Task` (the fields the embedded code reads or writes). -/
structure Task where
  id : String
  serviceID : String
  slot : Nat
  nodeID : String
  spec : TaskSpec
  serviceAnnotations : Annotations
  specVersion : Option Version
  desiredState : TaskState
  status : TaskStatus
  endpoint : Option Endpoint
  logDriver : Option Driver
  materializedConfigs : List ConfigReference
  deriving DecidableEq, Repr, Inhabited

/-- A zero-valued `api.Task{ID: id}` (the minimal payload `removeTask` emits). -/
def Task.justID (id : String) : Task :=
  { id := id, serviceID := "", slot := 0, nodeID := "",
    spec := { container := none, resourceReferences := [], placement := none, logDriver := none },
    serviceAnnotations := { name := "" }, specVersion := none,
    desiredState := .new,
    status := { state := .new, timestamp := none, appliedAt := none, message := "" },
    endpoint := none, logDriver := none, materializedConfigs := [] }

/-- `api.SecretSpec`. -/
structure SecretSpec where
  data : String
  driver : Option Driver
  deriving DecidableEq, Repr, Inhabited

/-- `api.Secret`. -/
structure Secret where
  id : String
  spec : SecretSpec
  deriving DecidableEq, Repr, Inhabited

/-- A zero-valued `api.Secret{ID: id}` minimal payload. -/
def Secret.justID (id : String) : Secret :=
  { id := id, spec := { data := "", driver := none } }

/-- The peer-group materialized config body, `peerGroupConfig` in the source.
`Peers` is a Go `map[string]string`, embedded as an upsert association list. -/
structure PeerGroupConfig where
  selfName : String
  selfAddr : String
  peers : List (String × String)
  deriving DecidableEq, Repr, Inhabited

/-- Config payload bytes. A payload is either raw bytes or the
`json.MarshalIndent` serialization of a `peerGroupConfig`; the serialization is
injective, so the marshalled bytes are represented by the value marshalled. -/
inductive ConfigData where
  | bytes (s : String)
  | peerGroupJSON (c : PeerGroupConfig)
  deriving DecidableEq, Repr, Inhabited

/-- `api.ConfigSpec`. -/
structure ConfigSpec where
  data : ConfigData
  deriving DecidableEq, Repr, Inhabited

/-- `api.Config`. -/
structure Config where
  id : String
  spec : ConfigSpec
  deriving DecidableEq, Repr, Inhabited

/-- A zero-valued `api.Config{ID: id}` minimal payload. -/
def Config.justID (id : String) : Config :=
  { id := id, spec := { data := .bytes "" } }

/-- `api.CertificateAuthority`. -/
structure CertificateAuthority where
  id : String
  cert : String
  key : String
  deriving DecidableEq, Repr, Inhabited

/-- `api.Node` (the fields used by constraint matching). -/
structure Node where
  id : String
  labels : List (String × String)
  deriving DecidableEq, Repr, Inhabited

/-- `api.Cluster` (task defaults only). -/
structure Cluster where
  logDriver : Option Driver
  deriving DecidableEq, Repr, Inhabited

/-- `api.PeerGroupSpec`. -/
structure PeerGroupSpec where
  annotations : Annotations
  network : String
  deriving DecidableEq, Repr, Inhabited

/-- `api.PeerGroup`. -/
structure PeerGroup where
  id : String
  spec : PeerGroupSpec
  deriving DecidableEq, Repr, Inhabited

/-! ### Assignment-change messages -/

/-- `api.Assignment.Item`. -/
inductive Assignment where
  | task (t : Task)
  | secret (s : Secret)
  | config (c : Config)
  deriving DecidableEq, Repr, Inhabited

/-- `api.AssignmentChange_AssignmentAction`. -/
inductive AssignmentAction where
  | update
  | remove
  deriving DecidableEq, Repr, Inhabited

/-- `api.AssignmentChange`. -/
structure AssignmentChange where
  assignment : Assignment
  action : AssignmentAction
  deriving DecidableEq, Repr, Inhabited

/-- `typeAndID`, the dispatcher's dependency key. -/
structure TypeAndID where
  objType : ResourceType
  id : String
  deriving DecidableEq, Repr, Inhabited

/-- One assignment into the engine's pending `changes` map. -/
abbrev Write := TypeAndID × AssignmentChange

/-! ### The environment: store reads and external collaborators -/

/-- External collaborators of the embedded code. The store lookups model the
caller-provided `store.ReadTx`; `driverGet` collapses
`dp.NewSecretDriver(...)` + `d.Get(...)` + `ValidateSecretPayload` into one
fallible call; `issue` collapses the `ca.NewRootCA` / CSR generation / local
signing chain of `addCertIssuanceDependencies` into one fallible call
returning the generated (key, cert) pair; `parseCIDR` is `net.ParseCIDR`
returning the parsed IP's string form; `tasksEqualStable` is
`equality.TasksEqualStable`; `constraintMatch` collapses `constraint.Parse` +
`constraint.NodeMatches`. -/
structure Env where
  getSecret : String → Option Secret
  getConfig : String → Option Config
  getService : String → Option Service
  getCA : String → Option CertificateAuthority
  findServicesByPeerGroup : String → List Service
  driverGet : Driver → SecretSpec → Task → Option String
  issue : CertificateAuthority → String → Option (String × String)
  parseCIDR : String → Option String
  tasksEqualStable : Task → Task → Bool
  constraintMatch : List String → Node → Bool

/-! ### The dispatcher assignment engine (`assignmentSet`) -/

/-- `assignmentSet` (the `dp` driver provider and logger live in `Env`). -/
structure AssignmentSet where
  tasksMap : List (String × Task)
  tasksUsingDependency : List (TypeAndID × List String)
  changes : List (TypeAndID × AssignmentChange)
  deriving DecidableEq, Repr, Inhabited

/-- `newAssignmentSet`. -/
def newAssignmentSet : AssignmentSet :=
  { tasksMap := [], tasksUsingDependency := [], changes := [] }

/-- The reverse-index entry for a key (absent entry and empty set coincide,
exactly as `len(a.tasksUsingDependency[k])` treats them). -/
def AssignmentSet.depGet (a : AssignmentSet) (k : TypeAndID) : List String :=
  (alGet a.tasksUsingDependency k).getD []

/-- The `secret` method of `assignmentSet`: fetch from the store and, for
driver-managed secrets, through the secret driver; `none` is the error case. -/
def secretLookup (env : Env) (task : Task) (secretID : String) : Option Secret :=
  match env.getSecret secretID with
  | none => none
  | some secret =>
    match secret.spec.driver with
    | none => some secret
    | some d =>
      match env.driverGet d secret.spec task with
      | none => none
      | some value => some { secret with spec := { secret.spec with data := value } }

/-- `assignSecret`. -/
def assignSecret (env : Env) (a : AssignmentSet) (mapKey : TypeAndID) (t : Task) :
    AssignmentSet × List Write :=
  let a1 := { a with tasksUsingDependency := alPut a.tasksUsingDependency mapKey [] }
  match secretLookup env t mapKey.id with
  | none => (a1, [])
  | some secret =>
    let ch : AssignmentChange := { assignment := .secret secret, action := .update }
    ({ a1 with changes := alPut a1.changes mapKey ch }, [(mapKey, ch)])

/-- `assignConfig`. -/
def assignConfig (env : Env) (a : AssignmentSet) (mapKey : TypeAndID) :
    AssignmentSet × List Write :=
  let a1 := { a with tasksUsingDependency := alPut a.tasksUsingDependency mapKey [] }
  match env.getConfig mapKey.id with
  | none => (a1, [])
  | some config =>
    let ch : AssignmentChange := { assignment := .config config, action := .update }
    ({ a1 with changes := alPut a1.changes mapKey ch }, [(mapKey, ch)])

/-- Record `t.ID` in the reverse index for `mapKey`
(`a.tasksUsingDependency[mapKey][t.ID] = struct{}{}`). -/
def depInsert (a : AssignmentSet) (mapKey : TypeAndID) (taskID : String) : AssignmentSet :=
  { a with tasksUsingDependency :=
      alPut a.tasksUsingDependency mapKey (setAdd (a.depGet mapKey) taskID) }

/-- Loop body of the `t.Spec.ResourceReferences` range in `addTaskDependencies`. -/
def addResourceRefDep (env : Env) (t : Task) (a : AssignmentSet) (ws : List Write)
    (resourceRef : ResourceReference) : AssignmentSet × List Write :=
  let mapKey : TypeAndID := { objType := resourceRef.resourceType, id := resourceRef.resourceID }
  if (a.depGet mapKey).isEmpty then
    match resourceRef.resourceType with
    | .secret =>
      (depInsert (assignSecret env a mapKey t).1 mapKey t.id, ws ++ (assignSecret env a mapKey t).2)
    | .config =>
      (depInsert (assignConfig env a mapKey).1 mapKey t.id, ws ++ (assignConfig env a mapKey).2)
    | _ => (a, ws) -- invalid resource type: skipped via continue
  else
    (depInsert a mapKey t.id, ws)

/-- The `range t.Spec.ResourceReferences` loop. -/
def addResourceRefsLoop (env : Env) (t : Task) (rs : List ResourceReference)
    (a : AssignmentSet) (ws : List Write) : AssignmentSet × List Write :=
  match rs with
  | [] => (a, ws)
  | r :: rest =>
    addResourceRefsLoop env t rest (addResourceRefDep env t a ws r).1 (addResourceRefDep env t a ws r).2

/-- `container.Secrets` of a task (`nil` container yields the empty list). -/
def Task.containerSecrets (t : Task) : List SecretReference :=
  match t.spec.container with
  | none => []
  | some c => c.secrets

/-- `container.Configs` of a task. -/
def Task.containerConfigs (t : Task) : List ConfigReference :=
  match t.spec.container with
  | none => []
  | some c => c.configs

/-- `container.CertificateIssuances` of a task. -/
def Task.containerCertIssuances (t : Task) : List CertificateIssuance :=
  match t.spec.container with
  | none => []
  | some c => c.certificateIssuances

/-- Loop body of the `range secrets` loop of `addTaskDependencies`. -/
def addSecretRefDep (env : Env) (t : Task) (a : AssignmentSet) (ws : List Write)
    (secretRef : SecretReference) : AssignmentSet × List Write :=
  let mapKey : TypeAndID := { objType := .secret, id := secretRef.secretID }
  if (a.depGet mapKey).isEmpty then
    (depInsert (assignSecret env a mapKey t).1 mapKey t.id, ws ++ (assignSecret env a mapKey t).2)
  else
    (depInsert a mapKey t.id, ws)

/-- The `range secrets` loop of `addTaskDependencies`. -/
def addSecretRefsLoop (env : Env) (t : Task) (srs : List SecretReference)
    (a : AssignmentSet) (ws : List Write) : AssignmentSet × List Write :=
  match srs with
  | [] => (a, ws)
  | secretRef :: rest =>
    addSecretRefsLoop env t rest (addSecretRefDep env t a ws secretRef).1
      (addSecretRefDep env t a ws secretRef).2

/-- Loop body of the `range configs` loop of `addTaskDependencies`. -/
def addConfigRefDep (env : Env) (t : Task) (a : AssignmentSet) (ws : List Write)
    (configRef : ConfigReference) : AssignmentSet × List Write :=
  let mapKey : TypeAndID := { objType := .config, id := configRef.configID }
  if (a.depGet mapKey).isEmpty then
    (depInsert (assignConfig env a mapKey).1 mapKey t.id, ws ++ (assignConfig env a mapKey).2)
  else
    (depInsert a mapKey t.id, ws)

/-- The `range configs` loop of `addTaskDependencies`. -/
def addConfigRefsLoop (env : Env) (t : Task) (crs : List ConfigReference)
    (a : AssignmentSet) (ws : List Write) : AssignmentSet × List Write :=
  match crs with
  | [] => (a, ws)
  | configRef :: rest =>
    addConfigRefsLoop env t rest (addConfigRefDep env t a ws configRef).1
      (addConfigRefDep env t a ws configRef).2

/-- The registration block repeated for each synthesized config
(certificate-issuance ca/key/cert and the peer-group config): if the
dependency has no user yet, create its reverse-index entry and queue an
Update change carrying the synthesized `api.Config`, then record the task. -/
def registerSynthConfig (a : AssignmentSet) (configID : String) (data : ConfigData)
    (taskID : String) : AssignmentSet × List Write :=
  let mapKey : TypeAndID := { objType := .config, id := configID }
  if (a.depGet mapKey).isEmpty then
    let ch : AssignmentChange :=
      { assignment := .config { id := configID, spec := { data := data } }, action := .update }
    let a1 := { a with tasksUsingDependency := alPut a.tasksUsingDependency mapKey [],
                       changes := alPut a.changes mapKey ch }
    (depInsert a1 mapKey taskID, [(mapKey, ch)])
  else
    (depInsert a mapKey taskID, [])

/-- `addCertIssuanceDependencies`. The CSR/signing chain operates only on
external library state, so it is collapsed into `env.issue` (the computed
host set feeds only that chain and does not influence any dependency key);
`none` models any error in the chain, which logs and skips the issuance. -/
def addCertIssuanceDependencies (env : Env) (a : AssignmentSet) (task : Task)
    (certIssuance : CertificateIssuance) : AssignmentSet × List Write :=
  match env.getCA certIssuance.certificateAuthorityID with
  | none => (a, [])
  | some certAuthority =>
    match env.issue certAuthority task.id with
    | none => (a, [])
    | some kc =>
      let caConfigID := task.id ++ "-" ++ certIssuance.certificateAuthorityID ++ "-issue-ca"
      let r1 := registerSynthConfig a caConfigID (.bytes certAuthority.cert) task.id
      let keyConfigID := task.id ++ "-" ++ certIssuance.certificateAuthorityID ++ "-issue-key"
      let r2 := registerSynthConfig r1.1 keyConfigID (.bytes kc.1) task.id
      let certConfigID := task.id ++ "-" ++ certIssuance.certificateAuthorityID ++ "-issue-cert"
      let r3 := registerSynthConfig r2.1 certConfigID (.bytes kc.2) task.id
      (r3.1, r1.2 ++ r2.2 ++ r3.2)

/-- The `range container.CertificateIssuances` loop. -/
def addCertIssuancesLoop (env : Env) (t : Task) (cis : List CertificateIssuance)
    (a : AssignmentSet) (ws : List Write) : AssignmentSet × List Write :=
  match cis with
  | [] => (a, ws)
  | ci :: rest =>
    addCertIssuancesLoop env t rest (addCertIssuanceDependencies env a t ci).1
      (ws ++ (addCertIssuanceDependencies env a t ci).2)

/-- `deCIDR`: strip the CIDR suffix via `net.ParseCIDR`; on a parse error the
original address is returned. -/
def deCIDR (env : Env) (addressWithCIDR : String) : String :=
  match env.parseCIDR addressWithCIDR with
  | none => addressWithCIDR
  | some ip => ip

/-- The first static address of a service
(`svc.StaticInfo.NetworkAttachment.Addresses[0]`; the Go source dereferences
without a nil check and would panic when the attachment is absent, so
theorems about this path assume its presence). -/
def Service.staticAddr0 (svc : Service) : String :=
  match svc.staticInfo with
  | none => ""
  | some si =>
    match si.networkAttachment with
    | none => ""
    | some att => att.addresses.headD ""

/-- Upsert into the Go `map[string]string` of peer addresses. -/
def mapUpsert : List (String × String) → String → String → List (String × String)
  | [], k, v => [(k, v)]
  | e :: rest, k, v => if e.1 = k then (k, v) :: rest else e :: mapUpsert rest k v

/-- The `range peerServices` loop building `peerAddrs` in
`maybeAddStaticServiceDependencies`. Note the source guards on the *self*
service's `StaticInfo.NetworkAttachment` (not the peer's) before reading the
peer's address. -/
def peerAddrsLoop (env : Env) (service : Service) (peerServices : List Service)
    (peerAddrs : List (String × String)) : List (String × String) :=
  match peerServices with
  | [] => peerAddrs
  | peerService :: rest =>
    if peerService.id = service.id then
      peerAddrsLoop env service rest peerAddrs -- skip your own service
    else if (service.staticInfo.bind (·.networkAttachment)).isSome then
      let peerName := peerService.spec.annotations.name
      let peerAddr := deCIDR env peerService.staticAddr0
      peerAddrsLoop env service rest (mapUpsert peerAddrs peerName peerAddr)
    else
      peerAddrsLoop env service rest peerAddrs

/-- `maybeAddStaticServiceDependencies`: synthesize the peer-group config for
a task of a static service. `json.MarshalIndent` is injective on
`peerGroupConfig`, so the payload is embedded as the marshalled value. -/
def maybeAddStaticServiceDependencies (env : Env) (a : AssignmentSet) (t : Task) :
    AssignmentSet × List Write :=
  if t.serviceID = "" then (a, [])
  else
    match env.getService t.serviceID with
    | none => (a, [])
    | some service =>
      match service.spec.getStatic with
      | none => (a, [])
      | some staticMode =>
        let peerGroup := staticMode.1
        let peerServices := env.findServicesByPeerGroup peerGroup
        let peerAddrs := peerAddrsLoop env service peerServices []
        let selfName := service.spec.annotations.name
        let selfAddr := deCIDR env service.staticAddr0
        let cfg : PeerGroupConfig := { selfName := selfName, selfAddr := selfAddr, peers := peerAddrs }
        let configID := t.id ++ "-peer-group"
        registerSynthConfig a configID (.peerGroupJSON cfg) t.id

/-- The peer-group config value `maybeAddStaticServiceDependencies` builds
for a task of the static service `service` in peer group `g`. -/
def builtPeerGroupConfig (env : Env) (service : Service) (g : String) : PeerGroupConfig :=
  { selfName := service.spec.annotations.name,
    selfAddr := deCIDR env service.staticAddr0,
    peers := peerAddrsLoop env service (env.findServicesByPeerGroup g) [] }

/-- `addTaskDependencies`. -/
def addTaskDependencies (env : Env) (a : AssignmentSet) (t : Task) :
    AssignmentSet × List Write :=
  let r1 := addResourceRefsLoop env t t.spec.resourceReferences a []
  let r2 := addSecretRefsLoop env t t.containerSecrets r1.1 r1.2
  let r3 := addConfigRefsLoop env t t.containerConfigs r2.1 r2.2
  let r4 :=
    if t.containerCertIssuances.isEmpty then r3
    else addCertIssuancesLoop env t t.containerCertIssuances r3.1 r3.2
  let r5 := maybeAddStaticServiceDependencies env r4.1 t
  (r5.1, r4.2 ++ r5.2)

/-- The value of `addTaskDependencies`'s local `r1` (the typed-reference
loop, started from the empty write list). -/
def atdStage1 (env : Env) (a : AssignmentSet) (t : Task) : AssignmentSet × List Write :=
  addResourceRefsLoop env t t.spec.resourceReferences a []

/-- The value of `addTaskDependencies`'s local `r2` (the secret loop). -/
def atdStage2 (env : Env) (a : AssignmentSet) (t : Task) : AssignmentSet × List Write :=
  addSecretRefsLoop env t t.containerSecrets (atdStage1 env a t).1 (atdStage1 env a t).2

/-- The value of `addTaskDependencies`'s local `r3` (the config loop). -/
def atdStage3 (env : Env) (a : AssignmentSet) (t : Task) : AssignmentSet × List Write :=
  addConfigRefsLoop env t t.containerConfigs (atdStage2 env a t).1 (atdStage2 env a t).2

/-- The value of `addTaskDependencies`'s local `r4` (the certificate-issuance
loop, guarded by the emptiness of the issuance list). -/
def atdStage4 (env : Env) (a : AssignmentSet) (t : Task) : AssignmentSet × List Write :=
  if t.containerCertIssuances.isEmpty then atdStage3 env a t
  else addCertIssuancesLoop env t t.containerCertIssuances (atdStage3 env a t).1
    (atdStage3 env a t).2

/-- The value of `addTaskDependencies`'s local `r5` (the peer-group step). -/
def atdStage5 (env : Env) (a : AssignmentSet) (t : Task) : AssignmentSet × List Write :=
  maybeAddStaticServiceDependencies env (atdStage4 env a t).1 t

/-- `releaseDependency`. -/
def releaseDependency (a : AssignmentSet) (mapKey : TypeAndID) (assignment : Assignment)
    (taskID : String) : AssignmentSet × List Write × Bool :=
  let remaining := setDel (a.depGet mapKey) taskID
  if remaining.isEmpty then
    -- no tasks are using the dependency anymore
    let a1 := { a with tasksUsingDependency := alDel a.tasksUsingDependency mapKey }
    let ch : AssignmentChange := { assignment := assignment, action := .remove }
    ({ a1 with changes := alPut a1.changes mapKey ch }, [(mapKey, ch)], true)
  else
    ({ a with tasksUsingDependency := alPut a.tasksUsingDependency mapKey remaining }, [], false)

/-- The dependency keys of a task paired with the minimal-payload assignments
`releaseTaskDependencies` emits for them: the typed resource references
(invalid types skipped), the container secret references, the container
config references, and the materialized config references, in loop order. -/
def Task.releaseItems (t : Task) : List (TypeAndID × Assignment) :=
  (t.spec.resourceReferences.filterMap (fun r =>
    match r.resourceType with
    | .secret => some ({ objType := .secret, id := r.resourceID }, .secret (Secret.justID r.resourceID))
    | .config => some ({ objType := .config, id := r.resourceID }, .config (Config.justID r.resourceID))
    | _ => none))
  ++ t.containerSecrets.map (fun sr =>
      ({ objType := .secret, id := sr.secretID }, .secret (Secret.justID sr.secretID)))
  ++ t.containerConfigs.map (fun cr =>
      ({ objType := .config, id := cr.configID }, .config (Config.justID cr.configID)))
  ++ t.materializedConfigs.map (fun cr =>
      ({ objType := .config, id := cr.configID }, .config (Config.justID cr.configID)))

/-- The dependency keys a task references (the keys of `releaseItems`). -/
def Task.depKeys (t : Task) : List TypeAndID :=
  t.releaseItems.map (·.1)

/-- The four release loops of `releaseTaskDependencies`, folded over
`releaseItems`. -/
def releaseLoop (items : List (TypeAndID × Assignment)) (taskID : String)
    (a : AssignmentSet) (ws : List Write) (modified : Bool) :
    AssignmentSet × List Write × Bool :=
  match items with
  | [] => (a, ws, modified)
  | item :: rest =>
    let (a1, ws1, removed) := releaseDependency a item.1 item.2 taskID
    releaseLoop rest taskID a1 (ws ++ ws1) (modified || removed)

/-- `releaseTaskDependencies`. -/
def releaseTaskDependencies (a : AssignmentSet) (t : Task) :
    AssignmentSet × List Write × Bool :=
  releaseLoop t.releaseItems t.id a [] false

/-- `addOrUpdateTask`. -/
def addOrUpdateTask (env : Env) (a : AssignmentSet) (t : Task) :
    AssignmentSet × List Write × Bool :=
  -- we only care about tasks that are ASSIGNED or higher
  if t.status.state.code < TaskState.assigned.code then (a, [], false)
  else
    match alGet a.tasksMap t.id with
    | some oldTask =>
      if env.tasksEqualStable oldTask t ∧ TaskState.assigned.code < t.status.state.code then
        -- this update should not trigger a task change for the agent
        let a1 := { a with tasksMap := alPut a.tasksMap t.id t }
        if TaskState.running.code < t.status.state.code then
          releaseTaskDependencies a1 t
        else
          (a1, [], false)
      else
        let a1 := { a with tasksMap := alPut a.tasksMap t.id t }
        let ch : AssignmentChange := { assignment := .task t, action := .update }
        let key : TypeAndID := { objType := .task, id := t.id }
        ({ a1 with changes := alPut a1.changes key ch }, [(key, ch)], true)
    | none =>
      let r1 :=
        if t.status.state.code ≤ TaskState.running.code then
          -- newly assigned task: add the dependencies it references
          addTaskDependencies env a t
        else
          (a, [])
      let a2 := { r1.1 with tasksMap := alPut r1.1.tasksMap t.id t }
      let ch : AssignmentChange := { assignment := .task t, action := .update }
      let key : TypeAndID := { objType := .task, id := t.id }
      ({ a2 with changes := alPut a2.changes key ch }, r1.2 ++ [(key, ch)], true)

/-- `removeTask`. -/
def removeTask (a : AssignmentSet) (t : Task) : AssignmentSet × List Write × Bool :=
  match alGet a.tasksMap t.id with
  | none => (a, [], false)
  | some _ =>
    let key : TypeAndID := { objType := .task, id := t.id }
    let ch : AssignmentChange := { assignment := .task (Task.justID t.id), action := .remove }
    let a1 := { a with changes := alPut a.changes key ch, tasksMap := alDel a.tasksMap t.id }
    let r := releaseTaskDependencies a1 t
    (r.1, (key, ch) :: r.2.1, true)

/-- The assignment set `removeTask` hands to `releaseTaskDependencies` (the
TASK Remove change queued, the task deleted from `tasksMap`). -/
def rmBase (a : AssignmentSet) (t : Task) : AssignmentSet :=
  { a with changes := alPut a.changes { objType := .task, id := t.id }
             { assignment := .task (Task.justID t.id), action := .remove },
           tasksMap := alDel a.tasksMap t.id }

/-- The TASK Remove write of `removeTask`. -/
def rmTaskWrite (t : Task) : Write :=
  ({ objType := .task, id := t.id },
   { assignment := .task (Task.justID t.id), action := .remove })

/-! ### Pure task helpers (`manager/orchestrator/task.go`) -/

/-- `PeerGroupConfigRef`: the synthesized peer-group config reference of a
task (file `/run/peers`, mode 0444, owner 0:0). -/
def PeerGroupConfigRef (task : Task) : ConfigReference :=
  { configID := task.id ++ "-peer-group",
    configName := "peer-group",
    target := some { name := "/run/peers", mode := 0o444, uid := "0", gid := "0" } }

/-- `filepath.Join` on a directory and a simple file name. -/
def joinPath (dir file : String) : String :=
  if dir = "" then file else dir ++ "/" ++ file

/-- `GetCertificateIssuanceConfigRefs`. -/
def GetCertificateIssuanceConfigRefs (task : Task) : List ConfigReference :=
  match task.spec.container with
  | none => []
  | some container =>
    container.certificateIssuances.flatMap (fun certIssuance =>
      let caConfigID := task.id ++ "-" ++ certIssuance.certificateAuthorityID ++ "-issue-ca"
      let caTarget := { certIssuance.directory with name := joinPath certIssuance.directory.name "ca.pem" }
      let keyConfigID := task.id ++ "-" ++ certIssuance.certificateAuthorityID ++ "-issue-key"
      let keyTarget := { certIssuance.directory with name := joinPath certIssuance.directory.name "key.pem" }
      let certConfigID := task.id ++ "-" ++ certIssuance.certificateAuthorityID ++ "-issue-cert"
      let certTarget := { certIssuance.directory with name := joinPath certIssuance.directory.name "cert.pem" }
      [ { configID := caConfigID, configName := caConfigID, target := some caTarget },
        { configID := keyConfigID, configName := keyConfigID, target := some keyTarget },
        { configID := certConfigID, configName := certConfigID, target := some certTarget } ])

/-- `NewTask`. `identity.NewID()` and `time.Now()` are external inputs and
are passed as the `taskID` and `now` parameters. -/
def NewTask (taskID : String) (now : Timestamp) (cluster : Option Cluster)
    (service : Service) (slot : Nat) (nodeID : String) : Task :=
  let logDriver : Option Driver :=
    match service.spec.task.logDriver with
    | some d => some d -- the log driver specific to the task
    | none =>
      match cluster with
      | some c => c.logDriver -- the cluster default; nil is okay here
      | none => none
  let task : Task :=
    { id := taskID,
      serviceAnnotations := service.spec.annotations,
      spec := service.spec.task,
      specVersion := service.specVersion,
      serviceID := service.id,
      slot := slot,
      status := { state := .new, timestamp := some now, appliedAt := none, message := "created" },
      endpoint := some { spec := service.spec.endpoint },
      desiredState := .running,
      logDriver := logDriver,
      nodeID := "",
      materializedConfigs := [] }
  -- in global and static mode we also set the NodeID
  let task := if nodeID = "" then task else { task with nodeID := nodeID }
  let task :=
    if service.staticInfo.isSome then
      { task with materializedConfigs := task.materializedConfigs ++ [PeerGroupConfigRef task] }
    else task
  -- add any certificate issuance config refs
  { task with materializedConfigs := task.materializedConfigs ++ GetCertificateIssuanceConfigRefs task }

/-- `nodeMatches` (`constraint.Parse` + `constraint.NodeMatches` live in
`env.constraintMatch`; the source reads `s.Spec.Task.Placement.Constraints`
without a nil check). -/
def nodeMatches (env : Env) (s : Service) (n : Option Node) : Bool :=
  match n with
  | none => false
  | some node => env.constraintMatch ((s.spec.task.placement.getD default).constraints) node

/-- `IsTaskDirtyPlacementConstraintsOnly`. -/
def IsTaskDirtyPlacementConstraintsOnly (serviceTaskSpec : TaskSpec) (t : Task) : Bool :=
  if serviceTaskSpec.placement = t.spec.placement then false
  else { serviceTaskSpec with placement := t.spec.placement } = t.spec

/-- `IsTaskDirty`. -/
def IsTaskDirty (env : Env) (s : Service) (t : Task) (n : Option Node) : Bool :=
  -- if the spec version matches, we know the task is not dirty
  if t.specVersion.isSome ∧ s.specVersion.isSome ∧ s.specVersion = t.specVersion then false
  else
    let serviceTaskSpec := s.spec.task
    if IsTaskDirtyPlacementConstraintsOnly serviceTaskSpec t ∧ nodeMatches env s n then false
    else
      let currentState := t.status.state
      let ignorePullOpts :=
        t.desiredState.code ≤ TaskState.running.code ∧
        TaskState.ready.code ≤ currentState.code ∧
        currentState.code ≤ TaskState.running.code
      let serviceTaskSpec :=
        if ignorePullOpts ∧ serviceTaskSpec.container.isSome ∧ t.spec.container.isSome then
          match serviceTaskSpec.container, t.spec.container with
          | some sc, some tc => { serviceTaskSpec with container := some { sc with pullOptions := tc.pullOptions } }
          | _, _ => serviceTaskSpec
        else serviceTaskSpec
      ¬(serviceTaskSpec = t.spec) ∨
        (t.endpoint.isSome ∧ ¬(s.spec.endpoint = (t.endpoint.getD default).spec))

/-- `TasksByTimestamp.Less` on the two indexed tasks, mirroring the source's
variable flow verbatim — including the branch that assigns `t[j]`'s
`AppliedAt` to `iTimestamp`. -/
def tasksByTimestampLess (ti tj : Task) : Bool :=
  let iTimestamp := ti.status.timestamp
  let iTimestamp := if ti.status.appliedAt.isSome then ti.status.appliedAt else iTimestamp
  let jTimestamp := tj.status.timestamp
  let iTimestamp := if tj.status.appliedAt.isSome then tj.status.appliedAt else iTimestamp
  match iTimestamp, jTimestamp with
  | none, _ => true
  | some _, none => false
  | some it, some jt =>
    if it.seconds < jt.seconds then true
    else if jt.seconds < it.seconds then false
    else it.nanos < jt.nanos

/-- The effective timestamp of one task under the documented ordering:
`Status.AppliedAt` if set, otherwise `Status.Timestamp`. -/
def effectiveTimestamp (t : Task) : Option Timestamp :=
  if t.status.appliedAt.isSome then t.status.appliedAt else t.status.timestamp

/-- Ascending comparison of optional timestamps, seconds then nanos, a nil
timestamp comparing less than any other. -/
def timestampLess (a b : Option Timestamp) : Bool :=
  match a, b with
  | none, _ => true
  | some _, none => false
  | some it, some jt =>
    if it.seconds < jt.seconds then true
    else if jt.seconds < it.seconds then false
    else it.nanos < jt.nanos

/-! ### The static orchestrator (`manager/orchestrator/static`) -/

/-- Modelled from the spec: `orchestrator.IsStaticService` is declared outside
the included sources; per the spec's service-mode variant
{Replicated, Global, Static} and the glossary, it holds exactly when the
service's mode is Static. (`IsRelatedService` in the included source
conjoins it with a node-ID check, confirming it tests the mode alone.) -/
def IsStaticService (service : Service) : Bool :=
  match service.spec.mode with
  | .mstatic _ _ => true
  | _ => false

/-- The node a static service is pinned to (`service.StaticInfo.NodeID`; the
source dereferences `StaticInfo` without a nil check). -/
def Service.staticNodeID (service : Service) : String :=
  (service.staticInfo.getD default).nodeID

/-- `Orchestrator.IsRelatedService`. -/
def IsRelatedService (service : Service) : Bool :=
  IsStaticService service ∧ ¬(service.staticNodeID = "")

/-- The orchestrator's in-memory indexes. -/
structure OrchState where
  services : List (String × Service)
  servicesByNodeID : List (String × List String)
  deriving DecidableEq, Repr, Inhabited

/-- `Orchestrator.updateService`. -/
def updateService (o : OrchState) (service : Service) : OrchState :=
  let o1 := { o with services := alPut o.services service.id service }
  let nodeID := service.staticNodeID
  if nodeID = "" then o1
  else
    let bucket := setAdd ((alGet o1.servicesByNodeID nodeID).getD []) service.id
    { o1 with servicesByNodeID := alPut o1.servicesByNodeID nodeID bucket }

/-- The startup enumeration in `Run`: retain every service satisfying
`IsStaticService`, updating the indexes and collecting the IDs to pass to the
initial reconciliation. -/
def startupLoop (existingServices : List Service) (o : OrchState)
    (reconcileServiceIDs : List String) : OrchState × List String :=
  match existingServices with
  | [] => (o, reconcileServiceIDs)
  | s :: rest =>
    if IsStaticService s then
      startupLoop rest (updateService o s) (reconcileServiceIDs ++ [s.id])
    else
      startupLoop rest o reconcileServiceIDs

/-- `Orchestrator.addTask` (the store write is guarded by the service's
existence and performed under the batch; the task value it creates is what
the claims are about). -/
def addTask (taskID : String) (now : Timestamp) (cluster : Option Cluster)
    (service : Service) (nodeID : String) : Task :=
  let task := NewTask taskID now cluster service 0 nodeID
  -- inject a materialized peer group config reference
  { task with materializedConfigs := task.materializedConfigs ++ [PeerGroupConfigRef task] }

/-! ### The store: peer groups and the shared Service↔PeerGroup name-space -/

/-- Go's `strings.ToLower` (the name index stores lower-cased names); the
ASCII case fold suffices for the names the store handles. -/
def lowerChar (c : Char) : Char :=
  if 'A' ≤ c ∧ c ≤ 'Z' then Char.ofNat (c.toNat + 32) else c

def strToLower (s : String) : String := String.mk (s.data.map lowerChar)

inductive StoreErr where
  | errExist
  | errNotExist
  | errNameConflict
  deriving DecidableEq, Repr, Inhabited

/-- The two tables the name-space invariant spans, keyed by entity ID. -/
structure StoreState where
  services : List Service
  peerGroups : List PeerGroup
  deriving DecidableEq, Repr, Inhabited

def emptyStore : StoreState := { services := [], peerGroups := [] }

/-- `tx.lookup(tableService, indexName, key)`: the name index stores
lower-cased names. -/
def lookupServiceName (st : StoreState) (key : String) : Option Service :=
  st.services.find? (fun s => (strToLower s.spec.annotations.name) = key)

/-- `tx.lookup(tablePeerGroup, indexName, key)`. -/
def lookupPeerGroupName (st : StoreState) (key : String) : Option PeerGroup :=
  st.peerGroups.find? (fun q => (strToLower q.spec.annotations.name) = key)

/-- `tx.create(tablePeerGroup, ...)`: ErrExist on an ID collision. -/
def txCreatePeerGroup (st : StoreState) (peerGroup : PeerGroup) : Except StoreErr StoreState :=
  if st.peerGroups.any (fun q => q.id = peerGroup.id) then .error .errExist
  else .ok { st with peerGroups := st.peerGroups ++ [peerGroup] }

/-- `tx.update(tablePeerGroup, ...)`: ErrNotExist when the ID is absent. -/
def txUpdatePeerGroup (st : StoreState) (peerGroup : PeerGroup) : Except StoreErr StoreState :=
  if st.peerGroups.any (fun q => q.id = peerGroup.id) then
    .ok { st with peerGroups := st.peerGroups.map (fun q => if q.id = peerGroup.id then peerGroup else q) }
  else .error .errNotExist

/-- `CreatePeerGroup`: the name must not be in use by an existing peer group
or any service. -/
def CreatePeerGroup (st : StoreState) (peerGroup : PeerGroup) : Except StoreErr StoreState :=
  if (lookupPeerGroupName st (strToLower peerGroup.spec.annotations.name)).isSome then
    .error .errNameConflict
  else if (lookupServiceName st (strToLower peerGroup.spec.annotations.name)).isSome then
    .error .errNameConflict
  else txCreatePeerGroup st peerGroup

/-- `UpdatePeerGroup`: the name must not be in use by any peer group or
service unless already used by this same peer group. -/
def UpdatePeerGroup (st : StoreState) (peerGroup : PeerGroup) : Except StoreErr StoreState :=
  match lookupPeerGroupName st (strToLower peerGroup.spec.annotations.name) with
  | some existing =>
    if ¬(existing.id = peerGroup.id) then .error .errNameConflict
    else txUpdatePeerGroup st peerGroup
  | none =>
    if (lookupServiceName st (strToLower peerGroup.spec.annotations.name)).isSome then
      .error .errNameConflict
    else txUpdatePeerGroup st peerGroup

/-- `DeletePeerGroup`. -/
def DeletePeerGroup (st : StoreState) (id : String) : Except StoreErr StoreState :=
  if st.peerGroups.any (fun q => q.id = id) then
    .ok { st with peerGroups := st.peerGroups.filter (fun q => ¬(q.id = id)) }
  else .error .errNotExist

/-- Modelled from the spec: the store's `CreateService` is declared outside
the included sources; per the spec's uniqueness rule ("no two Services share
a name ... and no Service and PeerGroup share a name (case-insensitive)" and
"ErrNameConflict ... including the Service↔PeerGroup shared name-space"),
it rejects a name already used, case-insensitively, by a service or by a
peer group, mirroring `CreatePeerGroup`. -/
def CreateService (st : StoreState) (service : Service) : Except StoreErr StoreState :=
  if (lookupServiceName st (strToLower service.spec.annotations.name)).isSome then
    .error .errNameConflict
  else if (lookupPeerGroupName st (strToLower service.spec.annotations.name)).isSome then
    .error .errNameConflict
  else if st.services.any (fun s => s.id = service.id) then .error .errExist
  else .ok { st with services := st.services ++ [service] }

/-- Modelled from the spec: the store's `UpdateService`, mirroring
`UpdatePeerGroup` over the shared name-space. -/
def UpdateService (st : StoreState) (service : Service) : Except StoreErr StoreState :=
  match lookupServiceName st (strToLower service.spec.annotations.name) with
  | some existing =>
    if ¬(existing.id = service.id) then .error .errNameConflict
    else if st.services.any (fun s => s.id = service.id) then
      .ok { st with services := st.services.map (fun s => if s.id = service.id then service else s) }
    else .error .errNotExist
  | none =>
    if (lookupPeerGroupName st (strToLower service.spec.annotations.name)).isSome then
      .error .errNameConflict
    else if st.services.any (fun s => s.id = service.id) then
      .ok { st with services := st.services.map (fun s => if s.id = service.id then service else s) }
    else .error .errNotExist

/-- Modelled from the spec: the store's `DeleteService`. -/
def DeleteService (st : StoreState) (id : String) : Except StoreErr StoreState :=
  if st.services.any (fun s => s.id = id) then
    .ok { st with services := st.services.filter (fun s => ¬(s.id = id)) }
  else .error .errNotExist

/-- One store operation over the two tables of the shared name-space. -/
inductive StoreOp where
  | createService (s : Service)
  | updateService (s : Service)
  | deleteService (id : String)
  | createPeerGroup (q : PeerGroup)
  | updatePeerGroup (q : PeerGroup)
  | deletePeerGroup (id : String)
  deriving Repr, Inhabited

/-- Apply one operation; a failed `Update(fn)` transaction discards all
changes, leaving the store unchanged. -/
def applyStoreOp (st : StoreState) (op : StoreOp) : StoreState :=
  let r : Except StoreErr StoreState :=
    match op with
    | .createService s => CreateService st s
    | .updateService s => UpdateService st s
    | .deleteService id => DeleteService st id
    | .createPeerGroup q => CreatePeerGroup st q
    | .updatePeerGroup q => UpdatePeerGroup st q
    | .deletePeerGroup id => DeletePeerGroup st id
  match r with
  | .ok st1 => st1
  | .error _ => st

def runStoreOps (st : StoreState) (ops : List StoreOp) : StoreState :=
  ops.foldl applyStoreOp st

/-- No service and peer group share a name, case-insensitively. -/
def crossNamespaceDisjoint (st : StoreState) : Prop :=
  ∀ s ∈ st.services, ∀ q ∈ st.peerGroups,
    ¬((strToLower s.spec.annotations.name) = (strToLower q.spec.annotations.name))

/-- The lowered names of the peer-group table are pairwise distinct (what
the unique `name` index of the table maintains). -/
def peerGroupNamesDistinct (st : StoreState) : Prop :=
  st.peerGroups.Pairwise
    (fun a b => ¬((strToLower a.spec.annotations.name) = (strToLower b.spec.annotations.name)))

/-! ### Traces of assignment-engine calls -/

/-- One call into the assignment engine (each call reads the store under its
own read transaction, hence carries its own environment). -/
inductive AsnOp where
  | add (env : Env) (t : Task)
  | remove (t : Task)

/-- Perform one call, returning the new state and the change writes. -/
def stepOp (a : AssignmentSet) : AsnOp → AssignmentSet × List Write
  | .add env t => ((addOrUpdateTask env a t).1, (addOrUpdateTask env a t).2.1)
  | .remove t => ((removeTask a t).1, (removeTask a t).2.1)

/-- Run a sequence of calls, concatenating the change writes. -/
def runOps (a : AssignmentSet) : List AsnOp → AssignmentSet × List Write
  | [] => (a, [])
  | op :: rest =>
    ((runOps (stepOp a op).1 rest).1, (stepOp a op).2 ++ (runOps (stepOp a op).1 rest).2)

/-- How many Remove changes for key `k` a write log contains. -/
def removesFor (ws : List Write) (k : TypeAndID) : Nat :=
  ws.countP (fun w => decide (w.1 = k ∧ w.2.action = .remove))

/-- How many steps of the run take `tasksUsingDependency[k]` from non-empty
to empty. -/
def transitionsFor (a : AssignmentSet) (ops : List AsnOp) (k : TypeAndID) : Nat :=
  match ops with
  | [] => 0
  | op :: rest =>
    (if ¬(a.depGet k).isEmpty ∧ ((stepOp a op).1.depGet k).isEmpty then 1 else 0) +
      transitionsFor (stepOp a op).1 rest k

/-- The dependency keys of the three declared-reference loops of
`addTaskDependencies` (registered unconditionally). -/
def Task.coreKeys (t : Task) : List TypeAndID :=
  (t.spec.resourceReferences.filterMap (fun r =>
    match r.resourceType with
    | .secret => some { objType := .secret, id := r.resourceID }
    | .config => some { objType := .config, id := r.resourceID }
    | _ => none))
  ++ t.containerSecrets.map (fun sr => { objType := ResourceType.secret, id := sr.secretID })
  ++ t.containerConfigs.map (fun cr => { objType := ResourceType.config, id := cr.configID })

/-- The keys `addCertIssuanceDependencies` registers for one issuance
(none when the CA is missing or the signing chain fails). -/
def issueKeys (env : Env) (t : Task) (ci : CertificateIssuance) : List TypeAndID :=
  match env.getCA ci.certificateAuthorityID with
  | none => []
  | some ca =>
    match env.issue ca t.id with
    | none => []
    | some _ =>
      [ { objType := .config, id := t.id ++ "-" ++ ci.certificateAuthorityID ++ "-issue-ca" },
        { objType := .config, id := t.id ++ "-" ++ ci.certificateAuthorityID ++ "-issue-key" },
        { objType := .config, id := t.id ++ "-" ++ ci.certificateAuthorityID ++ "-issue-cert" } ]

/-- The key `maybeAddStaticServiceDependencies` registers (none unless the
task belongs to a static service found in the store). -/
def pgKeys (env : Env) (t : Task) : List TypeAndID :=
  if t.serviceID = "" then []
  else
    match env.getService t.serviceID with
    | none => []
    | some service =>
      match service.spec.getStatic with
      | none => []
      | some _ => [{ objType := ResourceType.config, id := t.id ++ "-peer-group" }]

/-- All keys `addTaskDependencies` registers the task under. -/
def addKeys (env : Env) (t : Task) : List TypeAndID :=
  t.coreKeys ++ t.containerCertIssuances.flatMap (issueKeys env t) ++ pgKeys env t

/-- The key(s) one resource reference registers: none for an invalid type. -/
def refKeys (r : ResourceReference) : List TypeAndID :=
  match r.resourceType with
  | .secret => [{ objType := .secret, id := r.resourceID }]
  | .config => [{ objType := .config, id := r.resourceID }]
  | .task => []

/-- Materialization of dependency `k` fails for task `t` under `env` (the
secret is missing or its driver fails; the config is missing). -/
def fetchFails (env : Env) (t : Task) (k : TypeAndID) : Prop :=
  (k.objType = ResourceType.secret → secretLookup env t k.id = none) ∧
  (k.objType = ResourceType.config → env.getConfig k.id = none)

/-- Boolean equality of key lists as sets. -/
def keysSetEq (a b : List TypeAndID) : Bool :=
  a.all (fun k => decide (k ∈ b)) && b.all (fun k => decide (k ∈ a))

/-- The well-formedness of one engine call, relative to an ambient map `K`
from task IDs to dependency keys: tasks are added at states between ASSIGNED
and RUNNING, a task ID always carries the same duplicate-free dependency
keys, and the keys registered on add coincide with the keys released on
remove (materializations succeed, and the task's materialized config
references are exactly the synthesized ones). -/
def opOK (K : String → List TypeAndID) : AsnOp → Bool
  | .add env t =>
    decide (t.status.state.code ≤ TaskState.running.code) &&
    decide (t.depKeys = K t.id) && decide ((K t.id).Nodup) &&
    keysSetEq (addKeys env t) t.depKeys
  | .remove t =>
    decide (t.depKeys = K t.id) && decide ((K t.id).Nodup)

/-- The reference-counting invariant: an ID is in the reverse index of `k`
exactly when the task stored under it references `k`, and stored tasks agree
with the ambient key map. -/
def RefInv (K : String → List TypeAndID) (a : AssignmentSet) : Prop :=
  (∀ k id, id ∈ a.depGet k ↔ ∃ t, alGet a.tasksMap id = some t ∧ k ∈ t.depKeys)
  ∧ (∀ id t, alGet a.tasksMap id = some t → t.id = id ∧ t.depKeys = K id ∧ (K id).Nodup)

/-! ### Concrete fixtures used by counterexamples and witnesses -/

/-- An environment in which every store lookup misses and every external
call fails. -/
def envEmpty : Env :=
  { getSecret := fun _ => none, getConfig := fun _ => none, getService := fun _ => none,
    getCA := fun _ => none, findServicesByPeerGroup := fun _ => [],
    driverGet := fun _ _ _ => none, issue := fun _ _ => none, parseCIDR := fun _ => none,
    tasksEqualStable := fun _ _ => false, constraintMatch := fun _ _ => false }

/-- A static-service spec in peer group "g1" with the given name. -/
def staticSpecG1 (nm : String) : ServiceSpec :=
  { annotations := { name := nm },
    task := { container := none, resourceReferences := [], placement := none,
              logDriver := none },
    mode := .mstatic "g1" "", endpoint := none }

/-- A `StaticInfo` pinned to `n` with the single address `addr`. -/
def staticInfoAt (n addr : String) : StaticInfo :=
  { nodeID := n, message := "", networkAttachment := some { addresses := [addr] } }

/-- C3's witness service: static in peer group "g1" with one address. -/
def svc3 : Service :=
  { id := "S", specVersion := none, spec := staticSpecG1 "s3",
    staticInfo := some (staticInfoAt "N" "10.0.0.2/24") }

/-- C3's witness peer A. -/
def peerA : Service :=
  { id := "PA1", specVersion := none, spec := staticSpecG1 "pa",
    staticInfo := some (staticInfoAt "N2" "10.0.0.3/24") }

/-- C3's witness peer B. -/
def peerB : Service :=
  { id := "PB1", specVersion := none, spec := staticSpecG1 "pb",
    staticInfo := some (staticInfoAt "N3" "10.0.0.4/24") }

/-- C3's witness environment: the service and its peer group. -/
def env3 : Env :=
  { envEmpty with
      getService := fun id => if id = "S" then some svc3 else none,
      findServicesByPeerGroup := fun pg => if pg = "g1" then [svc3, peerA, peerB] else [] }

/-- C3's witness task of service `svc3`. -/
def t3 : Task := { Task.justID "T3" with serviceID := "S" }

/-- The task of C8's failing input at position `i`: no `AppliedAt`,
`Timestamp` at 5s. -/
def t8i : Task :=
  { Task.justID "A" with
      status := { state := .running, timestamp := some { seconds := 5, nanos := 0 },
                  appliedAt := none, message := "" } }

/-- The task of C8's failing input at position `j`: `AppliedAt` at 10s,
`Timestamp` at 1s. -/
def t8j : Task :=
  { Task.justID "B" with
      status := { state := .running, timestamp := some { seconds := 1, nanos := 0 },
                  appliedAt := some { seconds := 10, nanos := 0 }, message := "" } }

/-- C7's counterexample service: no SpecVersion, image "a". -/
def s7c : Service :=
  { id := "S", specVersion := none,
    spec := { annotations := { name := "svc" },
              task := { container := some { image := "a", secrets := [], configs := [],
                                            certificateIssuances := [], pullOptions := none },
                        resourceReferences := [], placement := none, logDriver := none },
              mode := .replicated 1, endpoint := none },
    staticInfo := none }

/-- C7's counterexample task: no SpecVersion, image "b". -/
def t7c : Task :=
  { Task.justID "T" with
      serviceID := "S",
      spec := { container := some { image := "b", secrets := [], configs := [],
                                    certificateIssuances := [], pullOptions := none },
                resourceReferences := [], placement := none, logDriver := none } }

/-- A service with SpecVersion 1 whose task spec matches `t7w`. -/
def s7w : Service := { s7c with specVersion := some { index := 1 } }

/-- A task with SpecVersion 1. -/
def t7w : Task := { t7c with specVersion := some { index := 1 } }

/-- C2's counterexample service: static, pinned to node N1, no container. -/
def svcC2 : Service :=
  { id := "S1", specVersion := none,
    spec := { annotations := { name := "s1" },
              task := { container := none, resourceReferences := [], placement := none,
                        logDriver := none },
              mode := .mstatic "g1" "", endpoint := none },
    staticInfo := some { nodeID := "N1", message := "", networkAttachment := none } }

/-- The task C2's scenario creates. -/
def tC2 : Task := addTask "T1" { seconds := 0, nanos := 0 } none svcC2 "N1"

/-- C6's counterexample service: static mode but no pinned node
(`StaticInfo.NodeID` empty). -/
def svcC6 : Service :=
  { id := "S6", specVersion := none,
    spec := { annotations := { name := "s6" },
              task := { container := none, resourceReferences := [], placement := none,
                        logDriver := none },
              mode := .mstatic "g" "", endpoint := none },
    staticInfo := some { nodeID := "", message := "", networkAttachment := none } }

/-- E2's service named "alpha". -/
def svcAlpha : Service :=
  { id := "SA", specVersion := none,
    spec := { annotations := { name := "alpha" },
              task := { container := none, resourceReferences := [], placement := none,
                        logDriver := none },
              mode := .replicated 1, endpoint := none },
    staticInfo := none }

/-- E2's peer group named "ALPHA". -/
def pgAlpha : PeerGroup :=
  { id := "PA", spec := { annotations := { name := "ALPHA" }, network := "n" } }

/-- The store holding only `svcAlpha`. -/
def stE2 : StoreState := { services := [svcAlpha], peerGroups := [] }

/-- The dependency key for secret "X". -/
def kX : TypeAndID := { objType := ResourceType.secret, id := "X" }

/-- A task with the given ID referencing container secret "X", at ASSIGNED,
bound to no service. -/
def taskRefX (tid : String) : Task :=
  { Task.justID tid with
      status := { state := TaskState.assigned, timestamp := none, appliedAt := none,
                  message := "" },
      spec := { container := some { image := "img", secrets := [{ secretID := "X" }],
                                    configs := [], certificateIssuances := [],
                                    pullOptions := none },
                resourceReferences := [], placement := none, logDriver := none } }

/-- An assignment set whose entry for `kX` is already non-empty. -/
def aC10 : AssignmentSet :=
  { tasksMap := [], tasksUsingDependency := [(kX, ["T0"])], changes := [] }

/-- A task referencing secret "X" whose state FAILED lies above RUNNING. -/
def taskRefXFailed : Task :=
  { taskRefX "TB" with
      status := { state := TaskState.failed, timestamp := none, appliedAt := none,
                  message := "" } }

/-- The ambient key map of the shared-secret scenario: every task depends
exactly on secret "X". -/
def KX : String → List TypeAndID := fun _ => [kX]

/-- The shared-dependency call sequence: add T and T2 (both referencing
secret "X"), remove T, then remove T2. -/
def opsE4 : List AsnOp :=
  [ AsnOp.add envEmpty (taskRefX "T"), AsnOp.add envEmpty (taskRefX "T2"),
    AsnOp.remove (taskRefX "T"), AsnOp.remove (taskRefX "T2") ]

/-! ## Lemmas about the map and set helpers -/

theorem alGet_cons {κ α : Type} [DecidableEq κ] (e : κ × α) (rest : List (κ × α)) (k : κ) :
    alGet (e :: rest) k = if e.1 = k then some e.2 else alGet rest k := rfl

theorem alGet_alPut {κ α : Type} [DecidableEq κ] (m : List (κ × α)) (k k' : κ) (v : α) :
    alGet (alPut m k v) k' = if k' = k then some v else alGet m k' := by
  induction m with
  | nil =>
    show alGet [(k, v)] k' = _
    rw [alGet_cons]
    by_cases h : k' = k
    · subst h; simp [alGet]
    · rw [if_neg (fun hh : k = k' => h hh.symm), if_neg h]
  | cons e rest ih =>
    by_cases he : e.1 = k
    · have h1 : alPut (e :: rest) k v = (k, v) :: rest := by
        simp only [alPut, if_pos he]
      rw [h1, alGet_cons, alGet_cons]
      by_cases h : k' = k
      · subst h; simp
      · rw [if_neg (fun hh : k = k' => h hh.symm), if_neg h,
            if_neg (fun hh : e.1 = k' => h (hh.symm.trans he))]
    · have h1 : alPut (e :: rest) k v = e :: alPut rest k v := by
        simp only [alPut, if_neg he]
      rw [h1, alGet_cons, alGet_cons, ih]
      by_cases hek : e.1 = k'
      · rw [if_pos hek, if_pos hek, if_neg (fun hh : k' = k => he (hek.trans hh))]
      · rw [if_neg hek, if_neg hek]

theorem alGet_alDel {κ α : Type} [DecidableEq κ] (m : List (κ × α)) (k k' : κ) :
    alGet (alDel m k) k' = if k' = k then none else alGet m k' := by
  induction m with
  | nil =>
    show alGet [] k' = _
    by_cases h : k' = k <;> simp [alGet, h]
  | cons e rest ih =>
    by_cases he : e.1 = k
    · have h1 : alDel (e :: rest) k = alDel rest k := by
        simp only [alDel, if_pos he]
      rw [h1, ih, alGet_cons]
      by_cases h : k' = k
      · rw [if_pos h, if_pos h]
      · rw [if_neg h, if_neg h, if_neg (fun hh : e.1 = k' => h (hh.symm.trans he))]
    · have h1 : alDel (e :: rest) k = e :: alDel rest k := by
        simp only [alDel, if_neg he]
      rw [h1, alGet_cons, alGet_cons, ih]
      by_cases hek : e.1 = k'
      · rw [if_pos hek, if_pos hek, if_neg (fun hh : k' = k => he (hek.trans hh))]
      · rw [if_neg hek, if_neg hek]

theorem mem_setAdd (s : List String) (x y : String) :
    y ∈ setAdd s x ↔ y ∈ s ∨ y = x := by
  unfold setAdd
  split_ifs with h
  · constructor
    · exact fun hy => Or.inl hy
    · rintro (hy | rfl) <;> [exact hy; exact h]
  · simp

theorem setAdd_ne_nil (s : List String) (x : String) : ¬(setAdd s x = []) := by
  intro h
  have hx : x ∈ setAdd s x := (mem_setAdd s x x).2 (Or.inr rfl)
  rw [h] at hx
  exact List.not_mem_nil x hx

theorem mem_setDel (s : List String) (x y : String) :
    y ∈ setDel s x ↔ y ∈ s ∧ ¬(y = x) := by
  induction s with
  | nil => simp [setDel]
  | cons z rest ih =>
    simp only [setDel]
    split_ifs with hz
    · rw [ih]
      subst hz
      simp only [List.mem_cons]
      constructor
      · exact fun h => ⟨Or.inr h.1, h.2⟩
      · rintro ⟨rfl | h1, h2⟩
        · exact absurd rfl h2
        · exact ⟨h1, h2⟩
    · simp only [List.mem_cons, ih]
      constructor
      · rintro (rfl | h)
        · exact ⟨Or.inl rfl, hz⟩
        · exact ⟨Or.inr h.1, h.2⟩
      · rintro ⟨rfl | h1, h2⟩
        · exact Or.inl rfl
        · exact Or.inr ⟨h1, h2⟩

theorem setAdd_idem (s : List String) (x : String) :
    setAdd (setAdd s x) x = setAdd s x := by
  have hx : x ∈ setAdd s x := (mem_setAdd s x x).2 (Or.inr rfl)
  rw [show setAdd (setAdd s x) x
        = if x ∈ setAdd s x then setAdd s x else setAdd s x ++ [x] from rfl,
      if_pos hx]

theorem setDel_eq_nil_iff (s : List String) (x : String) :
    setDel s x = [] ↔ ∀ y ∈ s, y = x := by
  constructor
  · intro h y hy
    by_contra hne
    have hmem : y ∈ setDel s x := (mem_setDel s x y).2 ⟨hy, hne⟩
    rw [h] at hmem
    exact List.not_mem_nil y hmem
  · intro h
    cases hd : setDel s x with
    | nil => rfl
    | cons z rest =>
      have hz : z ∈ setDel s x := by rw [hd]; exact List.mem_cons_self z rest
      have hz2 := (mem_setDel s x z).1 hz
      exact absurd (h z hz2.1) hz2.2

/-- `GetCertificateIssuanceConfigRefs` of a task without certificate
issuances is empty. -/
theorem getCertIssuanceRefs_empty (task : Task)
    (h : ∀ c, task.spec.container = some c → c.certificateIssuances = []) :
    GetCertificateIssuanceConfigRefs task = [] := by
  unfold GetCertificateIssuanceConfigRefs
  cases hc : task.spec.container with
  | none => rfl
  | some c => simp [h c hc]

/-! ## C7: `IsTaskDirty` and equal spec versions -/

/-- C7 (amended): `IsTaskDirty(s, t, n)` returns false whenever both
`SpecVersion` fields are present and hold the same version, regardless of
all other fields; the short-circuit does not apply when both fields are
absent. -/
theorem isTaskDirty_eq_specVersion (env : Env) (s : Service) (t : Task) (n : Option Node)
    (v : Version) (hs : s.specVersion = some v) (ht : t.specVersion = some v) :
    IsTaskDirty env s t n = false := by
  unfold IsTaskDirty
  rw [if_pos ⟨by simp [ht], by simp [hs], by rw [hs, ht]⟩]

/-- C7 witness: concrete service and task sharing SpecVersion 1. -/
theorem isTaskDirty_eq_specVersion_witness :
    IsTaskDirty envEmpty s7w t7w none = false :=
  isTaskDirty_eq_specVersion envEmpty s7w t7w none { index := 1 } rfl rfl

/-- C7 counterexample: a service and task whose SpecVersion fields are equal
(both absent) yet `IsTaskDirty` returns true because their task specs
differ — the nil/nil case does not short-circuit, refuting the claim's
"including the case where both SpecVersion fields are absent". -/
theorem isTaskDirty_nil_specVersion_counterexample :
    s7c.specVersion = t7c.specVersion ∧ IsTaskDirty envEmpty s7c t7c none = true := by
  constructor
  · rfl
  · decide

/-! ## C2: the task the static orchestrator creates -/

/-- C2 (amended): for a static service with `StaticInfo` present and no
certificate issuances, `addTask` creates one task with the service's ID,
slot 0, the pinned node ID, desired state Running — and a
`MaterializedConfigs` list holding exactly TWO identical peer-group config
references with ID `"<taskID>-peer-group"`: `NewTask` already appends one
for a service with `StaticInfo`, and `addTask` appends a second. -/
theorem addTask_static_task_shape (taskID : String) (now : Timestamp)
    (cluster : Option Cluster) (service : Service) (si : StaticInfo)
    (hsi : service.staticInfo = some si)
    (hci : ∀ c, service.spec.task.container = some c → c.certificateIssuances = []) :
    (addTask taskID now cluster service si.nodeID).serviceID = service.id ∧
    (addTask taskID now cluster service si.nodeID).slot = 0 ∧
    (addTask taskID now cluster service si.nodeID).nodeID = si.nodeID ∧
    (addTask taskID now cluster service si.nodeID).desiredState = TaskState.running ∧
    (addTask taskID now cluster service si.nodeID).materializedConfigs =
      [PeerGroupConfigRef (Task.justID taskID), PeerGroupConfigRef (Task.justID taskID)] ∧
    (PeerGroupConfigRef (Task.justID taskID)).configID = taskID ++ "-peer-group" := by
  have hcert : ∀ t : Task, t.spec = service.spec.task → GetCertificateIssuanceConfigRefs t = [] := by
    intro t ht
    exact getCertIssuanceRefs_empty t (fun c hc => hci c (ht ▸ hc))
  unfold addTask NewTask
  by_cases h : si.nodeID = "" <;>
    simp [h, hsi, PeerGroupConfigRef, Task.justID, hcert]

/-- C2 witness: the transitional shape at a concrete static service. -/
theorem addTask_static_task_shape_witness :
    tC2.serviceID = "S1" ∧ tC2.nodeID = "N1" ∧ tC2.slot = 0 ∧
    tC2.desiredState = TaskState.running ∧
    tC2.materializedConfigs =
      [PeerGroupConfigRef (Task.justID "T1"), PeerGroupConfigRef (Task.justID "T1")] := by
  have h := addTask_static_task_shape "T1" { seconds := 0, nanos := 0 } none svcC2
    { nodeID := "N1", message := "", networkAttachment := none } rfl
    (fun c hc => by cases hc)
  exact ⟨h.1, h.2.2.1, h.2.1, h.2.2.2.1, h.2.2.2.2.1⟩

/-- C2 counterexample: the claim demands exactly ONE config reference with
ID `"<taskID>-peer-group"`, but the created task carries two (identical)
such references. -/
theorem addTask_single_ref_counterexample :
    tC2.materializedConfigs.map (fun r => r.configID) = ["T1-peer-group", "T1-peer-group"] ∧
    ¬(tC2.materializedConfigs.length = 1) := by
  decide

/-! ## C6: the startup filter of the static orchestrator -/

theorem updateService_eq (o : OrchState) (s : Service) :
    updateService o s =
      if s.staticNodeID = "" then { o with services := alPut o.services s.id s }
      else
        { services := alPut o.services s.id s,
          servicesByNodeID := alPut o.servicesByNodeID s.staticNodeID
            (setAdd ((alGet o.servicesByNodeID s.staticNodeID).getD []) s.id) } := by
  show (let o1 : OrchState := { o with services := alPut o.services s.id s };
        let nodeID := s.staticNodeID;
        if nodeID = "" then o1
        else
          let bucket := setAdd ((alGet o1.servicesByNodeID nodeID).getD []) s.id;
          { o1 with servicesByNodeID := alPut o1.servicesByNodeID nodeID bucket }) = _
  simp only []

theorem updateService_services_get (o : OrchState) (s : Service) (id : String) :
    alGet (updateService o s).services id = if id = s.id then some s else alGet o.services id := by
  rw [updateService_eq]
  by_cases h : s.staticNodeID = ""
  · rw [if_pos h]
    exact alGet_alPut o.services s.id id s
  · rw [if_neg h]
    exact alGet_alPut o.services s.id id s

theorem updateService_bucket_mem (o : OrchState) (s : Service) (n id : String) :
    id ∈ (alGet (updateService o s).servicesByNodeID n).getD [] ↔
      id ∈ (alGet o.servicesByNodeID n).getD [] ∨
        (id = s.id ∧ s.staticNodeID = n ∧ ¬(n = "")) := by
  rw [updateService_eq]
  by_cases h : s.staticNodeID = ""
  · rw [if_pos h]
    show id ∈ (alGet o.servicesByNodeID n).getD [] ↔ _
    constructor
    · exact fun hm => Or.inl hm
    · rintro (hm | ⟨_, hn2, hne⟩)
      · exact hm
      · exact absurd (hn2.symm.trans h) hne
  · rw [if_neg h]
    show id ∈ (alGet (alPut o.servicesByNodeID s.staticNodeID
        (setAdd ((alGet o.servicesByNodeID s.staticNodeID).getD []) s.id)) n).getD [] ↔ _
    rw [alGet_alPut]
    by_cases hn : n = s.staticNodeID
    · rw [if_pos hn, hn, Option.getD_some, mem_setAdd]
      constructor
      · rintro (hm | rfl)
        · exact Or.inl hm
        · exact Or.inr ⟨rfl, rfl, h⟩
      · rintro (hm | ⟨rfl, _, _⟩)
        · exact Or.inl hm
        · exact Or.inr rfl
    · rw [if_neg hn]
      constructor
      · exact fun hm => Or.inl hm
      · rintro (hm | ⟨_, hsn, _⟩)
        · exact hm
        · exact absurd hsn.symm hn

theorem startupLoop_spec (l : List Service) (o : OrchState) (ids : List String) :
    (∀ id, (alGet (startupLoop l o ids).1.services id).isSome ↔
       ((alGet o.services id).isSome ∨ ∃ s ∈ l, s.id = id ∧ IsStaticService s = true)) ∧
    (∀ n id, id ∈ (alGet (startupLoop l o ids).1.servicesByNodeID n).getD [] ↔
       (id ∈ (alGet o.servicesByNodeID n).getD [] ∨
         ∃ s ∈ l, s.id = id ∧ IsStaticService s = true ∧ s.staticNodeID = n ∧ ¬(n = ""))) ∧
    (startupLoop l o ids).2 =
      ids ++ (l.filter (fun s => IsStaticService s)).map (fun s => s.id) := by
  induction l generalizing o ids with
  | nil => simp [startupLoop]
  | cons s rest ih =>
    by_cases hs : IsStaticService s
    · simp only [startupLoop, if_pos hs]
      refine ⟨fun id => ?_, fun n id => ?_, ?_⟩
      · rw [(ih (updateService o s) (ids ++ [s.id])).1 id]
        rw [updateService_services_get]
        by_cases hid : id = s.id
        · subst hid
          simp [hs]
        · simp only [if_neg hid, List.mem_cons]
          constructor
          · rintro (h1 | ⟨t, ht, rfl, ht2⟩)
            · exact Or.inl h1
            · exact Or.inr ⟨t, Or.inr ht, rfl, ht2⟩
          · rintro (h1 | ⟨t, (rfl | ht), rfl, ht2⟩)
            · exact Or.inl h1
            · exact absurd rfl hid
            · exact Or.inr ⟨t, ht, rfl, ht2⟩
      · rw [(ih (updateService o s) (ids ++ [s.id])).2.1 n id]
        rw [updateService_bucket_mem]
        simp only [List.mem_cons]
        constructor
        · rintro ((h1 | ⟨rfl, hn, hne⟩) | ⟨t, ht, rfl, ht2⟩)
          · exact Or.inl h1
          · exact Or.inr ⟨s, Or.inl rfl, rfl, hs, hn, hne⟩
          · exact Or.inr ⟨t, Or.inr ht, rfl, ht2⟩
        · rintro (h1 | ⟨t, (rfl | ht), rfl, ht2⟩)
          · exact Or.inl (Or.inl h1)
          · exact Or.inl (Or.inr ⟨rfl, ht2.2.1, ht2.2.2⟩)
          · exact Or.inr ⟨t, ht, rfl, ht2⟩
      · rw [(ih (updateService o s) (ids ++ [s.id])).2.2]
        simp [hs]
    · simp only [startupLoop, if_neg hs]
      refine ⟨fun id => ?_, fun n id => ?_, ?_⟩
      · rw [(ih o ids).1 id]
        simp only [List.mem_cons]
        constructor
        · rintro (h1 | ⟨t, ht, rfl, ht2⟩)
          · exact Or.inl h1
          · exact Or.inr ⟨t, Or.inr ht, rfl, ht2⟩
        · rintro (h1 | ⟨t, (rfl | ht), rfl, ht2⟩)
          · exact Or.inl h1
          · exact absurd ht2 hs
          · exact Or.inr ⟨t, ht, rfl, ht2⟩
      · rw [(ih o ids).2.1 n id]
        simp only [List.mem_cons]
        constructor
        · rintro (h1 | ⟨t, ht, rfl, ht2⟩)
          · exact Or.inl h1
          · exact Or.inr ⟨t, Or.inr ht, rfl, ht2⟩
        · rintro (h1 | ⟨t, (rfl | ht), rfl, ht2⟩)
          · exact Or.inl h1
          · exact absurd ht2.1 hs
          · exact Or.inr ⟨t, ht, rfl, ht2⟩
      · rw [(ih o ids).2.2]
        simp [hs]

/-- C6 (amended): after the startup enumeration, `services` contains exactly
the services satisfying `IsStaticService` — the static mode alone; the
non-empty-`StaticInfo.NodeID` requirement of `IsRelatedService` is NOT
applied at startup (it is applied only in the event loop) — and exactly
those services' IDs are passed to the initial reconciliation, in order;
`servicesByNodeID[n]` additionally requires the service to be pinned to the
non-empty node `n`. -/
theorem startup_retains_static_services (l : List Service) :
    (∀ id, (alGet (startupLoop l { services := [], servicesByNodeID := [] } []).1.services id).isSome ↔
       ∃ s ∈ l, s.id = id ∧ IsStaticService s = true) ∧
    (∀ n id, id ∈ (alGet (startupLoop l { services := [], servicesByNodeID := [] } []).1.servicesByNodeID n).getD [] ↔
       ∃ s ∈ l, s.id = id ∧ IsStaticService s = true ∧ s.staticNodeID = n ∧ ¬(n = "")) ∧
    (startupLoop l { services := [], servicesByNodeID := [] } []).2 =
      (l.filter (fun s => IsStaticService s)).map (fun s => s.id) := by
  have h := startupLoop_spec l { services := [], servicesByNodeID := [] } []
  refine ⟨fun id => ?_, fun n id => ?_, ?_⟩
  · rw [h.1 id]
    simp [alGet]
  · rw [h.2.1 n id]
    simp [alGet]
  · rw [h.2.2]
    simp

/-- C6 counterexample: a static service with an empty `StaticInfo.NodeID`
does not satisfy `IsRelatedService`, yet the startup enumeration retains it
in `services` and passes it to the initial reconciliation — the startup
filter is `IsStaticService`, not `IsRelatedService`. -/
theorem startup_filter_counterexample :
    (alGet (startupLoop [svcC6] { services := [], servicesByNodeID := [] } []).1.services "S6").isSome = true ∧
    (startupLoop [svcC6] { services := [], servicesByNodeID := [] } []).2 = ["S6"] ∧
    IsRelatedService svcC6 = false := by
  decide

/-! ## C5: the shared Service↔PeerGroup name-space -/

theorem lookupPeerGroupName_isSome_of_mem (st : StoreState) (key : String) (q : PeerGroup)
    (hq : q ∈ st.peerGroups) (hname : (strToLower q.spec.annotations.name) = key) :
    (lookupPeerGroupName st key).isSome := by
  unfold lookupPeerGroupName
  rw [List.find?_isSome]
  exact ⟨q, hq, by simp [hname]⟩

theorem lookupServiceName_isSome_of_mem (st : StoreState) (key : String) (s : Service)
    (hs : s ∈ st.services) (hname : (strToLower s.spec.annotations.name) = key) :
    (lookupServiceName st key).isSome := by
  unfold lookupServiceName
  rw [List.find?_isSome]
  exact ⟨s, hs, by simp [hname]⟩

theorem lookupPeerGroupName_eq_none (st : StoreState) (key : String)
    (h : lookupPeerGroupName st key = none) :
    ∀ q ∈ st.peerGroups, ¬((strToLower q.spec.annotations.name) = key) := by
  intro q hq hname
  have hs : (lookupPeerGroupName st key).isSome :=
    lookupPeerGroupName_isSome_of_mem st key q hq hname
  rw [h] at hs
  exact Bool.noConfusion hs

theorem lookupServiceName_eq_none (st : StoreState) (key : String)
    (h : lookupServiceName st key = none) :
    ∀ s ∈ st.services, ¬((strToLower s.spec.annotations.name) = key) := by
  intro s hs hname
  have hsome : (lookupServiceName st key).isSome :=
    lookupServiceName_isSome_of_mem st key s hs hname
  rw [h] at hsome
  exact Bool.noConfusion hsome

/-- What a successful name lookup returns is a member with that name. -/
theorem lookupPeerGroupName_some_spec (st : StoreState) (key : String) (q : PeerGroup)
    (h : lookupPeerGroupName st key = some q) :
    q ∈ st.peerGroups ∧ (strToLower q.spec.annotations.name) = key := by
  unfold lookupPeerGroupName at h
  refine ⟨List.mem_of_find?_eq_some h, ?_⟩
  have hp := List.find?_some h
  simpa using hp

theorem lookupServiceName_some_spec (st : StoreState) (key : String) (s : Service)
    (h : lookupServiceName st key = some s) :
    s ∈ st.services ∧ (strToLower s.spec.annotations.name) = key := by
  unfold lookupServiceName at h
  refine ⟨List.mem_of_find?_eq_some h, ?_⟩
  have hp := List.find?_some h
  simpa using hp

theorem crossNamespaceDisjoint_empty : crossNamespaceDisjoint emptyStore := by
  intro s hs
  exact absurd hs (List.not_mem_nil s)

theorem createService_cross (st : StoreState) (s : Service) (st' : StoreState)
    (h : crossNamespaceDisjoint st) (hok : CreateService st s = .ok st') :
    crossNamespaceDisjoint st' := by
  unfold CreateService at hok
  split_ifs at hok with h1 h2 h3
  · injection hok with h4
    subst h4
    intro x hx q hq
    rcases List.mem_append.1 hx with hx1 | hx1
    · exact h x hx1 q hq
    · have hxs : x = s := by simpa using hx1
      subst hxs
      intro hname
      have hnone : lookupPeerGroupName st (strToLower x.spec.annotations.name) = none :=
        Option.not_isSome_iff_eq_none.1 h2
      exact lookupPeerGroupName_eq_none st _ hnone q hq hname.symm

theorem updateService_cross (st : StoreState) (s : Service) (st' : StoreState)
    (h : crossNamespaceDisjoint st) (hok : UpdateService st s = .ok st') :
    crossNamespaceDisjoint st' := by
  unfold UpdateService at hok
  split at hok
  · rename_i existing hfound
    split_ifs at hok with hid h3
    · injection hok with h4
      subst h4
      intro x hx q hq
      rcases List.mem_map.1 hx with ⟨y, hy, hxy⟩
      by_cases hyid : y.id = s.id
      · rw [if_pos hyid] at hxy
        subst hxy
        intro hname
        have hspec := lookupServiceName_some_spec st _ existing hfound
        exact h existing hspec.1 q hq (hspec.2.trans hname)
      · rw [if_neg hyid] at hxy
        subst hxy
        exact h y hy q hq
  · rename_i hfound
    split_ifs at hok with h2 h3
    · injection hok with h4
      subst h4
      intro x hx q hq
      rcases List.mem_map.1 hx with ⟨y, hy, hxy⟩
      by_cases hyid : y.id = s.id
      · rw [if_pos hyid] at hxy
        subst hxy
        intro hname
        have hnone : lookupPeerGroupName st (strToLower s.spec.annotations.name) = none :=
          Option.not_isSome_iff_eq_none.1 h2
        exact lookupPeerGroupName_eq_none st _ hnone q hq hname.symm
      · rw [if_neg hyid] at hxy
        subst hxy
        exact h y hy q hq

theorem deleteService_cross (st : StoreState) (sid : String) (st' : StoreState)
    (h : crossNamespaceDisjoint st) (hok : DeleteService st sid = .ok st') :
    crossNamespaceDisjoint st' := by
  unfold DeleteService at hok
  split_ifs at hok with h3
  · injection hok with h4
    subst h4
    intro x hx q hq
    exact h x (List.mem_of_mem_filter hx) q hq

theorem createPeerGroup_cross (st : StoreState) (pg : PeerGroup) (st' : StoreState)
    (h : crossNamespaceDisjoint st) (hok : CreatePeerGroup st pg = .ok st') :
    crossNamespaceDisjoint st' := by
  unfold CreatePeerGroup txCreatePeerGroup at hok
  split_ifs at hok with h1 h2 h3
  · injection hok with h4
    subst h4
    intro x hx q hq
    rcases List.mem_append.1 hq with hq1 | hq1
    · exact h x hx q hq1
    · have hqs : q = pg := by simpa using hq1
      subst hqs
      intro hname
      have hnone : lookupServiceName st (strToLower q.spec.annotations.name) = none :=
        Option.not_isSome_iff_eq_none.1 h2
      exact lookupServiceName_eq_none st _ hnone x hx hname

theorem updatePeerGroup_cross (st : StoreState) (pg : PeerGroup) (st' : StoreState)
    (h : crossNamespaceDisjoint st) (hok : UpdatePeerGroup st pg = .ok st') :
    crossNamespaceDisjoint st' := by
  unfold UpdatePeerGroup txUpdatePeerGroup at hok
  split at hok
  · rename_i existing hfound
    split_ifs at hok with hid h3
    · injection hok with h4
      subst h4
      intro x hx q hq
      rcases List.mem_map.1 hq with ⟨y, hy, hqy⟩
      by_cases hyid : y.id = pg.id
      · rw [if_pos hyid] at hqy
        subst hqy
        intro hname
        have hspec := lookupPeerGroupName_some_spec st _ existing hfound
        exact h x hx existing hspec.1 (hname.trans hspec.2.symm)
      · rw [if_neg hyid] at hqy
        subst hqy
        exact h x hx y hy
  · rename_i hfound
    split_ifs at hok with h2 h3
    · injection hok with h4
      subst h4
      intro x hx q hq
      rcases List.mem_map.1 hq with ⟨y, hy, hqy⟩
      by_cases hyid : y.id = pg.id
      · rw [if_pos hyid] at hqy
        subst hqy
        intro hname
        have hnone : lookupServiceName st (strToLower x.spec.annotations.name) = none := by
          rw [hname]
          exact Option.not_isSome_iff_eq_none.1 h2
        unfold lookupServiceName at hnone
        have hcontra := List.find?_eq_none.1 hnone x hx
        simp at hcontra
      · rw [if_neg hyid] at hqy
        subst hqy
        exact h x hx y hy

theorem deletePeerGroup_cross (st : StoreState) (qid : String) (st' : StoreState)
    (h : crossNamespaceDisjoint st) (hok : DeletePeerGroup st qid = .ok st') :
    crossNamespaceDisjoint st' := by
  unfold DeletePeerGroup at hok
  split_ifs at hok with h3
  · injection hok with h4
    subst h4
    intro x hx q hq
    exact h x hx q (List.mem_of_mem_filter hq)

theorem applyStoreOp_cross (st : StoreState) (op : StoreOp)
    (h : crossNamespaceDisjoint st) : crossNamespaceDisjoint (applyStoreOp st op) := by
  cases op with
  | createService s =>
    show crossNamespaceDisjoint
      (match CreateService st s with | .ok st1 => st1 | .error _ => st)
    cases hr : CreateService st s with
    | ok st1 => exact createService_cross st s st1 h hr
    | error e => exact h
  | updateService s =>
    show crossNamespaceDisjoint
      (match UpdateService st s with | .ok st1 => st1 | .error _ => st)
    cases hr : UpdateService st s with
    | ok st1 => exact updateService_cross st s st1 h hr
    | error e => exact h
  | deleteService sid =>
    show crossNamespaceDisjoint
      (match DeleteService st sid with | .ok st1 => st1 | .error _ => st)
    cases hr : DeleteService st sid with
    | ok st1 => exact deleteService_cross st sid st1 h hr
    | error e => exact h
  | createPeerGroup pg =>
    show crossNamespaceDisjoint
      (match CreatePeerGroup st pg with | .ok st1 => st1 | .error _ => st)
    cases hr : CreatePeerGroup st pg with
    | ok st1 => exact createPeerGroup_cross st pg st1 h hr
    | error e => exact h
  | updatePeerGroup pg =>
    show crossNamespaceDisjoint
      (match UpdatePeerGroup st pg with | .ok st1 => st1 | .error _ => st)
    cases hr : UpdatePeerGroup st pg with
    | ok st1 => exact updatePeerGroup_cross st pg st1 h hr
    | error e => exact h
  | deletePeerGroup qid =>
    show crossNamespaceDisjoint
      (match DeletePeerGroup st qid with | .ok st1 => st1 | .error _ => st)
    cases hr : DeletePeerGroup st qid with
    | ok st1 => exact deletePeerGroup_cross st qid st1 h hr
    | error e => exact h

theorem runStoreOps_cross (ops : List StoreOp) (st : StoreState)
    (h : crossNamespaceDisjoint st) : crossNamespaceDisjoint (runStoreOps st ops) := by
  induction ops generalizing st with
  | nil => exact h
  | cons op rest ih => exact ih (applyStoreOp st op) (applyStoreOp_cross st op h)

/-- C5: `CreatePeerGroup` returns ErrNameConflict whenever the new name
collides, case-insensitively, with any existing peer group or service;
`UpdatePeerGroup` likewise (given the pairwise-distinct names the unique
index maintains), except when the colliding peer group is the one being
updated; consequently, after any sequence of store operations starting from
the empty store, no service and peer group share a name case-insensitively. -/
theorem peerGroup_service_namespace :
    (∀ st pg,
      ((∃ q ∈ st.peerGroups,
          (strToLower q.spec.annotations.name) = (strToLower pg.spec.annotations.name)) ∨
        (∃ s ∈ st.services,
          (strToLower s.spec.annotations.name) = (strToLower pg.spec.annotations.name))) →
      CreatePeerGroup st pg = .error .errNameConflict) ∧
    (∀ st pg, peerGroupNamesDistinct st →
      (∃ q ∈ st.peerGroups,
        (strToLower q.spec.annotations.name) = (strToLower pg.spec.annotations.name) ∧
          ¬(q.id = pg.id)) →
      UpdatePeerGroup st pg = .error .errNameConflict) ∧
    (∀ st pg,
      (∀ q ∈ st.peerGroups,
        ¬((strToLower q.spec.annotations.name) = (strToLower pg.spec.annotations.name))) →
      (∃ s ∈ st.services,
        (strToLower s.spec.annotations.name) = (strToLower pg.spec.annotations.name)) →
      UpdatePeerGroup st pg = .error .errNameConflict) ∧
    (∀ ops, crossNamespaceDisjoint (runStoreOps emptyStore ops)) := by
  refine ⟨?_, ?_, ?_, ?_⟩
  · intro st pg hcol
    unfold CreatePeerGroup
    by_cases h1 : (lookupPeerGroupName st (strToLower pg.spec.annotations.name)).isSome
    · rw [if_pos h1]
    · rw [if_neg h1]
      have h2 : (lookupServiceName st (strToLower pg.spec.annotations.name)).isSome := by
        rcases hcol with ⟨q, hq, hn⟩ | ⟨s, hs, hn⟩
        · exact absurd (lookupPeerGroupName_isSome_of_mem st _ q hq hn) h1
        · exact lookupServiceName_isSome_of_mem st _ s hs hn
      rw [if_pos h2]
  · rintro st pg hwf ⟨q, hq, hname, hqid⟩
    unfold UpdatePeerGroup
    cases hfound : lookupPeerGroupName st (strToLower pg.spec.annotations.name) with
    | none =>
      exact absurd hname (lookupPeerGroupName_eq_none st _ hfound q hq)
    | some existing =>
      have hspec := lookupPeerGroupName_some_spec st _ existing hfound
      have hwf2 : st.peerGroups.Pairwise
          (fun a b => ¬((strToLower a.spec.annotations.name) = (strToLower b.spec.annotations.name))) := hwf
      have hsym : Symmetric
          (fun a b : PeerGroup => ¬((strToLower a.spec.annotations.name) = (strToLower b.spec.annotations.name))) :=
        fun _ _ hxy h2 => hxy h2.symm
      have hqe : q = existing := by
        by_contra hne
        exact hwf2.forall hsym hq hspec.1 hne (hname.trans hspec.2.symm)
      show (if ¬(existing.id = pg.id) then Except.error StoreErr.errNameConflict
            else txUpdatePeerGroup st pg) = Except.error StoreErr.errNameConflict
      rw [if_pos (show ¬(existing.id = pg.id) from hqe ▸ hqid)]
  · rintro st pg hno ⟨s, hs, hname⟩
    unfold UpdatePeerGroup
    cases hfound : lookupPeerGroupName st (strToLower pg.spec.annotations.name) with
    | none =>
      show (if (lookupServiceName st (strToLower pg.spec.annotations.name)).isSome = true
            then Except.error StoreErr.errNameConflict
            else txUpdatePeerGroup st pg) = Except.error StoreErr.errNameConflict
      rw [if_pos (lookupServiceName_isSome_of_mem st _ s hs hname)]
    | some existing =>
      have hspec := lookupPeerGroupName_some_spec st _ existing hfound
      exact absurd hspec.2 (hno existing hspec.1)
  · intro ops
    exact runStoreOps_cross ops emptyStore crossNamespaceDisjoint_empty

/-- C5 witness: creating the peer group "ALPHA" over the store holding the
service "alpha" fails with ErrNameConflict, and a concrete operation
sequence ends cross-namespace disjoint. -/
theorem peerGroup_service_namespace_witness :
    CreatePeerGroup stE2 pgAlpha = .error .errNameConflict ∧
    crossNamespaceDisjoint
      (runStoreOps emptyStore [.createService svcAlpha, .createPeerGroup pgAlpha]) :=
  ⟨peerGroup_service_namespace.1 stE2 pgAlpha
      (Or.inr ⟨svcAlpha, by decide, by decide⟩),
    peerGroup_service_namespace.2.2.2 [.createService svcAlpha, .createPeerGroup pgAlpha]⟩

/-! ## The assignment engine: effect lemmas -/

theorem releaseDependency_spec (a : AssignmentSet) (key : TypeAndID) (asg : Assignment)
    (tid : String) :
    ((releaseDependency a key asg tid).1.tasksMap = a.tasksMap) ∧
    ((releaseDependency a key asg tid).2.2 = true →
      (releaseDependency a key asg tid).2.1 =
        [(key, { assignment := asg, action := .remove })]) ∧
    ((releaseDependency a key asg tid).2.2 = false →
      (releaseDependency a key asg tid).2.1 = []) ∧
    (∀ k', (releaseDependency a key asg tid).1.depGet k' =
      if k' = key then setDel (a.depGet key) tid else a.depGet k') ∧
    ((releaseDependency a key asg tid).2.2 = (setDel (a.depGet key) tid).isEmpty) := by
  unfold releaseDependency
  by_cases hrem : (setDel (a.depGet key) tid).isEmpty
  · rw [if_pos hrem]
    refine ⟨rfl, fun _ => rfl, fun hfalse => Bool.noConfusion hfalse, fun k' => ?_, by simp [hrem]⟩
    show (alGet (alDel a.tasksUsingDependency key) k').getD [] = _
    rw [alGet_alDel]
    by_cases hk : k' = key
    · rw [if_pos hk, if_pos hk]
      have : setDel (a.depGet key) tid = [] := by
        cases hsd : setDel (a.depGet key) tid with
        | nil => rfl
        | cons z zs => rw [hsd] at hrem; exact Bool.noConfusion hrem
      rw [this]
      rfl
    · rw [if_neg hk, if_neg hk]
      rfl
  · rw [if_neg hrem]
    refine ⟨rfl, fun htrue => Bool.noConfusion htrue, fun _ => rfl, fun k' => ?_, by simp [hrem]⟩
    show (alGet (alPut a.tasksUsingDependency key (setDel (a.depGet key) tid)) k').getD [] = _
    rw [alGet_alPut]
    by_cases hk : k' = key
    · rw [if_pos hk, if_pos hk]
      rfl
    · rw [if_neg hk, if_neg hk]
      rfl

/-- The writes, final flag and state of the release loop: the new writes are
all Removes within the loop's keys, the flag reports whether any was
written, the tasks map is untouched. -/
theorem releaseLoop_spec (items : List (TypeAndID × Assignment)) (tid : String)
    (a : AssignmentSet) (ws : List Write) (m : Bool) :
    ∃ W, (releaseLoop items tid a ws m).2.1 = ws ++ W ∧
      ((releaseLoop items tid a ws m).2.2
        = (m || W.any (fun w => decide (w.2.action = AssignmentAction.remove)))) ∧
      ((releaseLoop items tid a ws m).1.tasksMap = a.tasksMap) ∧
      (∀ w ∈ W, w.2.action = AssignmentAction.remove ∧ w.1 ∈ items.map (fun i => i.1)) := by
  induction items generalizing a ws m with
  | nil =>
    exact ⟨[], by simp [releaseLoop], by simp [releaseLoop], rfl, by simp⟩
  | cons item rest ih =>
    have hstep : releaseLoop (item :: rest) tid a ws m
        = releaseLoop rest tid (releaseDependency a item.1 item.2 tid).1
            (ws ++ (releaseDependency a item.1 item.2 tid).2.1)
            (m || (releaseDependency a item.1 item.2 tid).2.2) := rfl
    have hdep := releaseDependency_spec a item.1 item.2 tid
    rcases ih (releaseDependency a item.1 item.2 tid).1
        (ws ++ (releaseDependency a item.1 item.2 tid).2.1)
        (m || (releaseDependency a item.1 item.2 tid).2.2) with ⟨W', hW1, hW2, hW3, hW4⟩
    refine ⟨(releaseDependency a item.1 item.2 tid).2.1 ++ W', ?_, ?_, ?_, ?_⟩
    · rw [hstep, hW1, List.append_assoc]
    · rw [hstep, hW2]
      cases hb : (releaseDependency a item.1 item.2 tid).2.2 with
      | true =>
        rw [hdep.2.1 hb]
        simp
      | false =>
        rw [hdep.2.2.1 hb]
        simp
    · rw [hstep, hW3, hdep.1]
    · intro w hw
      rcases List.mem_append.1 hw with hw1 | hw1
      · cases hb : (releaseDependency a item.1 item.2 tid).2.2 with
        | true =>
          rw [hdep.2.1 hb] at hw1
          have hws : w = (item.1, { assignment := item.2, action := .remove }) := by
            simpa using hw1
          subst hws
          exact ⟨rfl, by simp⟩
        | false =>
          rw [hdep.2.2.1 hb] at hw1
          exact absurd hw1 (List.not_mem_nil w)
      · rcases hW4 w hw1 with ⟨hact, hkey⟩
        exact ⟨hact, by simp [List.mem_cons]; right; simpa using hkey⟩

/-- `releaseTaskDependencies` reports exactly whether one of its writes is a
Remove; its writes are all Removes keyed within the task's dependency keys;
the tasks map is untouched. -/
theorem releaseTaskDependencies_spec (a : AssignmentSet) (t : Task) :
    ((releaseTaskDependencies a t).2.2
      = (releaseTaskDependencies a t).2.1.any
          (fun w => decide (w.2.action = AssignmentAction.remove))) ∧
    ((releaseTaskDependencies a t).1.tasksMap = a.tasksMap) ∧
    (∀ w ∈ (releaseTaskDependencies a t).2.1,
      w.2.action = AssignmentAction.remove ∧ w.1 ∈ t.depKeys) := by
  rcases releaseLoop_spec t.releaseItems t.id a [] false with ⟨W, hW1, hW2, hW3, hW4⟩
  have hw1 : (releaseTaskDependencies a t).2.1 = W := by
    unfold releaseTaskDependencies
    rw [hW1]
    exact List.nil_append W
  have hflag : (releaseTaskDependencies a t).2.2
      = W.any (fun w => decide (w.2.action = AssignmentAction.remove)) := by
    unfold releaseTaskDependencies
    rw [hW2]
    exact Bool.false_or _
  refine ⟨?_, ?_, ?_⟩
  · rw [hflag, hw1]
  · unfold releaseTaskDependencies
    exact hW3
  · intro w hw
    rw [hw1] at hw
    exact ⟨(hW4 w hw).1, (hW4 w hw).2⟩

theorem isEmpty_iff_nil (l : List String) : l.isEmpty = true ↔ l = [] := by
  cases l <;> simp

theorem removesFor_append (xs ys : List Write) (k : TypeAndID) :
    removesFor (xs ++ ys) k = removesFor xs k + removesFor ys k := by
  unfold removesFor
  exact List.countP_append _ _ _

theorem removesFor_zero_of_update (ws : List Write) (k : TypeAndID)
    (h : ∀ w ∈ ws, w.2.action = AssignmentAction.update) : removesFor ws k = 0 := by
  unfold removesFor
  rw [List.countP_eq_zero]
  intro w hw
  have hu := h w hw
  simp [hu]

/-- The reverse-index effect of the release loop for duplicate-free keys:
each listed key is `setDel`-ed once; others are untouched. -/
theorem releaseLoop_depGet (items : List (TypeAndID × Assignment)) (tid : String)
    (a : AssignmentSet) (ws : List Write) (m : Bool)
    (hnd : (items.map (fun i => i.1)).Nodup) (k : TypeAndID) :
    (releaseLoop items tid a ws m).1.depGet k =
      if k ∈ items.map (fun i => i.1) then setDel (a.depGet k) tid else a.depGet k := by
  induction items generalizing a ws m with
  | nil => simp [releaseLoop]
  | cons item rest ih =>
    have hstep : releaseLoop (item :: rest) tid a ws m
        = releaseLoop rest tid (releaseDependency a item.1 item.2 tid).1
            (ws ++ (releaseDependency a item.1 item.2 tid).2.1)
            (m || (releaseDependency a item.1 item.2 tid).2.2) := rfl
    rw [List.map_cons] at hnd
    obtain ⟨hnotin, hndrest⟩ := List.nodup_cons.1 hnd
    have hdep := releaseDependency_spec a item.1 item.2 tid
    rw [hstep, ih _ _ _ hndrest, List.map_cons]
    by_cases h1 : k = item.1
    · have hrest : ¬(k ∈ rest.map (fun i => i.1)) := fun hm => hnotin (h1 ▸ hm)
      rw [if_neg hrest, hdep.2.2.2.1 k, if_pos h1, if_pos (List.mem_cons.2 (Or.inl h1)), h1]
    · by_cases h2 : k ∈ rest.map (fun i => i.1)
      · rw [if_pos h2, if_pos (List.mem_cons.2 (Or.inr h2))]
        have hdg : (releaseDependency a item.1 item.2 tid).1.depGet k = a.depGet k := by
          rw [hdep.2.2.2.1 k, if_neg h1]
        rw [hdg]
      · rw [if_neg h2, if_neg (fun hm => (List.mem_cons.1 hm).elim h1 h2),
          hdep.2.2.2.1 k, if_neg h1]

/-- The Remove changes of the release loop for duplicate-free keys: exactly
one Remove per listed key whose entry drains to empty. -/
theorem releaseLoop_removesFor (items : List (TypeAndID × Assignment)) (tid : String)
    (a : AssignmentSet) (ws : List Write) (m : Bool)
    (hnd : (items.map (fun i => i.1)).Nodup) (k : TypeAndID) :
    removesFor (releaseLoop items tid a ws m).2.1 k =
      removesFor ws k +
        (if k ∈ items.map (fun i => i.1) ∧ setDel (a.depGet k) tid = [] then 1 else 0) := by
  induction items generalizing a ws m with
  | nil => simp [releaseLoop, removesFor]
  | cons item rest ih =>
    have hstep : releaseLoop (item :: rest) tid a ws m
        = releaseLoop rest tid (releaseDependency a item.1 item.2 tid).1
            (ws ++ (releaseDependency a item.1 item.2 tid).2.1)
            (m || (releaseDependency a item.1 item.2 tid).2.2) := rfl
    rw [List.map_cons] at hnd
    obtain ⟨hnotin, hndrest⟩ := List.nodup_cons.1 hnd
    have hdep := releaseDependency_spec a item.1 item.2 tid
    rw [hstep, ih _ _ _ hndrest, removesFor_append, List.map_cons]
    by_cases h1 : k = item.1
    · have hrest : ¬(k ∈ rest.map (fun i => i.1)) := fun hm => hnotin (h1 ▸ hm)
      rw [if_neg (fun hc => hrest hc.1)]
      cases hb : (releaseDependency a item.1 item.2 tid).2.2 with
      | true =>
        have hsd : setDel (a.depGet item.1) tid = [] := by
          apply (isEmpty_iff_nil _).1
          rw [← hdep.2.2.2.2, hb]
        rw [hdep.2.1 hb,
          if_pos (⟨List.mem_cons.2 (Or.inl h1), by rw [h1]; exact hsd⟩ :
            k ∈ item.1 :: rest.map (fun i => i.1) ∧ setDel (a.depGet k) tid = [])]
        have hone : removesFor [(item.1,
            { assignment := item.2, action := AssignmentAction.remove })] k = 1 := by
          unfold removesFor
          simp [h1]
        rw [hone]
      | false =>
        have hsd : ¬(setDel (a.depGet item.1) tid = []) := by
          intro hc
          have hie : (setDel (a.depGet item.1) tid).isEmpty = true := by
            rw [hc]
            rfl
          rw [← hdep.2.2.2.2, hb] at hie
          exact Bool.noConfusion hie
        rw [hdep.2.2.1 hb, if_neg (fun hc => hsd (by rw [← h1]; exact hc.2))]
        have hzero : removesFor ([] : List Write) k = 0 := rfl
        rw [hzero]
    · have hdep0 : removesFor (releaseDependency a item.1 item.2 tid).2.1 k = 0 := by
        cases hb : (releaseDependency a item.1 item.2 tid).2.2 with
        | true =>
          rw [hdep.2.1 hb]
          unfold removesFor
          rw [List.countP_eq_zero]
          intro w hw
          have hww : w = (item.1, { assignment := item.2, action := AssignmentAction.remove }) :=
            List.mem_singleton.1 hw
          subst hww
          simp
          intro hc
          exact absurd hc.symm h1
        | false =>
          rw [hdep.2.2.1 hb]
          rfl
      have hdg : (releaseDependency a item.1 item.2 tid).1.depGet k = a.depGet k := by
        rw [hdep.2.2.2.1 k, if_neg h1]
      rw [hdg, hdep0]
      have hmm : (k ∈ item.1 :: rest.map (fun i => i.1)) ↔ (k ∈ rest.map (fun i => i.1)) :=
        ⟨fun h => (List.mem_cons.1 h).elim (fun hc => absurd hc h1) id,
         fun h => List.mem_cons.2 (Or.inr h)⟩
      by_cases h2 : k ∈ rest.map (fun i => i.1) ∧ setDel (a.depGet k) tid = []
      · rw [if_pos h2, if_pos (⟨hmm.2 h2.1, h2.2⟩ :
          k ∈ item.1 :: rest.map (fun i => i.1) ∧ setDel (a.depGet k) tid = [])]
      · rw [if_neg h2, if_neg (fun hc => h2 ⟨hmm.1 hc.1, hc.2⟩)]

/-- `releaseTaskDependencies` on duplicate-free keys: pointwise `setDel`. -/
theorem releaseTaskDependencies_depGet (a : AssignmentSet) (t : Task)
    (hnd : t.depKeys.Nodup) (k : TypeAndID) :
    (releaseTaskDependencies a t).1.depGet k =
      if k ∈ t.depKeys then setDel (a.depGet k) t.id else a.depGet k := by
  unfold releaseTaskDependencies
  exact releaseLoop_depGet t.releaseItems t.id a [] false hnd k

/-- `releaseTaskDependencies` on duplicate-free keys: one Remove exactly for
each dependency key whose entry drains to empty. -/
theorem releaseTaskDependencies_removesFor (a : AssignmentSet) (t : Task)
    (hnd : t.depKeys.Nodup) (k : TypeAndID) :
    removesFor (releaseTaskDependencies a t).2.1 k =
      if k ∈ t.depKeys ∧ setDel (a.depGet k) t.id = [] then 1 else 0 := by
  unfold releaseTaskDependencies
  have h := releaseLoop_removesFor t.releaseItems t.id a [] false hnd k
  have h0 : removesFor ([] : List Write) k = 0 := rfl
  rw [h, h0, Nat.zero_add]
  rfl

/-- Every key of a task's dependencies is a SECRET or CONFIG key. -/
theorem depKeys_objTypes (t : Task) (k : TypeAndID) (hk : k ∈ t.depKeys) :
    k.objType = ResourceType.secret ∨ k.objType = ResourceType.config := by
  unfold Task.depKeys Task.releaseItems at hk
  rcases List.mem_map.1 hk with ⟨item, hitem, hkey⟩
  subst hkey
  rcases List.mem_append.1 hitem with h1 | h1
  · rcases List.mem_append.1 h1 with h2 | h2
    · rcases List.mem_append.1 h2 with h3 | h3
      · rcases List.mem_filterMap.1 h3 with ⟨r, _, hr⟩
        cases hrt : r.resourceType <;> rw [hrt] at hr
        · exact absurd hr (by simp)
        · cases Option.some.inj hr
          exact Or.inl rfl
        · cases Option.some.inj hr
          exact Or.inr rfl
      · rcases List.mem_map.1 h3 with ⟨sr, _, hsr⟩
        cases hsr
        exact Or.inl rfl
    · rcases List.mem_map.1 h2 with ⟨cr, _, hcr⟩
      cases hcr
      exact Or.inr rfl
  · rcases List.mem_map.1 h1 with ⟨cr, _, hcr⟩
    cases hcr
    exact Or.inr rfl

/-- No key of a task's dependencies has the TASK object type. -/
theorem depKeys_not_task (t : Task) (k : TypeAndID) (hk : k ∈ t.depKeys) :
    ¬(k.objType = ResourceType.task) := by
  intro hcontra
  rcases depKeys_objTypes t k hk with h1 | h1 <;> rw [hcontra] at h1 <;>
    exact ResourceType.noConfusion h1

theorem assignSecret_tasksMap (env : Env) (a : AssignmentSet) (key : TypeAndID) (t : Task) :
    (assignSecret env a key t).1.tasksMap = a.tasksMap := by
  unfold assignSecret
  cases secretLookup env t key.id <;> rfl

theorem assignConfig_tasksMap (env : Env) (a : AssignmentSet) (key : TypeAndID) :
    (assignConfig env a key).1.tasksMap = a.tasksMap := by
  unfold assignConfig
  cases env.getConfig key.id <;> rfl

theorem registerSynthConfig_tasksMap (a : AssignmentSet) (cid : String) (data : ConfigData)
    (tid : String) : (registerSynthConfig a cid data tid).1.tasksMap = a.tasksMap := by
  unfold registerSynthConfig depInsert
  simp only []
  split_ifs <;> rfl

theorem addResourceRefDep_tasksMap (env : Env) (t : Task) (a : AssignmentSet) (ws : List Write)
    (r : ResourceReference) : (addResourceRefDep env t a ws r).1.tasksMap = a.tasksMap := by
  unfold addResourceRefDep
  simp only []
  split_ifs with h
  · split
    · exact assignSecret_tasksMap env a _ t
    · exact assignConfig_tasksMap env a _
    · rfl
  · rfl

theorem addSecretRefDep_tasksMap (env : Env) (t : Task) (a : AssignmentSet) (ws : List Write)
    (sr : SecretReference) : (addSecretRefDep env t a ws sr).1.tasksMap = a.tasksMap := by
  unfold addSecretRefDep
  simp only []
  split_ifs with h
  · exact assignSecret_tasksMap env a _ t
  · rfl

theorem addConfigRefDep_tasksMap (env : Env) (t : Task) (a : AssignmentSet) (ws : List Write)
    (cr : ConfigReference) : (addConfigRefDep env t a ws cr).1.tasksMap = a.tasksMap := by
  unfold addConfigRefDep
  simp only []
  split_ifs with h
  · exact assignConfig_tasksMap env a _
  · rfl

theorem addCertIssuanceDependencies_tasksMap (env : Env) (a : AssignmentSet) (t : Task)
    (ci : CertificateIssuance) :
    (addCertIssuanceDependencies env a t ci).1.tasksMap = a.tasksMap := by
  unfold addCertIssuanceDependencies
  split
  · rfl
  · split
    · rfl
    · simp only []
      rw [registerSynthConfig_tasksMap, registerSynthConfig_tasksMap,
          registerSynthConfig_tasksMap]

theorem maybeAddStaticServiceDependencies_tasksMap (env : Env) (a : AssignmentSet) (t : Task) :
    (maybeAddStaticServiceDependencies env a t).1.tasksMap = a.tasksMap := by
  unfold maybeAddStaticServiceDependencies
  split
  · rfl
  · split
    · rfl
    · split
      · rfl
      · simp only []
        rw [registerSynthConfig_tasksMap]

theorem addResourceRefsLoop_tasksMap (env : Env) (t : Task) (rs : List ResourceReference)
    (a : AssignmentSet) (ws : List Write) :
    (addResourceRefsLoop env t rs a ws).1.tasksMap = a.tasksMap := by
  induction rs generalizing a ws with
  | nil => rfl
  | cons r rest ih =>
    show (addResourceRefsLoop env t rest (addResourceRefDep env t a ws r).1
      (addResourceRefDep env t a ws r).2).1.tasksMap = a.tasksMap
    rw [ih, addResourceRefDep_tasksMap]

theorem addSecretRefsLoop_tasksMap (env : Env) (t : Task) (srs : List SecretReference)
    (a : AssignmentSet) (ws : List Write) :
    (addSecretRefsLoop env t srs a ws).1.tasksMap = a.tasksMap := by
  induction srs generalizing a ws with
  | nil => rfl
  | cons sr rest ih =>
    show (addSecretRefsLoop env t rest (addSecretRefDep env t a ws sr).1
      (addSecretRefDep env t a ws sr).2).1.tasksMap = a.tasksMap
    rw [ih, addSecretRefDep_tasksMap]

theorem addConfigRefsLoop_tasksMap (env : Env) (t : Task) (crs : List ConfigReference)
    (a : AssignmentSet) (ws : List Write) :
    (addConfigRefsLoop env t crs a ws).1.tasksMap = a.tasksMap := by
  induction crs generalizing a ws with
  | nil => rfl
  | cons cr rest ih =>
    show (addConfigRefsLoop env t rest (addConfigRefDep env t a ws cr).1
      (addConfigRefDep env t a ws cr).2).1.tasksMap = a.tasksMap
    rw [ih, addConfigRefDep_tasksMap]

theorem addCertIssuancesLoop_tasksMap (env : Env) (t : Task) (cis : List CertificateIssuance)
    (a : AssignmentSet) (ws : List Write) :
    (addCertIssuancesLoop env t cis a ws).1.tasksMap = a.tasksMap := by
  induction cis generalizing a ws with
  | nil => rfl
  | cons ci rest ih =>
    show (addCertIssuancesLoop env t rest (addCertIssuanceDependencies env a t ci).1
      (ws ++ (addCertIssuanceDependencies env a t ci).2)).1.tasksMap = a.tasksMap
    rw [ih, addCertIssuanceDependencies_tasksMap]

theorem addTaskDependencies_tasksMap (env : Env) (a : AssignmentSet) (t : Task) :
    (addTaskDependencies env a t).1.tasksMap = a.tasksMap := by
  unfold addTaskDependencies
  simp only []
  rw [maybeAddStaticServiceDependencies_tasksMap]
  by_cases hci : t.containerCertIssuances.isEmpty
  · rw [if_pos hci, addConfigRefsLoop_tasksMap, addSecretRefsLoop_tasksMap,
        addResourceRefsLoop_tasksMap]
  · rw [if_neg hci, addCertIssuancesLoop_tasksMap, addConfigRefsLoop_tasksMap,
        addSecretRefsLoop_tasksMap, addResourceRefsLoop_tasksMap]

/-! ## Reverse-index effects of the add path -/

theorem depInsert_depGet (a : AssignmentSet) (key : TypeAndID) (tid : String) (k : TypeAndID) :
    (depInsert a key tid).depGet k =
      if k = key then setAdd (a.depGet k) tid else a.depGet k := by
  show (alGet (alPut a.tasksUsingDependency key (setAdd (a.depGet key) tid)) k).getD [] = _
  rw [alGet_alPut]
  by_cases hk : k = key
  · rw [if_pos hk, if_pos hk, hk]
    rfl
  · rw [if_neg hk, if_neg hk]
    rfl

theorem assignSecret_depGet (env : Env) (a : AssignmentSet) (key : TypeAndID) (t : Task)
    (k : TypeAndID) :
    (assignSecret env a key t).1.depGet k = if k = key then [] else a.depGet k := by
  unfold assignSecret
  cases hsec : secretLookup env t key.id with
  | none =>
    show (alGet (alPut a.tasksUsingDependency key []) k).getD [] = _
    rw [alGet_alPut]
    by_cases hk : k = key
    · rw [if_pos hk, if_pos hk]
      rfl
    · rw [if_neg hk, if_neg hk]
      rfl
  | some secret =>
    show (alGet (alPut a.tasksUsingDependency key []) k).getD [] = _
    rw [alGet_alPut]
    by_cases hk : k = key
    · rw [if_pos hk, if_pos hk]
      rfl
    · rw [if_neg hk, if_neg hk]
      rfl

theorem assignConfig_depGet (env : Env) (a : AssignmentSet) (key : TypeAndID)
    (k : TypeAndID) :
    (assignConfig env a key).1.depGet k = if k = key then [] else a.depGet k := by
  unfold assignConfig
  cases hcfg : env.getConfig key.id with
  | none =>
    show (alGet (alPut a.tasksUsingDependency key []) k).getD [] = _
    rw [alGet_alPut]
    by_cases hk : k = key
    · rw [if_pos hk, if_pos hk]
      rfl
    · rw [if_neg hk, if_neg hk]
      rfl
  | some config =>
    show (alGet (alPut a.tasksUsingDependency key []) k).getD [] = _
    rw [alGet_alPut]
    by_cases hk : k = key
    · rw [if_pos hk, if_pos hk]
      rfl
    · rw [if_neg hk, if_neg hk]
      rfl

theorem assignSecret_writes (env : Env) (a : AssignmentSet) (key : TypeAndID) (t : Task) :
    ∀ w ∈ (assignSecret env a key t).2, w.1 = key ∧ w.2.action = AssignmentAction.update := by
  unfold assignSecret
  cases hsec : secretLookup env t key.id with
  | none => intro w hw; exact absurd hw (List.not_mem_nil w)
  | some secret =>
    intro w hw
    have hws : w = (key, { assignment := .secret secret, action := .update }) := by
      simpa using hw
    subst hws
    exact ⟨rfl, rfl⟩

theorem assignSecret_fail_writes (env : Env) (a : AssignmentSet) (key : TypeAndID) (t : Task)
    (h : secretLookup env t key.id = none) : (assignSecret env a key t).2 = [] := by
  unfold assignSecret
  rw [h]

theorem assignConfig_writes (env : Env) (a : AssignmentSet) (key : TypeAndID) :
    ∀ w ∈ (assignConfig env a key).2, w.1 = key ∧ w.2.action = AssignmentAction.update := by
  unfold assignConfig
  cases hcfg : env.getConfig key.id with
  | none => intro w hw; exact absurd hw (List.not_mem_nil w)
  | some config =>
    intro w hw
    have hws : w = (key, { assignment := .config config, action := .update }) := by
      simpa using hw
    subst hws
    exact ⟨rfl, rfl⟩

theorem assignConfig_fail_writes (env : Env) (a : AssignmentSet) (key : TypeAndID)
    (h : env.getConfig key.id = none) : (assignConfig env a key).2 = [] := by
  unfold assignConfig
  rw [h]

theorem registerSynthConfig_depGet (a : AssignmentSet) (cid : String) (data : ConfigData)
    (tid : String) (k : TypeAndID) :
    (registerSynthConfig a cid data tid).1.depGet k =
      if k = { objType := ResourceType.config, id := cid }
      then setAdd (a.depGet k) tid
      else a.depGet k := by
  unfold registerSynthConfig
  simp only []
  by_cases hk : k = { objType := ResourceType.config, id := cid }
  · rw [if_pos hk]
    split_ifs with h
    · have hempty : a.depGet { objType := ResourceType.config, id := cid } = [] :=
        (isEmpty_iff_nil _).1 h
      show (depInsert _ _ tid).depGet k = _
      rw [depInsert_depGet, if_pos hk]
      congr 1
      show (alGet (alPut a.tasksUsingDependency _ []) k).getD [] = a.depGet k
      rw [hk, alGet_alPut, if_pos rfl, hempty]
      rfl
    · show (depInsert a _ tid).depGet k = _
      rw [depInsert_depGet, if_pos hk]
  · rw [if_neg hk]
    split_ifs with h
    · show (depInsert _ _ tid).depGet k = _
      rw [depInsert_depGet, if_neg hk]
      show (alGet (alPut a.tasksUsingDependency _ []) k).getD [] = a.depGet k
      rw [alGet_alPut, if_neg hk]
      rfl
    · show (depInsert a _ tid).depGet k = _
      rw [depInsert_depGet, if_neg hk]

theorem registerSynthConfig_writes (a : AssignmentSet) (cid : String) (data : ConfigData)
    (tid : String) :
    ∀ w ∈ (registerSynthConfig a cid data tid).2,
      w.1 = { objType := ResourceType.config, id := cid } ∧
        w.2.action = AssignmentAction.update := by
  unfold registerSynthConfig
  simp only []
  split_ifs with h
  · intro w hw
    have hws : w = ({ objType := ResourceType.config, id := cid },
        { assignment := .config { id := cid, spec := { data := data } },
          action := .update }) := by
      simpa using hw
    subst hws
    exact ⟨rfl, rfl⟩
  · intro w hw
    exact absurd hw (List.not_mem_nil w)

/-- Two appends of the same string with suffixes of different lengths
differ (used to separate the three synthesized issuance-config IDs). -/
theorem append_suffix_ne (s a b : String) (h : ¬(a.length = b.length)) :
    ¬(s ++ a = s ++ b) := by
  intro he
  apply h
  have hl : (s ++ a).length = (s ++ b).length := by rw [he]
  rw [String.length_append, String.length_append] at hl
  exact Nat.add_left_cancel hl

/-- The generic shape of one dependency registration: create-or-keep the
entry, then insert the task ID. -/
theorem registerStep_depGet (a b : AssignmentSet) (key : TypeAndID) (tid : String)
    (k : TypeAndID)
    (hb : ∀ k', b.depGet k' = if k' = key then [] else a.depGet k')
    (hemp : a.depGet key = []) :
    (depInsert b key tid).depGet k =
      if k = key then setAdd (a.depGet k) tid else a.depGet k := by
  rw [depInsert_depGet]
  by_cases hk : k = key
  · rw [if_pos hk, if_pos hk]
    congr 1
    rw [hb, if_pos hk, hk, hemp]
  · rw [if_neg hk, if_neg hk, hb, if_neg hk]

theorem refKeys_not_task (r : ResourceReference) (k : TypeAndID) (hk : k ∈ refKeys r) :
    ¬(k.objType = ResourceType.task) := by
  unfold refKeys at hk
  cases hrt : r.resourceType <;> rw [hrt] at hk
  · exact absurd hk (List.not_mem_nil k)
  · rw [List.mem_singleton.1 hk]
    intro hc
    exact ResourceType.noConfusion hc
  · rw [List.mem_singleton.1 hk]
    intro hc
    exact ResourceType.noConfusion hc

theorem addResourceRefDep_depGet (env : Env) (t : Task) (a : AssignmentSet) (ws : List Write)
    (r : ResourceReference)
    (hside : ∀ kk : TypeAndID, kk.objType = ResourceType.task → a.depGet kk = [])
    (k : TypeAndID) :
    (addResourceRefDep env t a ws r).1.depGet k =
      if k ∈ refKeys r then setAdd (a.depGet k) t.id else a.depGet k := by
  unfold addResourceRefDep refKeys
  simp only []
  cases hrt : r.resourceType
  case task =>
    have hemp : a.depGet { objType := ResourceType.task, id := r.resourceID } = [] :=
      hside _ rfl
    simp [hemp]
  case secret =>
    by_cases hemp : (a.depGet { objType := ResourceType.secret, id := r.resourceID }).isEmpty = true
    · rw [if_pos hemp]
      show (depInsert (assignSecret env a _ t).1 _ t.id).depGet k = _
      rw [registerStep_depGet a _ _ t.id k (assignSecret_depGet env a _ t)
          ((isEmpty_iff_nil _).1 hemp)]
      exact if_congr List.mem_singleton.symm rfl rfl
    · rw [if_neg hemp]
      show (depInsert a _ t.id).depGet k = _
      rw [depInsert_depGet]
      exact if_congr List.mem_singleton.symm rfl rfl
  case config =>
    by_cases hemp : (a.depGet { objType := ResourceType.config, id := r.resourceID }).isEmpty = true
    · rw [if_pos hemp]
      show (depInsert (assignConfig env a _).1 _ t.id).depGet k = _
      rw [registerStep_depGet a _ _ t.id k (assignConfig_depGet env a _)
          ((isEmpty_iff_nil _).1 hemp)]
      exact if_congr List.mem_singleton.symm rfl rfl
    · rw [if_neg hemp]
      show (depInsert a _ t.id).depGet k = _
      rw [depInsert_depGet]
      exact if_congr List.mem_singleton.symm rfl rfl

theorem addSecretRefDep_depGet (env : Env) (t : Task) (a : AssignmentSet) (ws : List Write)
    (sr : SecretReference) (k : TypeAndID) :
    (addSecretRefDep env t a ws sr).1.depGet k =
      if k = { objType := ResourceType.secret, id := sr.secretID }
      then setAdd (a.depGet k) t.id else a.depGet k := by
  unfold addSecretRefDep
  simp only []
  by_cases hemp : (a.depGet { objType := ResourceType.secret, id := sr.secretID }).isEmpty = true
  · rw [if_pos hemp]
    show (depInsert (assignSecret env a _ t).1 _ t.id).depGet k = _
    rw [registerStep_depGet a _ _ t.id k (assignSecret_depGet env a _ t)
        ((isEmpty_iff_nil _).1 hemp)]
  · rw [if_neg hemp]
    show (depInsert a _ t.id).depGet k = _
    rw [depInsert_depGet]

theorem addConfigRefDep_depGet (env : Env) (t : Task) (a : AssignmentSet) (ws : List Write)
    (cr : ConfigReference) (k : TypeAndID) :
    (addConfigRefDep env t a ws cr).1.depGet k =
      if k = { objType := ResourceType.config, id := cr.configID }
      then setAdd (a.depGet k) t.id else a.depGet k := by
  unfold addConfigRefDep
  simp only []
  by_cases hemp : (a.depGet { objType := ResourceType.config, id := cr.configID }).isEmpty = true
  · rw [if_pos hemp]
    show (depInsert (assignConfig env a _).1 _ t.id).depGet k = _
    rw [registerStep_depGet a _ _ t.id k (assignConfig_depGet env a _)
        ((isEmpty_iff_nil _).1 hemp)]
  · rw [if_neg hemp]
    show (depInsert a _ t.id).depGet k = _
    rw [depInsert_depGet]

theorem addCertIssuanceDependencies_depGet (env : Env) (a : AssignmentSet) (t : Task)
    (ci : CertificateIssuance) (k : TypeAndID) :
    (addCertIssuanceDependencies env a t ci).1.depGet k =
      if k ∈ issueKeys env t ci then setAdd (a.depGet k) t.id else a.depGet k := by
  unfold addCertIssuanceDependencies
  cases hca : env.getCA ci.certificateAuthorityID with
  | none =>
    have h1 : issueKeys env t ci = [] := by
      unfold issueKeys
      rw [hca]
    simp [h1]
  | some ca =>
    simp only []
    cases hic : env.issue ca t.id with
    | none =>
      have h1 : issueKeys env t ci = [] := by
        unfold issueKeys
        rw [hca]
        simp only []
        rw [hic]
      simp [h1]
    | some kc =>
      have h1 : issueKeys env t ci =
          [ { objType := ResourceType.config, id := t.id ++ "-" ++ ci.certificateAuthorityID ++ "-issue-ca" },
            { objType := ResourceType.config, id := t.id ++ "-" ++ ci.certificateAuthorityID ++ "-issue-key" },
            { objType := ResourceType.config, id := t.id ++ "-" ++ ci.certificateAuthorityID ++ "-issue-cert" } ] := by
        unfold issueKeys
        rw [hca]
        simp only []
        rw [hic]
      have hca12 := append_suffix_ne (t.id ++ "-" ++ ci.certificateAuthorityID)
        "-issue-ca" "-issue-key" (by decide)
      have hca13 := append_suffix_ne (t.id ++ "-" ++ ci.certificateAuthorityID)
        "-issue-ca" "-issue-cert" (by decide)
      have hca23 := append_suffix_ne (t.id ++ "-" ++ ci.certificateAuthorityID)
        "-issue-key" "-issue-cert" (by decide)
      have hca21 : ¬(t.id ++ "-" ++ ci.certificateAuthorityID ++ "-issue-key" =
          t.id ++ "-" ++ ci.certificateAuthorityID ++ "-issue-ca") := fun he => hca12 he.symm
      have hca31 : ¬(t.id ++ "-" ++ ci.certificateAuthorityID ++ "-issue-cert" =
          t.id ++ "-" ++ ci.certificateAuthorityID ++ "-issue-ca") := fun he => hca13 he.symm
      have hca32 : ¬(t.id ++ "-" ++ ci.certificateAuthorityID ++ "-issue-cert" =
          t.id ++ "-" ++ ci.certificateAuthorityID ++ "-issue-key") := fun he => hca23 he.symm
      simp only []
      rw [h1, registerSynthConfig_depGet, registerSynthConfig_depGet, registerSynthConfig_depGet]
      by_cases h1 : k = ({ objType := ResourceType.config, id := t.id ++ "-" ++ ci.certificateAuthorityID ++ "-issue-ca" } : TypeAndID) <;>
        by_cases h2 : k = ({ objType := ResourceType.config, id := t.id ++ "-" ++ ci.certificateAuthorityID ++ "-issue-key" } : TypeAndID) <;>
        by_cases h3 : k = ({ objType := ResourceType.config, id := t.id ++ "-" ++ ci.certificateAuthorityID ++ "-issue-cert" } : TypeAndID) <;>
        simp [h1, h2, h3, hca12, hca13, hca23, hca21, hca31, hca32, setAdd_idem]

theorem maybeAddStaticServiceDependencies_depGet (env : Env) (a : AssignmentSet) (t : Task)
    (k : TypeAndID) :
    (maybeAddStaticServiceDependencies env a t).1.depGet k =
      if k ∈ pgKeys env t then setAdd (a.depGet k) t.id else a.depGet k := by
  unfold maybeAddStaticServiceDependencies
  by_cases h0 : t.serviceID = ""
  · have h1 : pgKeys env t = [] := by
      unfold pgKeys
      rw [if_pos h0]
    simp [h0, h1]
  · rw [if_neg h0]
    cases hs : env.getService t.serviceID with
    | none =>
      have h1 : pgKeys env t = [] := by
        unfold pgKeys
        rw [if_neg h0, hs]
      simp [h1]
    | some service =>
      simp only []
      cases hst : service.spec.getStatic with
      | none =>
        have h1 : pgKeys env t = [] := by
          unfold pgKeys
          rw [if_neg h0, hs]
          simp only []
          rw [hst]
        simp [h1]
      | some staticMode =>
        have h1 : pgKeys env t = [{ objType := ResourceType.config, id := t.id ++ "-peer-group" }] := by
          unfold pgKeys
          rw [if_neg h0, hs]
          simp only []
          rw [hst]
        simp only []
        rw [h1, registerSynthConfig_depGet]
        exact if_congr List.mem_singleton.symm rfl rfl

theorem flatMap_refKeys_eq (rs : List ResourceReference) :
    rs.flatMap refKeys = rs.filterMap (fun r =>
      match r.resourceType with
      | .secret => some { objType := .secret, id := r.resourceID }
      | .config => some { objType := .config, id := r.resourceID }
      | _ => none) := by
  induction rs with
  | nil => rfl
  | cons r rest ih =>
    rw [List.flatMap_cons, List.filterMap_cons, ih]
    cases hrt : r.resourceType <;> simp [refKeys, hrt]

theorem addResourceRefsLoop_depGet (env : Env) (t : Task) (rs : List ResourceReference)
    (a : AssignmentSet) (ws : List Write)
    (hside : ∀ kk : TypeAndID, kk.objType = ResourceType.task → a.depGet kk = [])
    (k : TypeAndID) :
    (addResourceRefsLoop env t rs a ws).1.depGet k =
      if k ∈ rs.flatMap refKeys then setAdd (a.depGet k) t.id else a.depGet k := by
  induction rs generalizing a ws with
  | nil => simp [addResourceRefsLoop]
  | cons r rest ih =>
    have hstep : addResourceRefsLoop env t (r :: rest) a ws
        = addResourceRefsLoop env t rest (addResourceRefDep env t a ws r).1
            (addResourceRefDep env t a ws r).2 := rfl
    have hside1 : ∀ kk : TypeAndID, kk.objType = ResourceType.task →
        (addResourceRefDep env t a ws r).1.depGet kk = [] := by
      intro kk hkk
      rw [addResourceRefDep_depGet env t a ws r hside kk,
        if_neg (fun hm => refKeys_not_task r kk hm hkk), hside kk hkk]
    rw [hstep, ih _ _ hside1, addResourceRefDep_depGet env t a ws r hside,
      List.flatMap_cons]
    by_cases h2 : k ∈ rest.flatMap refKeys
    · rw [if_pos h2]
      by_cases h1 : k ∈ refKeys r
      · rw [if_pos h1, if_pos (List.mem_append.2 (Or.inr h2)), setAdd_idem]
      · rw [if_neg h1, if_pos (List.mem_append.2 (Or.inr h2))]
    · rw [if_neg h2]
      by_cases h1 : k ∈ refKeys r
      · rw [if_pos h1, if_pos (List.mem_append.2 (Or.inl h1))]
      · rw [if_neg h1, if_neg (fun hm => (List.mem_append.1 hm).elim h1 h2)]

theorem addSecretRefsLoop_depGet (env : Env) (t : Task) (srs : List SecretReference)
    (a : AssignmentSet) (ws : List Write) (k : TypeAndID) :
    (addSecretRefsLoop env t srs a ws).1.depGet k =
      if k ∈ srs.map (fun sr => ({ objType := ResourceType.secret, id := sr.secretID } : TypeAndID))
      then setAdd (a.depGet k) t.id else a.depGet k := by
  induction srs generalizing a ws with
  | nil => simp [addSecretRefsLoop]
  | cons sr rest ih =>
    have hstep : addSecretRefsLoop env t (sr :: rest) a ws
        = addSecretRefsLoop env t rest (addSecretRefDep env t a ws sr).1
            (addSecretRefDep env t a ws sr).2 := rfl
    rw [hstep, ih, addSecretRefDep_depGet, List.map_cons]
    by_cases h2 : k ∈ rest.map (fun sr => ({ objType := ResourceType.secret, id := sr.secretID } : TypeAndID))
    · rw [if_pos h2]
      by_cases h1 : k = ({ objType := ResourceType.secret, id := sr.secretID } : TypeAndID)
      · rw [if_pos h1, if_pos (List.mem_cons.2 (Or.inr h2)), setAdd_idem]
      · rw [if_neg h1, if_pos (List.mem_cons.2 (Or.inr h2))]
    · rw [if_neg h2]
      by_cases h1 : k = ({ objType := ResourceType.secret, id := sr.secretID } : TypeAndID)
      · rw [if_pos h1, if_pos (List.mem_cons.2 (Or.inl h1))]
      · rw [if_neg h1, if_neg (fun hm => (List.mem_cons.1 hm).elim h1 h2)]

theorem addConfigRefsLoop_depGet (env : Env) (t : Task) (crs : List ConfigReference)
    (a : AssignmentSet) (ws : List Write) (k : TypeAndID) :
    (addConfigRefsLoop env t crs a ws).1.depGet k =
      if k ∈ crs.map (fun cr => ({ objType := ResourceType.config, id := cr.configID } : TypeAndID))
      then setAdd (a.depGet k) t.id else a.depGet k := by
  induction crs generalizing a ws with
  | nil => simp [addConfigRefsLoop]
  | cons cr rest ih =>
    have hstep : addConfigRefsLoop env t (cr :: rest) a ws
        = addConfigRefsLoop env t rest (addConfigRefDep env t a ws cr).1
            (addConfigRefDep env t a ws cr).2 := rfl
    rw [hstep, ih, addConfigRefDep_depGet, List.map_cons]
    by_cases h2 : k ∈ rest.map (fun cr => ({ objType := ResourceType.config, id := cr.configID } : TypeAndID))
    · rw [if_pos h2]
      by_cases h1 : k = ({ objType := ResourceType.config, id := cr.configID } : TypeAndID)
      · rw [if_pos h1, if_pos (List.mem_cons.2 (Or.inr h2)), setAdd_idem]
      · rw [if_neg h1, if_pos (List.mem_cons.2 (Or.inr h2))]
    · rw [if_neg h2]
      by_cases h1 : k = ({ objType := ResourceType.config, id := cr.configID } : TypeAndID)
      · rw [if_pos h1, if_pos (List.mem_cons.2 (Or.inl h1))]
      · rw [if_neg h1, if_neg (fun hm => (List.mem_cons.1 hm).elim h1 h2)]

theorem addCertIssuancesLoop_depGet (env : Env) (t : Task) (cis : List CertificateIssuance)
    (a : AssignmentSet) (ws : List Write) (k : TypeAndID) :
    (addCertIssuancesLoop env t cis a ws).1.depGet k =
      if k ∈ cis.flatMap (issueKeys env t) then setAdd (a.depGet k) t.id else a.depGet k := by
  induction cis generalizing a ws with
  | nil => simp [addCertIssuancesLoop]
  | cons ci rest ih =>
    have hstep : addCertIssuancesLoop env t (ci :: rest) a ws
        = addCertIssuancesLoop env t rest (addCertIssuanceDependencies env a t ci).1
            (ws ++ (addCertIssuanceDependencies env a t ci).2) := rfl
    rw [hstep, ih, addCertIssuanceDependencies_depGet, List.flatMap_cons]
    by_cases h2 : k ∈ rest.flatMap (issueKeys env t)
    · rw [if_pos h2]
      by_cases h1 : k ∈ issueKeys env t ci
      · rw [if_pos h1, if_pos (List.mem_append.2 (Or.inr h2)), setAdd_idem]
      · rw [if_neg h1, if_pos (List.mem_append.2 (Or.inr h2))]
    · rw [if_neg h2]
      by_cases h1 : k ∈ issueKeys env t ci
      · rw [if_pos h1, if_pos (List.mem_append.2 (Or.inl h1))]
      · rw [if_neg h1, if_neg (fun hm => (List.mem_append.1 hm).elim h1 h2)]

/-- The full reverse-index effect of `addTaskDependencies`: the task's ID is
inserted under exactly the keys of `addKeys` (the typed references, container
secrets and configs, the synthesized issuance configs, and the peer-group
config), and no other entry changes. -/
theorem addTaskDependencies_depGet (env : Env) (a : AssignmentSet) (t : Task)
    (hside : ∀ kk : TypeAndID, kk.objType = ResourceType.task → a.depGet kk = [])
    (k : TypeAndID) :
    (addTaskDependencies env a t).1.depGet k =
      if k ∈ addKeys env t then setAdd (a.depGet k) t.id else a.depGet k := by
  unfold addTaskDependencies
  simp only []
  rw [maybeAddStaticServiceDependencies_depGet]
  by_cases hemp : t.containerCertIssuances.isEmpty = true
  · have hcis : t.containerCertIssuances = [] := by
      cases hc : t.containerCertIssuances
      · rfl
      · rw [hc] at hemp
        exact absurd hemp (by simp)
    rw [if_pos hemp, addConfigRefsLoop_depGet, addSecretRefsLoop_depGet,
      addResourceRefsLoop_depGet env t t.spec.resourceReferences a [] hside]
    by_cases m1 : k ∈ t.spec.resourceReferences.flatMap refKeys <;>
      by_cases m2 : k ∈ t.containerSecrets.map
        (fun sr => ({ objType := ResourceType.secret, id := sr.secretID } : TypeAndID)) <;>
      by_cases m3 : k ∈ t.containerConfigs.map
        (fun cr => ({ objType := ResourceType.config, id := cr.configID } : TypeAndID)) <;>
      by_cases m5 : k ∈ pgKeys env t <;>
      simp [addKeys, Task.coreKeys, ← flatMap_refKeys_eq, hcis, m1, m2, m3, m5, setAdd_idem]
  · rw [if_neg hemp, addCertIssuancesLoop_depGet, addConfigRefsLoop_depGet,
      addSecretRefsLoop_depGet,
      addResourceRefsLoop_depGet env t t.spec.resourceReferences a [] hside]
    by_cases m1 : k ∈ t.spec.resourceReferences.flatMap refKeys <;>
      by_cases m2 : k ∈ t.containerSecrets.map
        (fun sr => ({ objType := ResourceType.secret, id := sr.secretID } : TypeAndID)) <;>
      by_cases m3 : k ∈ t.containerConfigs.map
        (fun cr => ({ objType := ResourceType.config, id := cr.configID } : TypeAndID)) <;>
      by_cases m4 : k ∈ t.containerCertIssuances.flatMap (issueKeys env t) <;>
      by_cases m5 : k ∈ pgKeys env t <;>
      simp [addKeys, Task.coreKeys, ← flatMap_refKeys_eq, m1, m2, m3, m4, m5, setAdd_idem]

/-- `addTaskDependencies` decomposed into its five stages. -/
theorem addTaskDependencies_eq (env : Env) (a : AssignmentSet) (t : Task) :
    addTaskDependencies env a t =
      ((atdStage5 env a t).1, (atdStage4 env a t).2 ++ (atdStage5 env a t).2) := rfl

theorem addResourceRefDep_writes_update (env : Env) (t : Task) (a : AssignmentSet)
    (ws : List Write) (r : ResourceReference) :
    ∀ w ∈ (addResourceRefDep env t a ws r).2,
      w ∈ ws ∨ w.2.action = AssignmentAction.update := by
  unfold addResourceRefDep
  simp only []
  cases hrt : r.resourceType
  case task =>
    split_ifs with hemp <;> exact fun w hw => Or.inl hw
  case secret =>
    split_ifs with hemp
    · intro w hw
      rcases List.mem_append.1 hw with h | h
      · exact Or.inl h
      · exact Or.inr ((assignSecret_writes env a _ t w h).2)
    · exact fun w hw => Or.inl hw
  case config =>
    split_ifs with hemp
    · intro w hw
      rcases List.mem_append.1 hw with h | h
      · exact Or.inl h
      · exact Or.inr ((assignConfig_writes env a _ w h).2)
    · exact fun w hw => Or.inl hw

theorem addSecretRefDep_writes_update (env : Env) (t : Task) (a : AssignmentSet)
    (ws : List Write) (sr : SecretReference) :
    ∀ w ∈ (addSecretRefDep env t a ws sr).2,
      w ∈ ws ∨ w.2.action = AssignmentAction.update := by
  unfold addSecretRefDep
  simp only []
  split_ifs with hemp
  · intro w hw
    rcases List.mem_append.1 hw with h | h
    · exact Or.inl h
    · exact Or.inr ((assignSecret_writes env a _ t w h).2)
  · exact fun w hw => Or.inl hw

theorem addConfigRefDep_writes_update (env : Env) (t : Task) (a : AssignmentSet)
    (ws : List Write) (cr : ConfigReference) :
    ∀ w ∈ (addConfigRefDep env t a ws cr).2,
      w ∈ ws ∨ w.2.action = AssignmentAction.update := by
  unfold addConfigRefDep
  simp only []
  split_ifs with hemp
  · intro w hw
    rcases List.mem_append.1 hw with h | h
    · exact Or.inl h
    · exact Or.inr ((assignConfig_writes env a _ w h).2)
  · exact fun w hw => Or.inl hw

theorem addCertIssuanceDependencies_writes_update (env : Env) (a : AssignmentSet) (t : Task)
    (ci : CertificateIssuance) :
    ∀ w ∈ (addCertIssuanceDependencies env a t ci).2,
      w.2.action = AssignmentAction.update := by
  unfold addCertIssuanceDependencies
  cases hca : env.getCA ci.certificateAuthorityID with
  | none => exact fun w hw => absurd hw (List.not_mem_nil w)
  | some ca =>
    simp only []
    cases hic : env.issue ca t.id with
    | none => exact fun w hw => absurd hw (List.not_mem_nil w)
    | some kc =>
      simp only []
      intro w hw
      rcases List.mem_append.1 hw with h12 | h3
      · rcases List.mem_append.1 h12 with h1 | h2
        · exact (registerSynthConfig_writes a _ _ t.id w h1).2
        · exact (registerSynthConfig_writes _ _ _ t.id w h2).2
      · exact (registerSynthConfig_writes _ _ _ t.id w h3).2

theorem maybeAddStaticServiceDependencies_writes_update (env : Env) (a : AssignmentSet)
    (t : Task) :
    ∀ w ∈ (maybeAddStaticServiceDependencies env a t).2,
      w.2.action = AssignmentAction.update := by
  unfold maybeAddStaticServiceDependencies
  by_cases h0 : t.serviceID = ""
  · rw [if_pos h0]
    exact fun w hw => absurd hw (List.not_mem_nil w)
  · rw [if_neg h0]
    cases hs : env.getService t.serviceID with
    | none => exact fun w hw => absurd hw (List.not_mem_nil w)
    | some service =>
      simp only []
      cases hst : service.spec.getStatic with
      | none => exact fun w hw => absurd hw (List.not_mem_nil w)
      | some staticMode =>
        simp only []
        exact fun w hw => (registerSynthConfig_writes a _ _ t.id w hw).2

theorem addResourceRefsLoop_writes_update (env : Env) (t : Task) (rs : List ResourceReference)
    (a : AssignmentSet) (ws : List Write) :
    ∀ w ∈ (addResourceRefsLoop env t rs a ws).2,
      w ∈ ws ∨ w.2.action = AssignmentAction.update := by
  induction rs generalizing a ws with
  | nil => exact fun w hw => Or.inl hw
  | cons r rest ih =>
    intro w hw
    rcases ih (addResourceRefDep env t a ws r).1 (addResourceRefDep env t a ws r).2 w hw with h | h
    · exact addResourceRefDep_writes_update env t a ws r w h
    · exact Or.inr h

theorem addSecretRefsLoop_writes_update (env : Env) (t : Task) (srs : List SecretReference)
    (a : AssignmentSet) (ws : List Write) :
    ∀ w ∈ (addSecretRefsLoop env t srs a ws).2,
      w ∈ ws ∨ w.2.action = AssignmentAction.update := by
  induction srs generalizing a ws with
  | nil => exact fun w hw => Or.inl hw
  | cons sr rest ih =>
    intro w hw
    rcases ih (addSecretRefDep env t a ws sr).1 (addSecretRefDep env t a ws sr).2 w hw with h | h
    · exact addSecretRefDep_writes_update env t a ws sr w h
    · exact Or.inr h

theorem addConfigRefsLoop_writes_update (env : Env) (t : Task) (crs : List ConfigReference)
    (a : AssignmentSet) (ws : List Write) :
    ∀ w ∈ (addConfigRefsLoop env t crs a ws).2,
      w ∈ ws ∨ w.2.action = AssignmentAction.update := by
  induction crs generalizing a ws with
  | nil => exact fun w hw => Or.inl hw
  | cons cr rest ih =>
    intro w hw
    rcases ih (addConfigRefDep env t a ws cr).1 (addConfigRefDep env t a ws cr).2 w hw with h | h
    · exact addConfigRefDep_writes_update env t a ws cr w h
    · exact Or.inr h

theorem addCertIssuancesLoop_writes_update (env : Env) (t : Task)
    (cis : List CertificateIssuance) (a : AssignmentSet) (ws : List Write) :
    ∀ w ∈ (addCertIssuancesLoop env t cis a ws).2,
      w ∈ ws ∨ w.2.action = AssignmentAction.update := by
  induction cis generalizing a ws with
  | nil => exact fun w hw => Or.inl hw
  | cons ci rest ih =>
    intro w hw
    rcases ih (addCertIssuanceDependencies env a t ci).1
        (ws ++ (addCertIssuanceDependencies env a t ci).2) w hw with h | h
    · rcases List.mem_append.1 h with h2 | h2
      · exact Or.inl h2
      · exact Or.inr (addCertIssuanceDependencies_writes_update env a t ci w h2)
    · exact Or.inr h

/-- Every change the add path queues is an Update (the add path never emits
a Remove). -/
theorem addTaskDependencies_writes_update (env : Env) (a : AssignmentSet) (t : Task) :
    ∀ w ∈ (addTaskDependencies env a t).2, w.2.action = AssignmentAction.update := by
  have h1 : ∀ w ∈ (atdStage1 env a t).2, w.2.action = AssignmentAction.update := by
    intro w hw
    rcases addResourceRefsLoop_writes_update env t t.spec.resourceReferences a [] w hw with h | h
    · exact absurd h (List.not_mem_nil w)
    · exact h
  have h2 : ∀ w ∈ (atdStage2 env a t).2, w.2.action = AssignmentAction.update := by
    intro w hw
    rcases addSecretRefsLoop_writes_update env t t.containerSecrets (atdStage1 env a t).1
        (atdStage1 env a t).2 w hw with h | h
    · exact h1 w h
    · exact h
  have h3 : ∀ w ∈ (atdStage3 env a t).2, w.2.action = AssignmentAction.update := by
    intro w hw
    rcases addConfigRefsLoop_writes_update env t t.containerConfigs (atdStage2 env a t).1
        (atdStage2 env a t).2 w hw with h | h
    · exact h2 w h
    · exact h
  have h4 : ∀ w ∈ (atdStage4 env a t).2, w.2.action = AssignmentAction.update := by
    intro w hw
    unfold atdStage4 at hw
    split_ifs at hw with hemp
    · exact h3 w hw
    · rcases addCertIssuancesLoop_writes_update env t t.containerCertIssuances
          (atdStage3 env a t).1 (atdStage3 env a t).2 w hw with h | h
      · exact h3 w h
      · exact h
  have h5 : ∀ w ∈ (atdStage5 env a t).2, w.2.action = AssignmentAction.update :=
    fun w hw => maybeAddStaticServiceDependencies_writes_update env (atdStage4 env a t).1 t w hw
  intro w hw
  rw [addTaskDependencies_eq] at hw
  rcases List.mem_append.1 hw with h | h
  · exact h4 w h
  · exact h5 w h

/-- When the config entry is already in use, `registerSynthConfig` queues
no change. -/
theorem registerSynthConfig_writes_nonempty (a : AssignmentSet) (cid : String)
    (data : ConfigData) (tid : String)
    (h : ¬(a.depGet { objType := ResourceType.config, id := cid } = [])) :
    (registerSynthConfig a cid data tid).2 = [] := by
  unfold registerSynthConfig
  simp only []
  rw [if_neg (fun hemp => h ((isEmpty_iff_nil _).1 hemp))]

/-- The reverse index only grows along `registerSynthConfig`. -/
theorem registerSynthConfig_empty_back (a : AssignmentSet) (cid : String) (data : ConfigData)
    (tid : String) (k : TypeAndID)
    (h : (registerSynthConfig a cid data tid).1.depGet k = []) : a.depGet k = [] := by
  rw [registerSynthConfig_depGet] at h
  revert h
  split_ifs with hk
  · intro h
    exact absurd h (setAdd_ne_nil _ _)
  · exact id

/-- The reverse index only grows along the typed-reference loop body. -/
theorem addResourceRefDep_empty_back (env : Env) (t : Task) (a : AssignmentSet)
    (ws : List Write) (r : ResourceReference) (k : TypeAndID) :
    (addResourceRefDep env t a ws r).1.depGet k = [] → a.depGet k = [] := by
  unfold addResourceRefDep
  simp only []
  split_ifs with hemp
  · cases hrt : r.resourceType
    · exact id
    · intro h
      rw [depInsert_depGet] at h
      revert h
      split_ifs with hk
      · intro h
        exact absurd h (setAdd_ne_nil _ _)
      · intro h
        rw [assignSecret_depGet] at h
        revert h
        split_ifs
        exact id
    · intro h
      rw [depInsert_depGet] at h
      revert h
      split_ifs with hk
      · intro h
        exact absurd h (setAdd_ne_nil _ _)
      · intro h
        rw [assignConfig_depGet] at h
        revert h
        split_ifs
        exact id
  · intro h
    rw [depInsert_depGet] at h
    revert h
    split_ifs with hk
    · intro h
      exact absurd h (setAdd_ne_nil _ _)
    · exact id

theorem addResourceRefsLoop_empty_back (env : Env) (t : Task) (rs : List ResourceReference)
    (a : AssignmentSet) (ws : List Write) (k : TypeAndID) :
    (addResourceRefsLoop env t rs a ws).1.depGet k = [] → a.depGet k = [] := by
  induction rs generalizing a ws with
  | nil => exact id
  | cons r rest ih =>
    intro h
    exact addResourceRefDep_empty_back env t a ws r k
      (ih (addResourceRefDep env t a ws r).1 (addResourceRefDep env t a ws r).2 h)

theorem addSecretRefDep_writes_at (env : Env) (t : Task) (a : AssignmentSet) (ws : List Write)
    (sr : SecretReference) (k : TypeAndID)
    (hP : a.depGet k = [] → fetchFails env t k) :
    ∀ w ∈ (addSecretRefDep env t a ws sr).2, w ∈ ws ∨ ¬(w.1 = k) := by
  unfold addSecretRefDep
  simp only []
  split_ifs with hemp
  · intro w hw
    rcases List.mem_append.1 hw with h | h
    · exact Or.inl h
    · right
      intro hwk
      have hw1 := (assignSecret_writes env a _ t w h).1
      have hmk : ({ objType := ResourceType.secret, id := sr.secretID } : TypeAndID) = k := by
        rw [← hw1, hwk]
      have hempk : a.depGet k = [] := by
        rw [← hmk]
        exact (isEmpty_iff_nil _).1 hemp
      have hobj : k.objType = ResourceType.secret := by
        rw [← hmk]
      have hfail := (hP hempk).1 hobj
      rw [← hmk] at hfail
      rw [assignSecret_fail_writes env a _ t hfail] at h
      exact absurd h (List.not_mem_nil w)
  · exact fun w hw => Or.inl hw

theorem addConfigRefDep_writes_at (env : Env) (t : Task) (a : AssignmentSet) (ws : List Write)
    (cr : ConfigReference) (k : TypeAndID)
    (hP : a.depGet k = [] → fetchFails env t k) :
    ∀ w ∈ (addConfigRefDep env t a ws cr).2, w ∈ ws ∨ ¬(w.1 = k) := by
  unfold addConfigRefDep
  simp only []
  split_ifs with hemp
  · intro w hw
    rcases List.mem_append.1 hw with h | h
    · exact Or.inl h
    · right
      intro hwk
      have hw1 := (assignConfig_writes env a _ w h).1
      have hmk : ({ objType := ResourceType.config, id := cr.configID } : TypeAndID) = k := by
        rw [← hw1, hwk]
      have hempk : a.depGet k = [] := by
        rw [← hmk]
        exact (isEmpty_iff_nil _).1 hemp
      have hobj : k.objType = ResourceType.config := by
        rw [← hmk]
      have hfail := (hP hempk).2 hobj
      rw [← hmk] at hfail
      rw [assignConfig_fail_writes env a _ hfail] at h
      exact absurd h (List.not_mem_nil w)
  · exact fun w hw => Or.inl hw

theorem addResourceRefDep_writes_at (env : Env) (t : Task) (a : AssignmentSet) (ws : List Write)
    (r : ResourceReference) (k : TypeAndID)
    (hP : a.depGet k = [] → fetchFails env t k) :
    ∀ w ∈ (addResourceRefDep env t a ws r).2, w ∈ ws ∨ ¬(w.1 = k) := by
  unfold addResourceRefDep
  simp only []
  cases hrt : r.resourceType
  case task =>
    split_ifs with hemp <;> exact fun w hw => Or.inl hw
  case secret =>
    split_ifs with hemp
    · intro w hw
      rcases List.mem_append.1 hw with h | h
      · exact Or.inl h
      · right
        intro hwk
        have hw1 := (assignSecret_writes env a _ t w h).1
        have hmk : ({ objType := ResourceType.secret, id := r.resourceID } : TypeAndID) = k := by
          rw [← hw1, hwk]
        have hempk : a.depGet k = [] := by
          rw [← hmk]
          exact (isEmpty_iff_nil _).1 hemp
        have hobj : k.objType = ResourceType.secret := by
          rw [← hmk]
        have hfail := (hP hempk).1 hobj
        rw [← hmk] at hfail
        rw [assignSecret_fail_writes env a _ t hfail] at h
        exact absurd h (List.not_mem_nil w)
    · exact fun w hw => Or.inl hw
  case config =>
    split_ifs with hemp
    · intro w hw
      rcases List.mem_append.1 hw with h | h
      · exact Or.inl h
      · right
        intro hwk
        have hw1 := (assignConfig_writes env a _ w h).1
        have hmk : ({ objType := ResourceType.config, id := r.resourceID } : TypeAndID) = k := by
          rw [← hw1, hwk]
        have hempk : a.depGet k = [] := by
          rw [← hmk]
          exact (isEmpty_iff_nil _).1 hemp
        have hobj : k.objType = ResourceType.config := by
          rw [← hmk]
        have hfail := (hP hempk).2 hobj
        rw [← hmk] at hfail
        rw [assignConfig_fail_writes env a _ hfail] at h
        exact absurd h (List.not_mem_nil w)
    · exact fun w hw => Or.inl hw

theorem addCertIssuanceDependencies_writes_at (env : Env) (a : AssignmentSet) (t : Task)
    (ci : CertificateIssuance) (k : TypeAndID)
    (hP : a.depGet k = [] → ¬(k ∈ issueKeys env t ci)) :
    ∀ w ∈ (addCertIssuanceDependencies env a t ci).2, ¬(w.1 = k) := by
  unfold addCertIssuanceDependencies
  cases hca : env.getCA ci.certificateAuthorityID with
  | none => exact fun w hw => absurd hw (List.not_mem_nil w)
  | some ca =>
    simp only []
    cases hic : env.issue ca t.id with
    | none => exact fun w hw => absurd hw (List.not_mem_nil w)
    | some kc =>
      have hkeys : issueKeys env t ci =
          [ { objType := ResourceType.config, id := t.id ++ "-" ++ ci.certificateAuthorityID ++ "-issue-ca" },
            { objType := ResourceType.config, id := t.id ++ "-" ++ ci.certificateAuthorityID ++ "-issue-key" },
            { objType := ResourceType.config, id := t.id ++ "-" ++ ci.certificateAuthorityID ++ "-issue-cert" } ] := by
        unfold issueKeys
        rw [hca]
        simp only []
        rw [hic]
      simp only []
      intro w hw hwk
      rcases List.mem_append.1 hw with h12 | h3
      · rcases List.mem_append.1 h12 with h1 | h2
        · have hkeq := (registerSynthConfig_writes a _ _ t.id w h1).1
          have hk1 : k = ({ objType := ResourceType.config, id := t.id ++ "-" ++ ci.certificateAuthorityID ++ "-issue-ca" } : TypeAndID) := by
            rw [← hwk, hkeq]
          by_cases he : a.depGet ({ objType := ResourceType.config, id := t.id ++ "-" ++ ci.certificateAuthorityID ++ "-issue-ca" } : TypeAndID) = []
          · exact hP (by rw [hk1]; exact he) (by rw [hkeys, hk1]; simp)
          · rw [registerSynthConfig_writes_nonempty a _ _ t.id he] at h1
            exact absurd h1 (List.not_mem_nil w)
        · have hkeq := (registerSynthConfig_writes _ _ _ t.id w h2).1
          have hk2 : k = ({ objType := ResourceType.config, id := t.id ++ "-" ++ ci.certificateAuthorityID ++ "-issue-key" } : TypeAndID) := by
            rw [← hwk, hkeq]
          by_cases he : (registerSynthConfig a
              (t.id ++ "-" ++ ci.certificateAuthorityID ++ "-issue-ca")
              (ConfigData.bytes ca.cert) t.id).1.depGet ({ objType := ResourceType.config, id := t.id ++ "-" ++ ci.certificateAuthorityID ++ "-issue-key" } : TypeAndID) = []
          · have hback := registerSynthConfig_empty_back a _ _ t.id _ he
            exact hP (by rw [hk2]; exact hback) (by rw [hkeys, hk2]; simp)
          · rw [registerSynthConfig_writes_nonempty _ _ _ t.id he] at h2
            exact absurd h2 (List.not_mem_nil w)
      · have hkeq := (registerSynthConfig_writes _ _ _ t.id w h3).1
        have hk3 : k = ({ objType := ResourceType.config, id := t.id ++ "-" ++ ci.certificateAuthorityID ++ "-issue-cert" } : TypeAndID) := by
          rw [← hwk, hkeq]
        by_cases he : (registerSynthConfig (registerSynthConfig a
            (t.id ++ "-" ++ ci.certificateAuthorityID ++ "-issue-ca")
            (ConfigData.bytes ca.cert) t.id).1
            (t.id ++ "-" ++ ci.certificateAuthorityID ++ "-issue-key")
            (ConfigData.bytes kc.1) t.id).1.depGet ({ objType := ResourceType.config, id := t.id ++ "-" ++ ci.certificateAuthorityID ++ "-issue-cert" } : TypeAndID) = []
        · have hback := registerSynthConfig_empty_back a _ _ t.id _
            (registerSynthConfig_empty_back _ _ _ t.id _ he)
          exact hP (by rw [hk3]; exact hback) (by rw [hkeys, hk3]; simp)
        · rw [registerSynthConfig_writes_nonempty _ _ _ t.id he] at h3
          exact absurd h3 (List.not_mem_nil w)

theorem maybeAddStaticServiceDependencies_writes_at (env : Env) (a : AssignmentSet) (t : Task)
    (k : TypeAndID) (hP : a.depGet k = [] → ¬(k ∈ pgKeys env t)) :
    ∀ w ∈ (maybeAddStaticServiceDependencies env a t).2, ¬(w.1 = k) := by
  unfold maybeAddStaticServiceDependencies
  by_cases h0 : t.serviceID = ""
  · rw [if_pos h0]
    exact fun w hw => absurd hw (List.not_mem_nil w)
  · rw [if_neg h0]
    cases hs : env.getService t.serviceID with
    | none => exact fun w hw => absurd hw (List.not_mem_nil w)
    | some service =>
      simp only []
      cases hst : service.spec.getStatic with
      | none => exact fun w hw => absurd hw (List.not_mem_nil w)
      | some staticMode =>
        have hkeys : pgKeys env t =
            [{ objType := ResourceType.config, id := t.id ++ "-peer-group" }] := by
          unfold pgKeys
          rw [if_neg h0, hs]
          simp only []
          rw [hst]
        simp only []
        intro w hw hwk
        have hkeq := (registerSynthConfig_writes a _ _ t.id w hw).1
        have hk1 : k = ({ objType := ResourceType.config, id := t.id ++ "-peer-group" } : TypeAndID) := by
          rw [← hwk, hkeq]
        by_cases he : a.depGet ({ objType := ResourceType.config, id := t.id ++ "-peer-group" } : TypeAndID) = []
        · exact hP (by rw [hk1]; exact he) (by rw [hkeys, hk1]; simp)
        · rw [registerSynthConfig_writes_nonempty a _ _ t.id he] at hw
          exact absurd hw (List.not_mem_nil w)

theorem addSecretRefsLoop_writes_at (env : Env) (t : Task) (srs : List SecretReference)
    (a : AssignmentSet) (ws : List Write) (k : TypeAndID)
    (hP : a.depGet k = [] → fetchFails env t k) :
    ∀ w ∈ (addSecretRefsLoop env t srs a ws).2, w ∈ ws ∨ ¬(w.1 = k) := by
  induction srs generalizing a ws with
  | nil => exact fun w hw => Or.inl hw
  | cons sr rest ih =>
    have hback : (addSecretRefDep env t a ws sr).1.depGet k = [] → a.depGet k = [] := by
      rw [addSecretRefDep_depGet]
      split_ifs with hk
      · intro h
        exact absurd h (setAdd_ne_nil _ _)
      · exact id
    intro w hw
    rcases ih (addSecretRefDep env t a ws sr).1 (addSecretRefDep env t a ws sr).2
        (fun he => hP (hback he)) w hw with h | h
    · exact addSecretRefDep_writes_at env t a ws sr k hP w h
    · exact Or.inr h

theorem addConfigRefsLoop_writes_at (env : Env) (t : Task) (crs : List ConfigReference)
    (a : AssignmentSet) (ws : List Write) (k : TypeAndID)
    (hP : a.depGet k = [] → fetchFails env t k) :
    ∀ w ∈ (addConfigRefsLoop env t crs a ws).2, w ∈ ws ∨ ¬(w.1 = k) := by
  induction crs generalizing a ws with
  | nil => exact fun w hw => Or.inl hw
  | cons cr rest ih =>
    have hback : (addConfigRefDep env t a ws cr).1.depGet k = [] → a.depGet k = [] := by
      rw [addConfigRefDep_depGet]
      split_ifs with hk
      · intro h
        exact absurd h (setAdd_ne_nil _ _)
      · exact id
    intro w hw
    rcases ih (addConfigRefDep env t a ws cr).1 (addConfigRefDep env t a ws cr).2
        (fun he => hP (hback he)) w hw with h | h
    · exact addConfigRefDep_writes_at env t a ws cr k hP w h
    · exact Or.inr h

theorem addResourceRefsLoop_writes_at (env : Env) (t : Task) (rs : List ResourceReference)
    (a : AssignmentSet) (ws : List Write) (k : TypeAndID)
    (hP : a.depGet k = [] → fetchFails env t k) :
    ∀ w ∈ (addResourceRefsLoop env t rs a ws).2, w ∈ ws ∨ ¬(w.1 = k) := by
  induction rs generalizing a ws with
  | nil => exact fun w hw => Or.inl hw
  | cons r rest ih =>
    intro w hw
    rcases ih (addResourceRefDep env t a ws r).1 (addResourceRefDep env t a ws r).2
        (fun he => hP (addResourceRefDep_empty_back env t a ws r k he)) w hw with h | h
    · exact addResourceRefDep_writes_at env t a ws r k hP w h
    · exact Or.inr h

theorem addCertIssuancesLoop_writes_at (env : Env) (t : Task)
    (cis : List CertificateIssuance) (a : AssignmentSet) (ws : List Write) (k : TypeAndID)
    (hP : a.depGet k = [] → ¬(k ∈ cis.flatMap (issueKeys env t))) :
    ∀ w ∈ (addCertIssuancesLoop env t cis a ws).2, w ∈ ws ∨ ¬(w.1 = k) := by
  induction cis generalizing a ws with
  | nil => exact fun w hw => Or.inl hw
  | cons ci rest ih =>
    have hback : (addCertIssuanceDependencies env a t ci).1.depGet k = [] →
        a.depGet k = [] := by
      rw [addCertIssuanceDependencies_depGet]
      split_ifs with hk
      · intro h
        exact absurd h (setAdd_ne_nil _ _)
      · exact id
    have hPrest : (addCertIssuanceDependencies env a t ci).1.depGet k = [] →
        ¬(k ∈ rest.flatMap (issueKeys env t)) := fun he hm =>
      hP (hback he) (by rw [List.flatMap_cons]; exact List.mem_append.2 (Or.inr hm))
    intro w hw
    rcases ih (addCertIssuanceDependencies env a t ci).1
        (ws ++ (addCertIssuanceDependencies env a t ci).2)
        hPrest w hw with h | h
    · rcases List.mem_append.1 h with h2 | h2
      · exact Or.inl h2
      · exact Or.inr (addCertIssuanceDependencies_writes_at env a t ci k
          (fun he hm => hP he (by rw [List.flatMap_cons]; exact List.mem_append.2 (Or.inl hm)))
          w h2)
    · exact Or.inr h

/-- If the entry for `k` could only be empty when its materialization fails
(and `k` is not one of the synthesized keys while empty), the whole add path
emits no change at `k`. -/
theorem addTaskDependencies_writes_at (env : Env) (a : AssignmentSet) (t : Task)
    (k : TypeAndID)
    (hP : a.depGet k = [] → fetchFails env t k)
    (h4 : a.depGet k = [] → ¬(k ∈ t.containerCertIssuances.flatMap (issueKeys env t)))
    (h5 : a.depGet k = [] → ¬(k ∈ pgKeys env t)) :
    ∀ w ∈ (addTaskDependencies env a t).2, ¬(w.1 = k) := by
  have hb1 : (atdStage1 env a t).1.depGet k = [] → a.depGet k = [] := by
    unfold atdStage1
    exact addResourceRefsLoop_empty_back env t t.spec.resourceReferences a [] k
  have hb2 : (atdStage2 env a t).1.depGet k = [] → (atdStage1 env a t).1.depGet k = [] := by
    unfold atdStage2
    rw [addSecretRefsLoop_depGet]
    split_ifs with h
    · intro hh
      exact absurd hh (setAdd_ne_nil _ _)
    · exact id
  have hb3 : (atdStage3 env a t).1.depGet k = [] → (atdStage2 env a t).1.depGet k = [] := by
    unfold atdStage3
    rw [addConfigRefsLoop_depGet]
    split_ifs with h
    · intro hh
      exact absurd hh (setAdd_ne_nil _ _)
    · exact id
  have hb4 : (atdStage4 env a t).1.depGet k = [] → (atdStage3 env a t).1.depGet k = [] := by
    unfold atdStage4
    split_ifs with hemp
    · exact id
    · rw [addCertIssuancesLoop_depGet]
      split_ifs with h
      · intro hh
        exact absurd hh (setAdd_ne_nil _ _)
      · exact id
  have hw1 : ∀ w ∈ (atdStage1 env a t).2, ¬(w.1 = k) := by
    intro w hw
    rcases addResourceRefsLoop_writes_at env t t.spec.resourceReferences a [] k hP
        w hw with h | h
    · exact absurd h (List.not_mem_nil w)
    · exact h
  have hw2 : ∀ w ∈ (atdStage2 env a t).2, ¬(w.1 = k) := by
    intro w hw
    rcases addSecretRefsLoop_writes_at env t t.containerSecrets (atdStage1 env a t).1
        (atdStage1 env a t).2 k (fun he => hP (hb1 he)) w hw with h | h
    · exact hw1 w h
    · exact h
  have hw3 : ∀ w ∈ (atdStage3 env a t).2, ¬(w.1 = k) := by
    intro w hw
    rcases addConfigRefsLoop_writes_at env t t.containerConfigs (atdStage2 env a t).1
        (atdStage2 env a t).2 k (fun he => hP (hb1 (hb2 he))) w hw with h | h
    · exact hw2 w h
    · exact h
  have hw4 : ∀ w ∈ (atdStage4 env a t).2, ¬(w.1 = k) := by
    intro w hw
    unfold atdStage4 at hw
    split_ifs at hw with hemp
    · exact hw3 w hw
    · rcases addCertIssuancesLoop_writes_at env t t.containerCertIssuances
          (atdStage3 env a t).1 (atdStage3 env a t).2 k
          (fun he => h4 (hb1 (hb2 (hb3 he)))) w hw with h | h
      · exact hw3 w h
      · exact h
  have hw5 : ∀ w ∈ (atdStage5 env a t).2, ¬(w.1 = k) := by
    intro w hw
    exact maybeAddStaticServiceDependencies_writes_at env (atdStage4 env a t).1 t k
      (fun he => h5 (hb1 (hb2 (hb3 (hb4 he))))) w hw
  intro w hw
  rw [addTaskDependencies_eq] at hw
  rcases List.mem_append.1 hw with h | h
  · exact hw4 w h
  · exact hw5 w h

/-! ## Characterizations of `addOrUpdateTask` and `removeTask` -/

/-- `addOrUpdateTask` on a task below ASSIGNED. -/
theorem addOrUpdateTask_below (env : Env) (a : AssignmentSet) (t : Task)
    (h : t.status.state.code < TaskState.assigned.code) :
    addOrUpdateTask env a t = (a, [], false) := by
  unfold addOrUpdateTask
  rw [if_pos h]

/-- `addOrUpdateTask` on a known task. -/
theorem addOrUpdateTask_known (env : Env) (a : AssignmentSet) (t : Task) (oldTask : Task)
    (hstate : ¬(t.status.state.code < TaskState.assigned.code))
    (halg : alGet a.tasksMap t.id = some oldTask) :
    addOrUpdateTask env a t =
      if env.tasksEqualStable oldTask t = true ∧ TaskState.assigned.code < t.status.state.code then
        (if TaskState.running.code < t.status.state.code then
          releaseTaskDependencies { a with tasksMap := alPut a.tasksMap t.id t } t
        else ({ a with tasksMap := alPut a.tasksMap t.id t }, [], false))
      else
        ({ a with tasksMap := alPut a.tasksMap t.id t,
                  changes := alPut a.changes { objType := ResourceType.task, id := t.id }
                    { assignment := .task t, action := .update } },
         [({ objType := ResourceType.task, id := t.id },
           { assignment := .task t, action := .update })], true) := by
  unfold addOrUpdateTask
  rw [if_neg hstate, halg]

/-- `addOrUpdateTask` on an unknown task. -/
theorem addOrUpdateTask_fresh (env : Env) (a : AssignmentSet) (t : Task)
    (hstate : ¬(t.status.state.code < TaskState.assigned.code))
    (halg : alGet a.tasksMap t.id = none) :
    addOrUpdateTask env a t =
      if t.status.state.code ≤ TaskState.running.code then
        ({ (addTaskDependencies env a t).1 with
             tasksMap := alPut (addTaskDependencies env a t).1.tasksMap t.id t,
             changes := alPut (addTaskDependencies env a t).1.changes
               { objType := ResourceType.task, id := t.id }
               { assignment := .task t, action := .update } },
         (addTaskDependencies env a t).2 ++
           [({ objType := ResourceType.task, id := t.id },
             { assignment := .task t, action := .update })], true)
      else
        ({ a with tasksMap := alPut a.tasksMap t.id t,
                  changes := alPut a.changes { objType := ResourceType.task, id := t.id }
                    { assignment := .task t, action := .update } },
         [({ objType := ResourceType.task, id := t.id },
           { assignment := .task t, action := .update })], true) := by
  unfold addOrUpdateTask
  rw [if_neg hstate, halg]
  by_cases hc : t.status.state.code ≤ TaskState.running.code
  · rw [if_pos hc]
    simp only [if_pos hc]
  · rw [if_neg hc]
    simp only [if_neg hc, List.nil_append]

/-- `removeTask` on a known task. -/
theorem removeTask_known (a : AssignmentSet) (t : Task) (oldTask : Task)
    (halg : alGet a.tasksMap t.id = some oldTask) :
    removeTask a t =
      (let key : TypeAndID := { objType := ResourceType.task, id := t.id };
       let ch : AssignmentChange := { assignment := .task (Task.justID t.id), action := .remove };
       let a1 : AssignmentSet :=
         { a with changes := alPut a.changes key ch, tasksMap := alDel a.tasksMap t.id };
       ((releaseTaskDependencies a1 t).1, (key, ch) :: (releaseTaskDependencies a1 t).2.1, true)) := by
  unfold removeTask
  rw [halg]

/-- `removeTask` on an unknown task. -/
theorem removeTask_unknown (a : AssignmentSet) (t : Task)
    (halg : alGet a.tasksMap t.id = none) :
    removeTask a t = (a, [], false) := by
  unfold removeTask
  rw [halg]

/-! ## C4: the branch behavior of `addOrUpdateTask` -/

/-- C4: `addOrUpdateTask` admits only tasks at ASSIGNED or above (otherwise
it returns false and changes nothing); for a stored task whose new value is
`TasksEqualStable`-equal to the old with state strictly above ASSIGNED it
replaces the stored task without emitting a TASK change, releases the
dependencies only when the state is strictly above RUNNING, and returns
whether any dependency Remove was emitted; for an unknown task it adds
dependencies exactly when the state is at most RUNNING; in every other
admitted case it stores the task and emits a TASK Update change. -/
theorem addOrUpdateTask_behavior (env : Env) (a : AssignmentSet) (t : Task) :
    (t.status.state.code < TaskState.assigned.code →
      addOrUpdateTask env a t = (a, [], false)) ∧
    (∀ oldTask, alGet a.tasksMap t.id = some oldTask →
      env.tasksEqualStable oldTask t = true →
      TaskState.assigned.code < t.status.state.code →
      ((addOrUpdateTask env a t).1.tasksMap = alPut a.tasksMap t.id t ∧
       (∀ w ∈ (addOrUpdateTask env a t).2.1, ¬(w.1.objType = ResourceType.task)) ∧
       (t.status.state.code ≤ TaskState.running.code →
         addOrUpdateTask env a t = ({ a with tasksMap := alPut a.tasksMap t.id t }, [], false)) ∧
       (TaskState.running.code < t.status.state.code →
         addOrUpdateTask env a t =
           releaseTaskDependencies { a with tasksMap := alPut a.tasksMap t.id t } t) ∧
       ((addOrUpdateTask env a t).2.2 =
         (addOrUpdateTask env a t).2.1.any
           (fun w => decide (w.2.action = AssignmentAction.remove))))) ∧
    (alGet a.tasksMap t.id = none → ¬(t.status.state.code < TaskState.assigned.code) →
      ((TaskState.running.code < t.status.state.code →
         (addOrUpdateTask env a t).1.tasksUsingDependency = a.tasksUsingDependency) ∧
       (t.status.state.code ≤ TaskState.running.code →
         (addOrUpdateTask env a t).1.tasksUsingDependency =
           (addTaskDependencies env a t).1.tasksUsingDependency))) ∧
    (¬(t.status.state.code < TaskState.assigned.code) →
      (∀ oldTask, alGet a.tasksMap t.id = some oldTask →
        ¬(env.tasksEqualStable oldTask t = true ∧
          TaskState.assigned.code < t.status.state.code)) →
      ((addOrUpdateTask env a t).1.tasksMap = alPut a.tasksMap t.id t ∧
       (addOrUpdateTask env a t).2.1.getLast? =
         some ({ objType := ResourceType.task, id := t.id },
               { assignment := .task t, action := .update }) ∧
       (addOrUpdateTask env a t).2.2 = true)) := by
  refine ⟨?_, ?_, ?_, ?_⟩
  · exact addOrUpdateTask_below env a t
  · intro oldTask halg heq hgt
    have hstate : ¬(t.status.state.code < TaskState.assigned.code) := by omega
    have hchar := addOrUpdateTask_known env a t oldTask hstate halg
    rw [if_pos ⟨heq, hgt⟩] at hchar
    by_cases hrun : TaskState.running.code < t.status.state.code
    · rw [if_pos hrun] at hchar
      have hrel := releaseTaskDependencies_spec { a with tasksMap := alPut a.tasksMap t.id t } t
      refine ⟨?_, ?_, ?_, ?_, ?_⟩
      · rw [hchar]
        exact hrel.2.1
      · intro w hw
        rw [hchar] at hw
        exact depKeys_not_task t w.1 (hrel.2.2 w hw).2
      · intro hle
        exact absurd hrun (by omega)
      · intro _
        exact hchar
      · rw [hchar]
        exact hrel.1
    · rw [if_neg hrun] at hchar
      refine ⟨?_, ?_, ?_, ?_, ?_⟩
      · rw [hchar]
      · intro w hw
        rw [hchar] at hw
        exact absurd hw (List.not_mem_nil w)
      · intro _
        exact hchar
      · intro hgt2
        exact absurd hgt2 hrun
      · rw [hchar]
        rfl
  · intro halg hstate
    have hchar := addOrUpdateTask_fresh env a t hstate halg
    constructor
    · intro hrun
      have hle : ¬(t.status.state.code ≤ TaskState.running.code) := by omega
      rw [if_neg hle] at hchar
      rw [hchar]
    · intro hle
      rw [if_pos hle] at hchar
      rw [hchar]
  · intro hstate hother
    cases halg : alGet a.tasksMap t.id with
    | none =>
      have hchar := addOrUpdateTask_fresh env a t hstate halg
      by_cases hle : t.status.state.code ≤ TaskState.running.code
      · rw [if_pos hle] at hchar
        refine ⟨?_, ?_, ?_⟩
        · rw [hchar]
          show alPut (addTaskDependencies env a t).1.tasksMap t.id t = _
          rw [addTaskDependencies_tasksMap]
        · rw [hchar]
          exact List.getLast?_concat _
        · rw [hchar]
      · rw [if_neg hle] at hchar
        exact ⟨by rw [hchar], by rw [hchar]; rfl, by rw [hchar]⟩
    | some oldTask =>
      have hchar := addOrUpdateTask_known env a t oldTask hstate halg
      rw [if_neg (hother oldTask halg)] at hchar
      exact ⟨by rw [hchar], by rw [hchar]; rfl, by rw [hchar]⟩

/-- C4 witness: a task below ASSIGNED is rejected without change at a
concrete input. -/
theorem addOrUpdateTask_behavior_witness :
    addOrUpdateTask envEmpty newAssignmentSet (Task.justID "T")
      = (newAssignmentSet, [], false) :=
  (addOrUpdateTask_behavior envEmpty newAssignmentSet (Task.justID "T")).1 (by decide)

/-! ## C3: the peer-group synthesis -/

theorem mapUpsert_eq_alPut (m : List (String × String)) (k v : String) :
    mapUpsert m k v = alPut m k v := by
  induction m with
  | nil => rfl
  | cons e rest ih =>
    unfold mapUpsert alPut
    split_ifs with h <;> simp [ih]

/-- The peer-address loop never touches a name no included peer carries. -/
theorem peerAddrsLoop_preserve (env : Env) (service : Service) (ps : List Service)
    (m : List (String × String)) (k : String)
    (hk : ∀ q ∈ ps, ¬(q.id = service.id) → ¬(q.spec.annotations.name = k)) :
    alGet (peerAddrsLoop env service ps m) k = alGet m k := by
  induction ps generalizing m with
  | nil => rfl
  | cons q rest ih =>
    unfold peerAddrsLoop
    split_ifs with hq hatt
    · exact ih m (fun x hx => hk x (List.mem_cons_of_mem q hx))
    · rw [ih _ (fun x hx => hk x (List.mem_cons_of_mem q hx)), mapUpsert_eq_alPut,
          alGet_alPut]
      rw [if_neg (fun hkq : k = q.spec.annotations.name =>
        hk q (List.mem_cons_self q rest) hq hkq.symm)]
    · exact ih m (fun x hx => hk x (List.mem_cons_of_mem q hx))

/-- Every peer other than the service itself ends up in the address map with
its own de-CIDR'd first static address, provided the service itself has a
network attachment (the source's guard reads the self attachment) and the
included peers carry pairwise distinct names. -/
theorem peerAddrsLoop_lookup (env : Env) (service : Service) (ps : List Service)
    (m : List (String × String))
    (hatt : (service.staticInfo.bind (fun si => si.networkAttachment)).isSome)
    (hdistinct : (ps.filter (fun q => decide (¬(q.id = service.id)))).Pairwise
      (fun x y => ¬(x.spec.annotations.name = y.spec.annotations.name))) :
    ∀ p ∈ ps, ¬(p.id = service.id) →
      alGet (peerAddrsLoop env service ps m) p.spec.annotations.name
        = some (deCIDR env p.staticAddr0) := by
  induction ps generalizing m with
  | nil => intro p hp; exact absurd hp (List.not_mem_nil p)
  | cons q rest ih =>
    intro p hp hpne
    unfold peerAddrsLoop
    by_cases hq : q.id = service.id
    · rw [if_pos hq]
      have hdis2 : (rest.filter (fun x => decide (¬(x.id = service.id)))).Pairwise
          (fun x y => ¬(x.spec.annotations.name = y.spec.annotations.name)) := by
        rw [List.filter_cons_of_neg (by simp [hq])] at hdistinct
        exact hdistinct
      rcases List.mem_cons.1 hp with rfl | hp2
      · exact absurd hq hpne
      · exact ih m hdis2 p hp2 hpne
    · rw [if_neg hq, if_pos hatt]
      have hfil : (q :: rest).filter (fun x => decide (¬(x.id = service.id)))
          = q :: rest.filter (fun x => decide (¬(x.id = service.id))) :=
        List.filter_cons_of_pos (by simp [hq])
      rw [hfil, List.pairwise_cons] at hdistinct
      rcases List.mem_cons.1 hp with rfl | hp2
      · rw [peerAddrsLoop_preserve env service rest _ p.spec.annotations.name
            (fun x hx hxne hxname =>
              hdistinct.1 x (List.mem_filter.2 ⟨hx, by simp [hxne]⟩) hxname.symm)]
        rw [mapUpsert_eq_alPut, alGet_alPut, if_pos rfl]
      · exact ih _ hdistinct.2 p hp2 hpne

/-- A fresh synthesized-config registration queues exactly its Update change. -/
theorem registerSynthConfig_fresh (a : AssignmentSet) (cid : String) (data : ConfigData)
    (tid : String) (h : a.depGet { objType := ResourceType.config, id := cid } = []) :
    (registerSynthConfig a cid data tid).2 =
      [({ objType := ResourceType.config, id := cid },
        { assignment := .config { id := cid, spec := { data := data } },
          action := .update })] := by
  unfold registerSynthConfig
  simp only []
  rw [if_pos (by rw [h]; rfl)]

/-- C3: for a task of a static service (found in the store, with a network
attachment carrying at least one address), the peer-group synthesis queues
exactly one CONFIG Update change with ID `"<taskID>-peer-group"` whose
payload is the JSON object {selfName, selfAddr, peers} where peers maps the
name of every other service in the same PeerGroup to that peer's own first
static address with the CIDR suffix stripped. -/
theorem peer_group_synthesis (env : Env) (a : AssignmentSet) (t : Task)
    (service : Service) (g net : String)
    (h0 : ¬(t.serviceID = ""))
    (h1 : env.getService t.serviceID = some service)
    (h2 : service.spec.mode = ServiceMode.mstatic g net)
    (hatt : (service.staticInfo.bind (fun si => si.networkAttachment)).isSome)
    (h5 : a.depGet { objType := ResourceType.config, id := t.id ++ "-peer-group" } = [])
    (h6 : ((env.findServicesByPeerGroup g).filter
        (fun q => decide (¬(q.id = service.id)))).Pairwise
      (fun x y => ¬(x.spec.annotations.name = y.spec.annotations.name))) :
    ∃ cfg : PeerGroupConfig,
      (maybeAddStaticServiceDependencies env a t).2 =
        [({ objType := ResourceType.config, id := t.id ++ "-peer-group" },
          { assignment := .config ({ id := t.id ++ "-peer-group", spec := { data := .peerGroupJSON cfg } }),
            action := .update })] ∧
      cfg.selfName = service.spec.annotations.name ∧
      cfg.selfAddr = deCIDR env service.staticAddr0 ∧
      (∀ p ∈ env.findServicesByPeerGroup g, ¬(p.id = service.id) →
        alGet cfg.peers p.spec.annotations.name = some (deCIDR env p.staticAddr0)) := by
  have hgs : service.spec.getStatic = some (g, net) := by
    unfold ServiceSpec.getStatic
    rw [h2]
  refine ⟨builtPeerGroupConfig env service g, ?_, rfl, rfl, ?_⟩
  · have hred : maybeAddStaticServiceDependencies env a t
        = registerSynthConfig a (t.id ++ "-peer-group")
            (.peerGroupJSON (builtPeerGroupConfig env service g)) t.id := by
      unfold maybeAddStaticServiceDependencies
      rw [if_neg h0, h1]
      show (match service.spec.getStatic with
            | none => (a, [])
            | some staticMode =>
              registerSynthConfig a (t.id ++ "-peer-group")
                (.peerGroupJSON (builtPeerGroupConfig env service staticMode.1)) t.id) = _
      rw [hgs]
    rw [hred]
    exact registerSynthConfig_fresh a (t.id ++ "-peer-group") _ t.id h5
  · exact peerAddrsLoop_lookup env service (env.findServicesByPeerGroup g) [] hatt h6

/-- C3 witness: the synthesis at a concrete static service with two peers. -/
theorem peer_group_synthesis_witness :
    ∃ cfg : PeerGroupConfig,
      (maybeAddStaticServiceDependencies env3 newAssignmentSet t3).2 =
        [({ objType := ResourceType.config, id := "T3" ++ "-peer-group" },
          { assignment := .config ({ id := "T3" ++ "-peer-group", spec := { data := .peerGroupJSON cfg } }),
            action := .update })] ∧
      cfg.selfName = svc3.spec.annotations.name ∧
      cfg.selfAddr = deCIDR env3 svc3.staticAddr0 ∧
      (∀ p ∈ env3.findServicesByPeerGroup "g1", ¬(p.id = svc3.id) →
        alGet cfg.peers p.spec.annotations.name = some (deCIDR env3 p.staticAddr0)) :=
  peer_group_synthesis env3 newAssignmentSet t3 svc3 "g1" "" (by decide) (by decide) rfl
    (by decide) rfl (by decide)

/-! ## C8: `TasksByTimestamp.Less` and the applied-timestamp overwrite -/

/-- C8 (code bug): at the failing input — `t[i]` with no `AppliedAt` and
`Timestamp` 5s, `t[j]` with `AppliedAt` 10s and `Timestamp` 1s — the code
returns `false` although each side's own effective timestamp (`AppliedAt` if
set, else `Timestamp`) orders `i` strictly before `j`: `t[j]`'s `AppliedAt`
overwrites `iTimestamp` instead of `jTimestamp`. -/
theorem tasksByTimestampLess_overwrites_wrong_side :
    tasksByTimestampLess t8i t8j = false ∧
    timestampLess (effectiveTimestamp t8i) (effectiveTimestamp t8j) = true := by
  decide

/-! ## C9: fields of `NewTask` -/

/-- C9: for every cluster, service, slot and node ID (and every generated
task ID and clock reading), the task `NewTask` returns carries the service's
ID, the given slot, the given node ID, `DesiredState` Running and
`Status.State` New. -/
theorem newTask_fields (taskID : String) (now : Timestamp) (cluster : Option Cluster)
    (service : Service) (slot : Nat) (nodeID : String) :
    (NewTask taskID now cluster service slot nodeID).serviceID = service.id ∧
    (NewTask taskID now cluster service slot nodeID).slot = slot ∧
    (NewTask taskID now cluster service slot nodeID).nodeID = nodeID ∧
    (NewTask taskID now cluster service slot nodeID).desiredState = TaskState.running ∧
    (NewTask taskID now cluster service slot nodeID).status.state = TaskState.new := by
  unfold NewTask
  by_cases h : nodeID = "" <;> by_cases h2 : service.staticInfo.isSome <;>
    simp [h, h2]

/-! ## C10: dependency-materialization failures are silent but sticky -/

/-- C10: when materializing a secret or config dependency fails during
`addTaskDependencies` (the object is missing from the store, or the secret
driver fails), the dependency key is still registered in
`tasksUsingDependency` under the referencing task's ID and no change at all
is emitted for that key; and as long as a (non-task) key's reverse-index
entry is non-empty, no `addOrUpdateTask` call emits an Update change for it,
so its materialization is never re-attempted. -/
theorem failed_materialization_is_silent (env : Env) (a : AssignmentSet) (t : Task)
    (k : TypeAndID)
    (hside : ∀ kk : TypeAndID, kk.objType = ResourceType.task → a.depGet kk = [])
    (hcore : k ∈ t.coreKeys)
    (hempty : a.depGet k = [])
    (hfail : fetchFails env t k)
    (hs1 : ¬(k ∈ t.containerCertIssuances.flatMap (issueKeys env t)))
    (hs2 : ¬(k ∈ pgKeys env t)) :
    (t.id ∈ (addTaskDependencies env a t).1.depGet k ∧
      ∀ w ∈ (addTaskDependencies env a t).2, ¬(w.1 = k)) ∧
    (∀ env2 a2 t2, ¬(k.objType = ResourceType.task) → ¬(a2.depGet k = []) →
      ∀ w ∈ (addOrUpdateTask env2 a2 t2).2.1,
        ¬(w.1 = k ∧ w.2.action = AssignmentAction.update)) := by
  constructor
  · constructor
    · rw [addTaskDependencies_depGet env a t hside k]
      have hmem : k ∈ addKeys env t := by
        unfold addKeys
        exact List.mem_append.2 (Or.inl (List.mem_append.2 (Or.inl hcore)))
      rw [if_pos hmem]
      exact (mem_setAdd _ _ _).2 (Or.inr rfl)
    · exact addTaskDependencies_writes_at env a t k (fun _ => hfail) (fun _ => hs1)
        (fun _ => hs2)
  · intro env2 a2 t2 hk hne w hw hwua
    by_cases hstate : t2.status.state.code < TaskState.assigned.code
    · rw [addOrUpdateTask_below env2 a2 t2 hstate] at hw
      exact absurd hw (List.not_mem_nil w)
    · cases halg : alGet a2.tasksMap t2.id with
      | none =>
        rw [addOrUpdateTask_fresh env2 a2 t2 hstate halg] at hw
        split_ifs at hw with hrun
        · rcases List.mem_append.1 hw with h | h
          · exact addTaskDependencies_writes_at env2 a2 t2 k
              (fun he => absurd he hne) (fun he => absurd he hne) (fun he => absurd he hne)
              w h hwua.1
          · have hww : w = ({ objType := ResourceType.task, id := t2.id },
                ({ assignment := .task t2, action := .update } : AssignmentChange)) :=
              List.mem_singleton.1 h
            subst hww
            apply hk
            rw [← hwua.1]
        · have hww : w = ({ objType := ResourceType.task, id := t2.id },
              ({ assignment := .task t2, action := .update } : AssignmentChange)) :=
            List.mem_singleton.1 hw
          subst hww
          apply hk
          rw [← hwua.1]
      | some oldT =>
        rw [addOrUpdateTask_known env2 a2 t2 oldT hstate halg] at hw
        split_ifs at hw with hstable hrun
        · have hrem := ((releaseTaskDependencies_spec _ t2).2.2) w hw
          exact AssignmentAction.noConfusion (hwua.2.symm.trans hrem.1)
        · exact absurd hw (List.not_mem_nil w)
        · have hww : w = ({ objType := ResourceType.task, id := t2.id },
              ({ assignment := .task t2, action := .update } : AssignmentChange)) :=
            List.mem_singleton.1 hw
          subst hww
          apply hk
          rw [← hwua.1]

/-- Witness for C10 at secret "X": the failing environment registers "T1"
under the key while emitting nothing for it; and a later call for "T2"
against a non-empty entry emits no Update for it either. -/
theorem failed_materialization_is_silent_witness :
    "T1" ∈ (addTaskDependencies envEmpty newAssignmentSet (taskRefX "T1")).1.depGet kX ∧
    (∀ w ∈ (addOrUpdateTask envEmpty aC10 (taskRefX "T2")).2.1,
      ¬(w.1 = kX ∧ w.2.action = AssignmentAction.update)) :=
  ⟨ ((failed_materialization_is_silent envEmpty newAssignmentSet (taskRefX "T1") kX
      (fun _ _ => rfl) (by decide) rfl ⟨fun _ => rfl, fun _ => rfl⟩ (by decide)
      (by decide)).1).1,
    (failed_materialization_is_silent envEmpty newAssignmentSet (taskRefX "T1") kX
      (fun _ _ => rfl) (by decide) rfl ⟨fun _ => rfl, fun _ => rfl⟩ (by decide)
      (by decide)).2 envEmpty aC10 (taskRefX "T2") (by decide) (by decide) ⟩

/-! ## C1: reference counting of `tasksUsingDependency` -/

theorem keysSetEq_spec (A B : List TypeAndID) (h : keysSetEq A B = true) :
    ∀ k, k ∈ A ↔ k ∈ B := by
  unfold keysSetEq at h
  rw [Bool.and_eq_true] at h
  obtain ⟨h1, h2⟩ := h
  intro k
  constructor
  · intro hk
    exact of_decide_eq_true (List.all_eq_true.1 h1 k hk)
  · intro hk
    exact of_decide_eq_true (List.all_eq_true.1 h2 k hk)

/-- `removeTask` on a known task, in terms of the named intermediates. -/
theorem removeTask_known2 (a : AssignmentSet) (t : Task) (oldTask : Task)
    (halg : alGet a.tasksMap t.id = some oldTask) :
    removeTask a t = ((releaseTaskDependencies (rmBase a t) t).1,
      rmTaskWrite t :: (releaseTaskDependencies (rmBase a t) t).2.1, true) :=
  removeTask_known a t oldTask halg

/-- The reference-counting invariant survives replacing a stored task by a
new value with the same dependency-key set, with the reverse index intact. -/
theorem RefInv_of_components (K : String → List TypeAndID) (a' a : AssignmentSet)
    (t oldT : Task)
    (hdep : ∀ k, a'.depGet k = a.depGet k)
    (hmap : a'.tasksMap = alPut a.tasksMap t.id t)
    (hinv : RefInv K a) (halg : alGet a.tasksMap t.id = some oldT)
    (hkeys : t.depKeys = K t.id) (hnd : (K t.id).Nodup) :
    RefInv K a' := by
  obtain ⟨hidf, holdkeys, _⟩ := hinv.2 t.id oldT halg
  constructor
  · intro k id
    rw [hdep k, hmap, hinv.1 k id]
    constructor
    · rintro ⟨t', ht', hm⟩
      by_cases hidt : id = t.id
      · subst hidt
        rw [halg] at ht'
        have hteq := Option.some.inj ht'
        subst hteq
        refine ⟨t, ?_, ?_⟩
        · rw [alGet_alPut, if_pos rfl]
        · rw [hkeys, ← holdkeys]
          exact hm
      · exact ⟨t', by rw [alGet_alPut, if_neg hidt]; exact ht', hm⟩
    · rintro ⟨t', ht', hm⟩
      rw [alGet_alPut] at ht'
      by_cases hidt : id = t.id
      · rw [if_pos hidt] at ht'
        have hteq := Option.some.inj ht'
        subst hteq
        subst hidt
        exact ⟨oldT, halg, by rw [holdkeys, ← hkeys]; exact hm⟩
      · rw [if_neg hidt] at ht'
        exact ⟨t', ht', hm⟩
  · intro id t' ht'
    rw [hmap, alGet_alPut] at ht'
    by_cases hidt : id = t.id
    · rw [if_pos hidt] at ht'
      have hteq := Option.some.inj ht'
      subst hteq
      subst hidt
      exact ⟨rfl, hkeys, hnd⟩
    · rw [if_neg hidt] at ht'
      exact hinv.2 id t' ht'

/-- The reference-counting invariant survives adding a fresh task whose ID
is inserted under exactly its dependency keys. -/
theorem RefInv_of_fresh (K : String → List TypeAndID) (a' a : AssignmentSet) (t : Task)
    (hdep : ∀ k, a'.depGet k = if k ∈ t.depKeys then setAdd (a.depGet k) t.id else a.depGet k)
    (hmap : a'.tasksMap = alPut a.tasksMap t.id t)
    (hinv : RefInv K a) (halg : alGet a.tasksMap t.id = none)
    (hkeys : t.depKeys = K t.id) (hnd : (K t.id).Nodup) :
    RefInv K a' := by
  constructor
  · intro k id
    rw [hdep k, hmap]
    by_cases hk : k ∈ t.depKeys
    · rw [if_pos hk, mem_setAdd]
      constructor
      · rintro (h | h)
        · rcases (hinv.1 k id).1 h with ⟨t', ht', hm⟩
          have hidt : ¬(id = t.id) := fun he => by
            rw [he, halg] at ht'
            exact Option.noConfusion ht'
          exact ⟨t', by rw [alGet_alPut, if_neg hidt]; exact ht', hm⟩
        · exact ⟨t, by rw [h, alGet_alPut, if_pos rfl], hk⟩
      · rintro ⟨t', ht', hm⟩
        rw [alGet_alPut] at ht'
        by_cases hidt : id = t.id
        · exact Or.inr hidt
        · rw [if_neg hidt] at ht'
          exact Or.inl ((hinv.1 k id).2 ⟨t', ht', hm⟩)
    · rw [if_neg hk]
      constructor
      · intro h
        rcases (hinv.1 k id).1 h with ⟨t', ht', hm⟩
        have hidt : ¬(id = t.id) := fun he => by
          rw [he, halg] at ht'
          exact Option.noConfusion ht'
        exact ⟨t', by rw [alGet_alPut, if_neg hidt]; exact ht', hm⟩
      · rintro ⟨t', ht', hm⟩
        rw [alGet_alPut] at ht'
        by_cases hidt : id = t.id
        · rw [if_pos hidt] at ht'
          have hteq := Option.some.inj ht'
          subst hteq
          exact absurd hm hk
        · rw [if_neg hidt] at ht'
          exact (hinv.1 k id).2 ⟨t', ht', hm⟩
  · intro id t' ht'
    rw [hmap, alGet_alPut] at ht'
    by_cases hidt : id = t.id
    · rw [if_pos hidt] at ht'
      have hteq := Option.some.inj ht'
      subst hteq
      subst hidt
      exact ⟨rfl, hkeys, hnd⟩
    · rw [if_neg hidt] at ht'
      exact hinv.2 id t' ht'

/-- The reference-counting invariant survives removing a stored task whose
ID is deleted from exactly its dependency keys. -/
theorem RefInv_of_remove (K : String → List TypeAndID) (a' a : AssignmentSet)
    (t oldT : Task)
    (hdep : ∀ k, a'.depGet k = if k ∈ t.depKeys then setDel (a.depGet k) t.id else a.depGet k)
    (hmap : a'.tasksMap = alDel a.tasksMap t.id)
    (hinv : RefInv K a) (halg : alGet a.tasksMap t.id = some oldT)
    (hkeys : t.depKeys = K t.id) :
    RefInv K a' := by
  obtain ⟨hidf, holdkeys, _⟩ := hinv.2 t.id oldT halg
  constructor
  · intro k id
    rw [hdep k, hmap]
    by_cases hk : k ∈ t.depKeys
    · rw [if_pos hk, mem_setDel]
      constructor
      · rintro ⟨hin, hne⟩
        rcases (hinv.1 k id).1 hin with ⟨t', ht', hm⟩
        refine ⟨t', ?_, hm⟩
        rw [alGet_alDel, if_neg hne]
        exact ht'
      · rintro ⟨t', ht', hm⟩
        rw [alGet_alDel] at ht'
        by_cases hidt : id = t.id
        · rw [if_pos hidt] at ht'
          exact Option.noConfusion ht'
        · rw [if_neg hidt] at ht'
          exact ⟨(hinv.1 k id).2 ⟨t', ht', hm⟩, hidt⟩
    · rw [if_neg hk]
      constructor
      · intro hin
        rcases (hinv.1 k id).1 hin with ⟨t', ht', hm⟩
        by_cases hidt : id = t.id
        · subst hidt
          rw [halg] at ht'
          have hteq := Option.some.inj ht'
          subst hteq
          exact absurd (show k ∈ t.depKeys by rw [hkeys, ← holdkeys]; exact hm) hk
        · exact ⟨t', by rw [alGet_alDel, if_neg hidt]; exact ht', hm⟩
      · rintro ⟨t', ht', hm⟩
        rw [alGet_alDel] at ht'
        by_cases hidt : id = t.id
        · rw [if_pos hidt] at ht'
          exact Option.noConfusion ht'
        · rw [if_neg hidt] at ht'
          exact (hinv.1 k id).2 ⟨t', ht', hm⟩
  · intro id t' ht'
    rw [hmap, alGet_alDel] at ht'
    by_cases hidt : id = t.id
    · rw [if_pos hidt] at ht'
      exact Option.noConfusion ht'
    · rw [if_neg hidt] at ht'
      exact hinv.2 id t' ht'

/-- `newAssignmentSet` satisfies the invariant for every key map. -/
theorem RefInv_empty (K : String → List TypeAndID) : RefInv K newAssignmentSet := by
  constructor
  · intro k id
    constructor
    · intro h
      exact absurd h (List.not_mem_nil id)
    · rintro ⟨t, ht, _⟩
      exact Option.noConfusion ht
  · intro id t ht
    exact Option.noConfusion ht

/-- One well-formed `addOrUpdateTask` call preserves the invariant, emits
only Updates, and never drains a reverse-index entry. -/
theorem refcount_step_add (K : String → List TypeAndID) (env : Env) (t : Task)
    (a : AssignmentSet) (hinv : RefInv K a)
    (hok : opOK K (AsnOp.add env t) = true) :
    RefInv K (stepOp a (AsnOp.add env t)).1 ∧
    (∀ w ∈ (stepOp a (AsnOp.add env t)).2, w.2.action = AssignmentAction.update) ∧
    (∀ k : TypeAndID, (stepOp a (AsnOp.add env t)).1.depGet k = [] → a.depGet k = []) := by
  have hok' := hok
  unfold opOK at hok'
  rw [Bool.and_eq_true, Bool.and_eq_true, Bool.and_eq_true] at hok'
  obtain ⟨⟨⟨h1, h2⟩, h3⟩, h4⟩ := hok'
  have hst : t.status.state.code ≤ TaskState.running.code := of_decide_eq_true h1
  have hkeys : t.depKeys = K t.id := of_decide_eq_true h2
  have hnd : (K t.id).Nodup := of_decide_eq_true h3
  have hmemiff : ∀ k, k ∈ addKeys env t ↔ k ∈ t.depKeys := keysSetEq_spec _ _ h4
  have hside : ∀ kk : TypeAndID, kk.objType = ResourceType.task → a.depGet kk = [] := by
    intro kk hkk
    cases hd : a.depGet kk with
    | nil => rfl
    | cons x xs =>
      exfalso
      have hx : x ∈ a.depGet kk := by
        rw [hd]
        exact List.mem_cons_self _ _
      rcases (hinv.1 kk x).1 hx with ⟨t', _, hmem⟩
      exact depKeys_not_task t' kk hmem hkk
  by_cases hlow : t.status.state.code < TaskState.assigned.code
  · have hb := addOrUpdateTask_below env a t hlow
    refine ⟨?_, ?_, ?_⟩
    · show RefInv K (addOrUpdateTask env a t).1
      rw [hb]
      exact hinv
    · show ∀ w ∈ (addOrUpdateTask env a t).2.1, _
      rw [hb]
      exact fun w hw => absurd hw (List.not_mem_nil w)
    · intro k
      show (addOrUpdateTask env a t).1.depGet k = [] → _
      rw [hb]
      exact id
  · cases halg : alGet a.tasksMap t.id with
    | some oldT =>
      have hkn := addOrUpdateTask_known env a t oldT hlow halg
      by_cases hcond : env.tasksEqualStable oldT t = true ∧
          TaskState.assigned.code < t.status.state.code
      · rw [if_pos hcond] at hkn
        have hnrun : ¬(TaskState.running.code < t.status.state.code) := fun hr =>
          absurd (Nat.lt_of_lt_of_le hr hst) (Nat.lt_irrefl _)
        rw [if_neg hnrun] at hkn
        refine ⟨?_, ?_, ?_⟩
        · show RefInv K (addOrUpdateTask env a t).1
          rw [hkn]
          exact RefInv_of_components K _ a t oldT (fun k => rfl) rfl hinv halg hkeys hnd
        · show ∀ w ∈ (addOrUpdateTask env a t).2.1, _
          rw [hkn]
          exact fun w hw => absurd hw (List.not_mem_nil w)
        · intro k
          show (addOrUpdateTask env a t).1.depGet k = [] → _
          rw [hkn]
          exact id
      · rw [if_neg hcond] at hkn
        refine ⟨?_, ?_, ?_⟩
        · show RefInv K (addOrUpdateTask env a t).1
          rw [hkn]
          exact RefInv_of_components K _ a t oldT (fun k => rfl) rfl hinv halg hkeys hnd
        · show ∀ w ∈ (addOrUpdateTask env a t).2.1, _
          rw [hkn]
          intro w hw
          have hww := List.mem_singleton.1 hw
          subst hww
          rfl
        · intro k
          show (addOrUpdateTask env a t).1.depGet k = [] → _
          rw [hkn]
          exact id
    | none =>
      have hfr := addOrUpdateTask_fresh env a t hlow halg
      rw [if_pos hst] at hfr
      have hdep : ∀ k, (addOrUpdateTask env a t).1.depGet k =
          if k ∈ t.depKeys then setAdd (a.depGet k) t.id else a.depGet k := by
        intro k
        rw [hfr]
        show (addTaskDependencies env a t).1.depGet k = _
        rw [addTaskDependencies_depGet env a t hside k]
        exact if_congr (hmemiff k) rfl rfl
      refine ⟨?_, ?_, ?_⟩
      · refine RefInv_of_fresh K (addOrUpdateTask env a t).1 a t hdep ?_ hinv halg hkeys hnd
        rw [hfr]
        show alPut (addTaskDependencies env a t).1.tasksMap t.id t = alPut a.tasksMap t.id t
        rw [addTaskDependencies_tasksMap]
      · show ∀ w ∈ (addOrUpdateTask env a t).2.1, _
        rw [hfr]
        intro w hw
        show w.2.action = _
        rcases List.mem_append.1 hw with h | h
        · exact addTaskDependencies_writes_update env a t w h
        · have hww := List.mem_singleton.1 h
          subst hww
          rfl
      · intro k he
        have he2 : (addOrUpdateTask env a t).1.depGet k = [] := he
        rw [hdep k] at he2
        revert he2
        split_ifs with hk
        · intro he2
          exact absurd he2 (setAdd_ne_nil _ _)
        · exact id

/-- One well-formed `removeTask` call preserves the invariant, and its
Remove count at every non-task key equals the non-empty-to-empty transition
indicator of the step. -/
theorem refcount_step_remove (K : String → List TypeAndID) (t : Task)
    (a : AssignmentSet) (hinv : RefInv K a)
    (hok : opOK K (AsnOp.remove t) = true) :
    RefInv K (stepOp a (AsnOp.remove t)).1 ∧
    (∀ k : TypeAndID, ¬(k.objType = ResourceType.task) →
      removesFor (stepOp a (AsnOp.remove t)).2 k =
        if ¬(a.depGet k).isEmpty ∧ ((stepOp a (AsnOp.remove t)).1.depGet k).isEmpty
        then 1 else 0) := by
  have hok' := hok
  unfold opOK at hok'
  rw [Bool.and_eq_true] at hok'
  obtain ⟨h2, h3⟩ := hok'
  have hkeys : t.depKeys = K t.id := of_decide_eq_true h2
  have hnd : (K t.id).Nodup := of_decide_eq_true h3
  have hndt : t.depKeys.Nodup := by
    rw [hkeys]
    exact hnd
  cases halg : alGet a.tasksMap t.id with
  | none =>
    have hrt := removeTask_unknown a t halg
    refine ⟨?_, ?_⟩
    · show RefInv K (removeTask a t).1
      rw [hrt]
      exact hinv
    · intro k _
      show removesFor (removeTask a t).2.1 k =
        if ¬(a.depGet k).isEmpty ∧ ((removeTask a t).1.depGet k).isEmpty then 1 else 0
      rw [hrt]
      have h0 : removesFor ([] : List Write) k = 0 := rfl
      rw [h0]
      cases he : (a.depGet k).isEmpty
      · rw [if_neg (fun hc => Bool.noConfusion (hc.2 : false = true))]
      · rw [if_neg (fun hc => hc.1 rfl)]
  | some oldT =>
    have hrt := removeTask_known2 a t oldT halg
    obtain ⟨hidf, holdkeys, _⟩ := hinv.2 t.id oldT halg
    have hdep : ∀ k, (releaseTaskDependencies (rmBase a t) t).1.depGet k =
        if k ∈ t.depKeys then setDel (a.depGet k) t.id else a.depGet k := by
      intro k
      rw [releaseTaskDependencies_depGet (rmBase a t) t hndt k]
      rfl
    refine ⟨?_, ?_⟩
    · show RefInv K (removeTask a t).1
      rw [hrt]
      refine RefInv_of_remove K (releaseTaskDependencies (rmBase a t) t).1 a t oldT
        hdep ?_ hinv halg hkeys
      rw [(releaseTaskDependencies_spec (rmBase a t) t).2.1]
      rfl
    · intro k hk
      show removesFor (removeTask a t).2.1 k =
        if ¬(a.depGet k).isEmpty ∧ ((removeTask a t).1.depGet k).isEmpty then 1 else 0
      rw [hrt]
      have hcons : removesFor (rmTaskWrite t :: (releaseTaskDependencies (rmBase a t) t).2.1) k
          = removesFor (releaseTaskDependencies (rmBase a t) t).2.1 k := by
        unfold removesFor
        rw [List.countP_cons]
        have hfalse : (decide ((rmTaskWrite t).1 = k ∧
            (rmTaskWrite t).2.action = AssignmentAction.remove)) = false := by
          apply decide_eq_false
          rintro ⟨hc1, _⟩
          apply hk
          rw [← hc1]
          rfl
        rw [hfalse, if_neg (fun hc => Bool.noConfusion hc), Nat.add_zero]
      rw [hcons, releaseTaskDependencies_removesFor (rmBase a t) t hndt k]
      have hrb : (rmBase a t).depGet k = a.depGet k := rfl
      rw [hrb, hdep k]
      by_cases hmemk : k ∈ t.depKeys
      · rw [if_pos hmemk]
        have htid : t.id ∈ a.depGet k := (hinv.1 k t.id).2
          ⟨oldT, halg, by rw [holdkeys, ← hkeys]; exact hmemk⟩
        have hne : ¬((a.depGet k).isEmpty = true) := by
          intro hc
          rw [(isEmpty_iff_nil _).1 hc] at htid
          exact absurd htid (List.not_mem_nil _)
        by_cases hsd : setDel (a.depGet k) t.id = []
        · rw [if_pos (⟨hmemk, hsd⟩ : k ∈ t.depKeys ∧ setDel (a.depGet k) t.id = []),
            if_pos (⟨hne, by rw [hsd]; rfl⟩ :
              ¬((a.depGet k).isEmpty = true) ∧ (setDel (a.depGet k) t.id).isEmpty = true)]
        · rw [if_neg (fun hc => hsd hc.2),
            if_neg (fun hc => hsd ((isEmpty_iff_nil _).1 hc.2))]
      · rw [if_neg hmemk, if_neg (fun hc => hmemk hc.1),
          if_neg (fun hc => hc.1 hc.2)]

/-- Over any well-formed call sequence, the invariant is maintained and the
Remove count at every non-task key equals the number of non-empty-to-empty
transitions of that key's reverse-index entry. -/
theorem refcount_run (K : String → List TypeAndID) (a : AssignmentSet) (ops : List AsnOp)
    (hinv : RefInv K a) (hok : ops.all (opOK K) = true) :
    RefInv K (runOps a ops).1 ∧
    (∀ k : TypeAndID, ¬(k.objType = ResourceType.task) →
      removesFor (runOps a ops).2 k = transitionsFor a ops k) := by
  induction ops generalizing a with
  | nil => exact ⟨hinv, fun k _ => rfl⟩
  | cons op rest ih =>
    rw [List.all_cons, Bool.and_eq_true] at hok
    obtain ⟨hok1, hokrest⟩ := hok
    cases op with
    | add env t =>
      obtain ⟨hinv', hupd, hempback⟩ := refcount_step_add K env t a hinv hok1
      obtain ⟨hinvrun, hcount⟩ := ih (stepOp a (AsnOp.add env t)).1 hinv' hokrest
      refine ⟨hinvrun, ?_⟩
      intro k hk
      have hrun : runOps a (AsnOp.add env t :: rest)
          = ((runOps (stepOp a (AsnOp.add env t)).1 rest).1,
             (stepOp a (AsnOp.add env t)).2 ++ (runOps (stepOp a (AsnOp.add env t)).1 rest).2)
          := rfl
      have htr : transitionsFor a (AsnOp.add env t :: rest) k
          = (if ¬(a.depGet k).isEmpty ∧ ((stepOp a (AsnOp.add env t)).1.depGet k).isEmpty
             then 1 else 0)
            + transitionsFor (stepOp a (AsnOp.add env t)).1 rest k := rfl
      rw [hrun, removesFor_append, removesFor_zero_of_update _ k hupd, Nat.zero_add,
        hcount k hk, htr]
      have hz : (if ¬(a.depGet k).isEmpty ∧ ((stepOp a (AsnOp.add env t)).1.depGet k).isEmpty
          then 1 else 0) = 0 := by
        rw [if_neg]
        rintro ⟨hne, hemp⟩
        apply hne
        rw [hempback k ((isEmpty_iff_nil _).1 hemp)]
        rfl
      rw [hz, Nat.zero_add]
    | remove t =>
      obtain ⟨hinv', hcnt⟩ := refcount_step_remove K t a hinv hok1
      obtain ⟨hinvrun, hcount⟩ := ih (stepOp a (AsnOp.remove t)).1 hinv' hokrest
      refine ⟨hinvrun, ?_⟩
      intro k hk
      have hrun : runOps a (AsnOp.remove t :: rest)
          = ((runOps (stepOp a (AsnOp.remove t)).1 rest).1,
             (stepOp a (AsnOp.remove t)).2 ++ (runOps (stepOp a (AsnOp.remove t)).1 rest).2)
          := rfl
      have htr : transitionsFor a (AsnOp.remove t :: rest) k
          = (if ¬(a.depGet k).isEmpty ∧ ((stepOp a (AsnOp.remove t)).1.depGet k).isEmpty
             then 1 else 0)
            + transitionsFor (stepOp a (AsnOp.remove t)).1 rest k := rfl
      rw [hrun, removesFor_append, hcnt k hk, hcount k hk, htr]

/-- C1 (amended): for any interleaving of well-formed `addOrUpdateTask` and
`removeTask` calls — each added task admitted at a state at most RUNNING,
with a duplicate-free dependency-key set that matches the keys the add path
registers — the reverse-index entry `tasksUsingDependency[k]` is empty iff
no task stored in `tasksMap` references `k`, and a Remove change for a
dependency key `k` is emitted exactly once per transition of its entry from
non-empty to empty. -/
theorem assignment_refcounting (K : String → List TypeAndID) (a : AssignmentSet)
    (ops : List AsnOp) (hinv : RefInv K a) (hok : ops.all (opOK K) = true) :
    (∀ k : TypeAndID,
      ((runOps a ops).1.depGet k = [] ↔
        ∀ id t, alGet (runOps a ops).1.tasksMap id = some t → ¬(k ∈ t.depKeys))) ∧
    (∀ k : TypeAndID, ¬(k.objType = ResourceType.task) →
      removesFor (runOps a ops).2 k = transitionsFor a ops k) := by
  obtain ⟨hri, hcnt⟩ := refcount_run K a ops hinv hok
  refine ⟨?_, hcnt⟩
  intro k
  constructor
  · intro he id t ht hm
    have hx : id ∈ (runOps a ops).1.depGet k := (hri.1 k id).2 ⟨t, ht, hm⟩
    rw [he] at hx
    exact absurd hx (List.not_mem_nil id)
  · intro hno
    cases hd : (runOps a ops).1.depGet k with
    | nil => rfl
    | cons x xs =>
      exfalso
      have hx : x ∈ (runOps a ops).1.depGet k := by
        rw [hd]
        exact List.mem_cons_self _ _
      rcases (hri.1 k x).1 hx with ⟨t, ht, hm⟩
      exact hno x t ht hm

/-- Witness for C1 on the shared-secret scenario: add T and T2 (both using
secret "X"), remove T (no Remove emitted), remove T2 (one Remove): the count
equals the single transition, and it is 1. -/
theorem assignment_refcounting_witness :
    removesFor (runOps newAssignmentSet opsE4).2 kX
      = transitionsFor newAssignmentSet opsE4 kX ∧
    removesFor (runOps newAssignmentSet opsE4).2 kX = 1 :=
  ⟨(assignment_refcounting KX newAssignmentSet opsE4 (RefInv_empty KX) (by decide)).2 kX
      (by decide),
   by decide⟩

/-- C1 counterexample against the unamended claim: a single admitted
`addOrUpdateTask` call — a fresh task at state FAILED (above RUNNING) — is
stored in `tasksMap` while none of its dependency keys is registered, so
the stored task references secret "X" while `tasksUsingDependency` for that
key is empty: the claimed iff fails for an arbitrary call sequence. -/
theorem assignment_refcounting_counterexample :
    (runOps newAssignmentSet [AsnOp.add envEmpty taskRefXFailed]).1.depGet kX = [] ∧
    alGet (runOps newAssignmentSet [AsnOp.add envEmpty taskRefXFailed]).1.tasksMap "TB"
      = some taskRefXFailed ∧
    kX ∈ taskRefXFailed.depKeys := by decide

end SwarmKit
